import Mathlib

/-!
# The Pong step function of `pong.cpp`

A shallow embedding of the simulation core of `pong.cpp`: the paddle and ball
primitives, the AI controller `makeAIMove` and the per-tick transition
`updatePosition`.

Modelling conventions.

* A C++ `float` is an IEEE 754 binary32 value, `F32`: a finite value is the rational
  it denotes, and there are the two infinities and NaN. The two zeros are one value.
  Every arithmetic operation of the source is the exact operation followed by rounding
  to nearest, ties to even, with gradual underflow and overflow to an infinity
  (`F32.round`). Comparisons are the IEEE ones: false when an operand is NaN.
* `xspeed *= 1.05` is evaluated as the source is typed: the `float` is widened to
  `double`, multiplied by the `double` nearest to `1.05` with rounding to binary64, and
  the product is rounded to binary32 (`F32.timesDouble105`).
* The conversion `float → int` (`int idealPosition = ...`) truncates toward zero when
  the truncated value is an `int` and is undefined otherwise, see `toInt`. The functions
  that convert take an argument `undef`, the value that an undefined conversion yields in
  that call, so that they are total and statements quantify over it.
* The comparison of an `int` with a `float` converts the `int` to `float` (`F32.ofInt`).
* An `int` is a 32-bit two's-complement integer; `+= 1` wraps, see `wrapInt32`.
* `rand()` is an explicit argument: the value drawn when a `Ball` is built.
* The canvas, the logger and the embind registration do not touch the game
  state and are left out.
-/

namespace Pong

/-! ## Machine arithmetic -/

/-- Largest value of a 32-bit `int`. -/
def INT_MAX : ℤ := 2147483647

/-- Smallest value of a 32-bit `int`. -/
def INT_MIN : ℤ := -2147483648

/-- Reduction of a mathematical integer into the 32-bit two's-complement range. -/
def wrapInt32 (z : ℤ) : ℤ := (z + 2147483648) % 4294967296 - 2147483648

/-- The libc constant `RAND_MAX` (musl, the libc of the Emscripten toolchain). -/
def RAND_MAX : ℕ := 2147483647

/-- Nearest integer, ties to the even one. -/
def roundHalfEven (q : ℚ) : ℤ :=
  if q - ⌊q⌋ < 1 / 2 then ⌊q⌋
  else if 1 / 2 < q - ⌊q⌋ then ⌊q⌋ + 1
  else if ⌊q⌋ % 2 = 0 then ⌊q⌋ else ⌊q⌋ + 1

/-- Exponent of the unit in the last place of `q` in a binary format with `prec`
significand bits and least normal exponent `emin` (gradual underflow below `2 ^ emin`). -/
def ulpExp (prec : ℕ) (emin : ℤ) (q : ℚ) : ℤ := max (Int.log 2 |q|) emin - ((prec : ℤ) - 1)

/-- Rounding to nearest, ties to even, in the binary format with `prec` significand bits
and least normal exponent `emin`; the exponent is not bounded above. -/
def roundTo (prec : ℕ) (emin : ℤ) (q : ℚ) : ℚ :=
  (roundHalfEven (q / 2 ^ ulpExp prec emin q) : ℚ) * 2 ^ ulpExp prec emin q

/-- The number `c` is a value of the binary format with `prec` significand bits and
least normal exponent `emin`: an integer of magnitude at most `2 ^ prec` times a power
of two that is at least the smallest unit in the last place. -/
def Representable (prec : ℕ) (emin : ℤ) (c : ℚ) : Prop :=
  ∃ m e : ℤ, |m| ≤ 2 ^ prec ∧ emin - ((prec : ℤ) - 1) ≤ e ∧ c = (m : ℚ) * 2 ^ e

/-- A value of the C++ type `float` (IEEE 754 binary32): a finite number, an infinity
or a NaN. The two zeros are identified. -/
inductive F32 where
  | fin (q : ℚ)
  | posInf
  | negInf
  | nan
deriving DecidableEq

/-- Rounding of an exact result to binary32: to nearest, ties to even; a result of
magnitude `2 ^ 128` or more overflows to an infinity. -/
def F32.round (q : ℚ) : F32 :=
  if (2 : ℚ) ^ 128 ≤ |roundTo 24 (-126) q| then (if 0 < q then F32.posInf else F32.negInf)
  else F32.fin (roundTo 24 (-126) q)

/-- Rounding of an exact result to binary64, for results within the finite range. -/
def roundDouble (q : ℚ) : ℚ := roundTo 53 (-1022) q

/-- The `double` literal `1.05`. -/
def DOUBLE_1_05 : ℚ := roundDouble (21 / 20)

/-- The value is one that binary32 holds: a finite value is a fixed point of the
rounding. -/
def F32.IsFloat : F32 → Prop
  | fin q => round q = fin q
  | _ => True

/-- Unary minus (exact). -/
def F32.neg : F32 → F32
  | fin q => fin (-q)
  | posInf => negInf
  | negInf => posInf
  | nan => nan

/-- Addition of binary32. -/
def F32.add : F32 → F32 → F32
  | fin a, fin b => round (a + b)
  | nan, _ => nan
  | _, nan => nan
  | posInf, negInf => nan
  | negInf, posInf => nan
  | posInf, _ => posInf
  | negInf, _ => negInf
  | fin _, posInf => posInf
  | fin _, negInf => negInf

/-- Subtraction of binary32. -/
def F32.sub (a b : F32) : F32 := add a (neg b)

/-- Multiplication of binary32. -/
def F32.mul : F32 → F32 → F32
  | fin a, fin b => round (a * b)
  | nan, _ => nan
  | _, nan => nan
  | fin a, posInf => if 0 < a then posInf else if a < 0 then negInf else nan
  | fin a, negInf => if 0 < a then negInf else if a < 0 then posInf else nan
  | posInf, fin b => if 0 < b then posInf else if b < 0 then negInf else nan
  | negInf, fin b => if 0 < b then negInf else if b < 0 then posInf else nan
  | posInf, posInf => posInf
  | negInf, negInf => posInf
  | posInf, negInf => negInf
  | negInf, posInf => negInf

/-- Division of binary32 by a divisor that is not a zero. The quotient by a zero
depends on the sign of the zero, which this type does not record: it is given as `nan`
here, and the one division of the program whose divisor can be zero is guarded where it
is used, in `idealPosition`. -/
def F32.div : F32 → F32 → F32
  | fin a, fin b => if b = 0 then nan else round (a / b)
  | nan, _ => nan
  | _, nan => nan
  | fin _, posInf => fin 0
  | fin _, negInf => fin 0
  | posInf, fin b => if 0 < b then posInf else if b < 0 then negInf else nan
  | negInf, fin b => if 0 < b then negInf else if b < 0 then posInf else nan
  | posInf, posInf => nan
  | negInf, negInf => nan
  | posInf, negInf => nan
  | negInf, posInf => nan

/-- The comparison `<` of binary32: false when an operand is a NaN. -/
def F32.lt : F32 → F32 → Prop
  | fin a, fin b => a < b
  | negInf, fin _ => True
  | negInf, posInf => True
  | fin _, posInf => True
  | _, _ => False

/-- The comparison `<=` of binary32: false when an operand is a NaN. -/
def F32.le : F32 → F32 → Prop
  | fin a, fin b => a ≤ b
  | negInf, fin _ => True
  | negInf, posInf => True
  | fin _, posInf => True
  | posInf, posInf => True
  | negInf, negInf => True
  | _, _ => False

instance : Neg F32 := ⟨F32.neg⟩
instance : Add F32 := ⟨F32.add⟩
instance : Sub F32 := ⟨F32.sub⟩
instance : Mul F32 := ⟨F32.mul⟩
instance : Div F32 := ⟨F32.div⟩
instance : LT F32 := ⟨F32.lt⟩
instance : LE F32 := ⟨F32.le⟩

instance F32.decLt (a b : F32) : Decidable (a < b) := by
  cases a <;> cases b <;> simp only [LT.lt, lt] <;> infer_instance

instance F32.decLe (a b : F32) : Decidable (a ≤ b) := by
  cases a <;> cases b <;> simp only [LE.le, le] <;> infer_instance

/-- Magnitude. -/
def F32.abs : F32 → F32
  | fin q => fin |q|
  | posInf => posInf
  | negInf => posInf
  | nan => nan

/-- Sign of a value: `0` for a zero and for a NaN. -/
def F32.sign : F32 → SignType
  | fin q => SignType.sign q
  | posInf => 1
  | negInf => -1
  | nan => 0

/-- Conversion `int → float`, as in the comparison of an `int` with a `float`. -/
def F32.ofInt (z : ℤ) : F32 := round (z : ℚ)

/-- The product of a `float` with the `double` literal `1.05`, stored in a `float`:
line 182, `xspeed *= 1.05`. The product is formed in binary64 and then rounded to
binary32. -/
def F32.timesDouble105 : F32 → F32
  | fin a => round (roundDouble (a * DOUBLE_1_05))
  | posInf => posInf
  | negInf => negInf
  | nan => nan

/-- Conversion `float → int`: truncation toward zero when the truncated value is an
`int`; undefined (`none`) for the other finite values, the infinities and NaN. -/
def toInt : F32 → Option ℤ
  | F32.fin q =>
    if -2147483649 < q ∧ q < 2147483648 then some (if 0 ≤ q then ⌊q⌋ else ⌈q⌉) else none
  | _ => none

/-- A conversion `float → int` on a platform where an undefined conversion yields
`undef`. -/
def toIntOr (undef : ℤ) (x : F32) : ℤ := (toInt x).getD undef

/-! ## Data model -/

/-- Source: `enum class Move`. -/
inductive Move where
  | STATIONARY
  | UP
  | DOWN
deriving DecidableEq

/-- Source: `struct Paddle`. -/
structure Paddle where
  xpos : F32
  ypos : F32
deriving DecidableEq

/-- Source: `Paddle::moveUp`. -/
def Paddle.moveUp (p : Paddle) : Paddle :=
  if p.ypos > F32.fin 50 then { p with ypos := p.ypos - F32.fin 1 } else p

/-- Source: `Paddle::moveDown`. -/
def Paddle.moveDown (p : Paddle) : Paddle :=
  if p.ypos < F32.fin 550 then { p with ypos := p.ypos + F32.fin 1 } else p

/-- Source: `Paddle::isAtPaddleLevel`. -/
def Paddle.isAtPaddleLevel (p : Paddle) (ypos : F32) : Bool :=
  decide (ypos - F32.fin 5 < p.ypos + F32.fin 50) &&
    decide (ypos + F32.fin 5 > p.ypos - F32.fin 50)

/-- Source: `struct Ball`. -/
structure Ball where
  xpos : F32
  ypos : F32
  xspeed : F32
  yspeed : F32
deriving DecidableEq

/-- Source: the default member initialisers of `Ball`, i.e. `Ball{}`; `rand` is the
value returned by the call of `rand()`. -/
def Ball.init (rand : ℕ) : Ball :=
  { xpos := F32.fin 395, ypos := F32.fin 295, xspeed := F32.fin 1,
    yspeed := F32.ofInt (rand : ℤ) / F32.ofInt (RAND_MAX : ℤ) }

/-- Source: `Ball::isAtTopOrBottom`. -/
def Ball.isAtTopOrBottom (b : Ball) : Bool :=
  decide (b.ypos - F32.fin 5 < F32.fin 0) || decide (b.ypos + F32.fin 5 > F32.fin 595)

/-- Source: `Ball::scoresOnRight`. -/
def Ball.scoresOnRight (b : Ball) : Bool := decide (b.xpos > F32.fin 775)

/-- Source: `Ball::scoresOnLeft`. -/
def Ball.scoresOnLeft (b : Ball) : Bool := decide (b.xpos < F32.fin 25)

/-- Source: `Ball::doesHitPaddle`. -/
def Ball.doesHitPaddle (b : Ball) (left right : Paddle) : Bool :=
  (decide (b.xpos - F32.fin 5 < F32.fin 50) && left.isAtPaddleLevel b.ypos) ||
    (decide (b.xpos + F32.fin 5 > F32.fin 750) && right.isAtPaddleLevel b.ypos)

/-- Source: `Ball::update`. -/
def Ball.update (b : Ball) : Ball :=
  { b with xpos := b.xpos + b.xspeed, ypos := b.ypos + b.yspeed }

/-- Source: `struct GameState`. -/
structure GameState where
  name : String
  ball : Ball
  left : Paddle
  right : Paddle
  move : Move
  leftScore : ℤ
  rightScore : ℤ
deriving DecidableEq

/-! ## Operations -/

/-- Source: `calculateReflectionFactor`. -/
def calculateReflectionFactor (ball : Ball) (left right : Paddle) : F32 :=
  let paddle := if ball.xpos > F32.fin 400 then right else left
  let factor := ball.ypos - paddle.ypos
  factor / F32.fin 100

/-- The `float` value that `makeAIMove` converts to the `int` local `idealPosition`:
`ball.ypos`, or `ball.ypos + ball.yspeed * turns` on the branch `xspeed <= 0`. With a
zero divisor `-1 * xspeed` the quotient, the product and the sum are infinities or
NaN, whatever the sign of the zero; the sum is given as `nan`. -/
def idealY (ball : Ball) : F32 :=
  if ball.xspeed ≤ F32.fin 0 then
    if F32.fin (-1) * ball.xspeed = F32.fin 0 then F32.nan
    else
      let turns := (ball.xpos - F32.fin 50) / (F32.fin (-1) * ball.xspeed)
      ball.ypos + ball.yspeed * turns
  else
    ball.ypos

/-- The value of the local `idealPosition` of `makeAIMove` when the two moves are
decided: the conversion of `idealY` to `int`; `undef` is what an undefined conversion
yields. On the branch `xspeed <= 0` the initial value, the conversion of `ball.ypos` on
line 144, is overwritten before it is read. -/
def idealPosition (undef : ℤ) (ball : Ball) : ℤ := toIntOr undef (idealY ball)

/-- Source: `makeAIMove`; the paddle passed by reference is returned. -/
def makeAIMove (undef : ℤ) (ball : Ball) (leftPaddle : Paddle) : Paddle :=
  let p1 := if F32.ofInt (idealPosition undef ball) > leftPaddle.ypos
    then leftPaddle.moveDown else leftPaddle
  if F32.ofInt (idealPosition undef ball) < p1.ypos then p1.moveUp else p1

/-- Source: `createInitialGameState`; `rand` is the draw of the ball's constructor. -/
def createInitialGameState (name : String) (rand : ℕ) : GameState :=
  { name := name, ball := Ball.init rand, left := ⟨F32.fin 25, F32.fin 300⟩,
    right := ⟨F32.fin 750, F32.fin 300⟩,
    move := Move.STATIONARY, leftScore := 0, rightScore := 0 }

/-- Lines 165-167 of `updatePosition`: the stall guard. -/
def stallGuard (gameState : GameState) : GameState :=
  if gameState.ball.xspeed = F32.fin 0 ∧ gameState.ball.yspeed = F32.fin 0 then
    { gameState with ball := { gameState.ball with xspeed := F32.fin 1 } }
  else gameState

/-- Lines 168-173 of `updatePosition`: the move command drives the right paddle. -/
def applyMove (gameState : GameState) : GameState :=
  let g1 := if gameState.move = Move.UP then
      { gameState with right := gameState.right.moveUp } else gameState
  if g1.move = Move.DOWN then { g1 with right := g1.right.moveDown } else g1

/-- Line 175 of `updatePosition`: the AI drives the left paddle. -/
def aiMove (undef : ℤ) (gameState : GameState) : GameState :=
  { gameState with left := makeAIMove undef gameState.ball gameState.left }

/-- Lines 177-179 of `updatePosition`: bounce off the top or bottom wall. -/
def wallBounce (gameState : GameState) : GameState :=
  if gameState.ball.isAtTopOrBottom then
    { gameState with ball := { gameState.ball with yspeed := -gameState.ball.yspeed } }
  else gameState

/-- Lines 180-184 of `updatePosition`: bounce off a paddle. -/
def paddleBounce (gameState : GameState) : GameState :=
  if gameState.ball.doesHitPaddle gameState.left gameState.right then
    let b1 : Ball := { gameState.ball with xspeed := -gameState.ball.xspeed }
    let b2 : Ball := { b1 with xspeed := b1.xspeed.timesDouble105 }
    { gameState with ball :=
        { b2 with yspeed := b2.yspeed +
            calculateReflectionFactor b2 gameState.left gameState.right } }
  else gameState

/-- Lines 186-193 of `updatePosition`: scoring and ball reset. The ball built on
line 187 is at `x = 395`, so line 191 never draws a second random number in the
same tick and one `rand` serves both. -/
def scoring (rand : ℕ) (gameState : GameState) : GameState :=
  let g1 := if gameState.ball.scoresOnRight then
      { gameState with ball := Ball.init rand,
                       leftScore := wrapInt32 (gameState.leftScore + 1) }
    else gameState
  if g1.ball.scoresOnLeft then
    { g1 with ball := Ball.init rand, rightScore := wrapInt32 (g1.rightScore + 1) }
  else g1

/-- Source: `updatePosition`; `rand` is the draw of `rand()` and `undef` the result of
an undefined `float → int` conversion in this call. -/
def updatePosition (rand : ℕ) (undef : ℤ) (gameState : GameState) : GameState :=
  let g := scoring rand
    (paddleBounce (wallBounce (aiMove undef (applyMove (stallGuard gameState)))))
  { g with ball := g.ball.update }

/-! ## Host loop, call sequences and derived quantities of a tick -/

/-- A call of one of the two mutators of `Paddle`. -/
inductive PaddleCall where
  | up
  | down
deriving DecidableEq

/-- The effect of one mutator call. -/
def Paddle.call (p : Paddle) : PaddleCall → Paddle
  | PaddleCall.up => p.moveUp
  | PaddleCall.down => p.moveDown

/-- The effect of a finite sequence of mutator calls, first call first. -/
def Paddle.calls (p : Paddle) (cs : List PaddleCall) : Paddle := cs.foldl Paddle.call p

/-- One frame of the host: it stores the move command read from the input device in
the state and calls `updatePosition`; `input.2.1` is the draw of `rand()` and
`input.2.2` the result of an undefined conversion in that call. -/
def tick (gameState : GameState) (input : Move × ℕ × ℤ) : GameState :=
  updatePosition input.2.1 input.2.2 { gameState with move := input.1 }

/-- A finite sequence of frames. -/
def run (gameState : GameState) (inputs : List (Move × ℕ × ℤ)) : GameState :=
  inputs.foldl tick gameState

/-- The paddle sits on an integer height between 50 and 550. -/
def Paddle.onGrid (p : Paddle) : Prop :=
  (∃ n : ℤ, p.ypos = F32.fin n) ∧ F32.fin 50 ≤ p.ypos ∧ p.ypos ≤ F32.fin 550

/-- The left paddle when the collision tests of a tick run: after the AI move. -/
def leftAfterMoves (undef : ℤ) (g : GameState) : Paddle :=
  makeAIMove undef (stallGuard g).ball g.left

/-- The right paddle when the collision tests of a tick run: after the move command. -/
def rightAfterMoves (g : GameState) : Paddle := (applyMove g).right

/-- The result of `doesHitPaddle` in a tick: the ball's position is the one before
integration, the paddles are the ones after this tick's moves. -/
def hitsPaddle (undef : ℤ) (g : GameState) : Bool :=
  g.ball.doesHitPaddle (leftAfterMoves undef g) (rightAfterMoves g)

/-- The ball of a tick after the wall and paddle bounces, before scoring and
integration. -/
def bouncedBall (undef : ℤ) (g : GameState) : Ball :=
  { xpos := g.ball.xpos
    ypos := g.ball.ypos
    xspeed :=
      if hitsPaddle undef g then (-(stallGuard g).ball.xspeed).timesDouble105
      else (stallGuard g).ball.xspeed
    yspeed :=
      if hitsPaddle undef g then
        (if g.ball.isAtTopOrBottom then -g.ball.yspeed else g.ball.yspeed) +
          (g.ball.ypos -
            (if g.ball.xpos > F32.fin 400 then rightAfterMoves g
              else leftAfterMoves undef g).ypos) / F32.fin 100
      else (if g.ball.isAtTopOrBottom then -g.ball.yspeed else g.ball.yspeed) }

/-- `makeAIMove` with the division of line 147 checked: `none` when the branch
`xspeed <= 0` is taken with the divisor `-1 * xspeed` equal to zero. -/
def makeAIMoveChecked (undef : ℤ) (ball : Ball) (leftPaddle : Paddle) : Option Paddle :=
  if ball.xspeed ≤ F32.fin 0 ∧ F32.fin (-1) * ball.xspeed = F32.fin 0 then none
  else some (makeAIMove undef ball leftPaddle)

/-- `updatePosition` with the division of `makeAIMove` checked: `none` when the call
on line 175 divides by zero, the result of `updatePosition` otherwise. -/
def updatePositionChecked (rand : ℕ) (undef : ℤ) (gameState : GameState) :
    Option GameState :=
  match makeAIMoveChecked undef (applyMove (stallGuard gameState)).ball
      (applyMove (stallGuard gameState)).left with
  | none => none
  | some _ => some (updatePosition rand undef gameState)

theorem log2_spec {q : ℚ} (hq : q ≠ 0) :
    (2 : ℚ) ^ Int.log 2 |q| ≤ |q| ∧ |q| < (2 : ℚ) ^ (Int.log 2 |q| + 1) := by
  have hpos : 0 < |q| := abs_pos.mpr hq
  have h1 := Int.zpow_log_le_self (b := 2) (by norm_num) hpos
  have h2 := Int.lt_zpow_succ_log_self (b := 2) (by norm_num) |q|
  simp only [Nat.cast_ofNat] at h1 h2
  exact ⟨h1, h2⟩

theorem log2_eq {q : ℚ} {E : ℤ} (h1 : (2 : ℚ) ^ E ≤ |q|) (h2 : |q| < (2 : ℚ) ^ (E + 1)) :
    Int.log 2 |q| = E := by
  have hpos : 0 < |q| := lt_of_lt_of_le (by positivity) h1
  have a := (Int.zpow_le_iff_le_log (b := 2) (by norm_num) hpos (x := E)).mp
    (by simpa using h1)
  have b := (Int.lt_zpow_iff_log_lt (b := 2) (by norm_num) hpos (x := E + 1)).mp
    (by simpa using h2)
  omega

theorem roundHalfEven_intCast (n : ℤ) : roundHalfEven (n : ℚ) = n := by
  unfold roundHalfEven
  simp

theorem le_roundHalfEven {m : ℤ} {q : ℚ} (h : (m : ℚ) ≤ q) : m ≤ roundHalfEven q := by
  have hf : m ≤ ⌊q⌋ := Int.le_floor.mpr h
  unfold roundHalfEven
  split_ifs <;> omega

theorem roundHalfEven_neg (q : ℚ) : roundHalfEven (-q) = -roundHalfEven q := by
  by_cases hint : (⌊q⌋ : ℚ) = q
  · rw [← hint, ← Int.cast_neg, roundHalfEven_intCast, roundHalfEven_intCast]
  · have hlt : (⌊q⌋ : ℚ) < q := lt_of_le_of_ne (Int.floor_le q) hint
    have hlt2 : q < (⌊q⌋ : ℚ) + 1 := Int.lt_floor_add_one q
    have hfl : ⌊-q⌋ = -⌊q⌋ - 1 := by
      rw [Int.floor_eq_iff]
      push_cast
      constructor <;> linarith
    unfold roundHalfEven
    rw [hfl]
    push_cast
    split_ifs <;> first | omega | (exfalso; linarith)

theorem pow2_pos (e : ℤ) : (0 : ℚ) < (2 : ℚ) ^ e := by positivity

theorem pow2_int {d : ℤ} (hd : 0 ≤ d) : ∃ z : ℤ, (2 : ℚ) ^ d = (z : ℚ) := by
  refine ⟨2 ^ d.toNat, ?_⟩
  have h : d = (d.toNat : ℤ) := (Int.toNat_of_nonneg hd).symm
  conv_lhs => rw [h]
  rw [zpow_natCast]
  push_cast
  rfl

theorem pow2_mono {a b : ℤ} (h : a ≤ b) : (2 : ℚ) ^ a ≤ (2 : ℚ) ^ b :=
  zpow_le_zpow_right₀ (by norm_num) h

theorem pow2_div (a b : ℤ) : (2 : ℚ) ^ a / (2 : ℚ) ^ b = (2 : ℚ) ^ (a - b) := by
  rw [zpow_sub₀ (by norm_num : (2 : ℚ) ≠ 0)]

theorem roundTo_eval (prec : ℕ) (emin : ℤ) {q : ℚ} {E : ℤ}
    (h1 : (2 : ℚ) ^ E ≤ |q|) (h2 : |q| < (2 : ℚ) ^ (E + 1)) :
    roundTo prec emin q =
      (roundHalfEven (q / 2 ^ (max E emin - ((prec : ℤ) - 1))) : ℚ) *
        2 ^ (max E emin - ((prec : ℤ) - 1)) := by
  unfold roundTo ulpExp
  rw [log2_eq h1 h2]

theorem roundTo_zero (prec : ℕ) (emin : ℤ) : roundTo prec emin 0 = 0 := by
  unfold roundTo
  simp [roundHalfEven]

theorem roundTo_neg (prec : ℕ) (emin : ℤ) (q : ℚ) :
    roundTo prec emin (-q) = -roundTo prec emin q := by
  unfold roundTo ulpExp
  rw [abs_neg, neg_div, roundHalfEven_neg]
  push_cast
  ring

theorem roundTo_nonneg (prec : ℕ) (emin : ℤ) {q : ℚ} (h : 0 ≤ q) :
    0 ≤ roundTo prec emin q := by
  unfold roundTo
  have h0 : (0 : ℤ) ≤ roundHalfEven (q / 2 ^ ulpExp prec emin q) :=
    le_roundHalfEven (by
      push_cast
      exact div_nonneg h (pow2_pos _).le)
  have h0q : (0 : ℚ) ≤ (roundHalfEven (q / 2 ^ ulpExp prec emin q) : ℚ) := by exact_mod_cast h0
  exact mul_nonneg h0q (pow2_pos _).le

theorem roundTo_nonpos (prec : ℕ) (emin : ℤ) {q : ℚ} (h : q ≤ 0) :
    roundTo prec emin q ≤ 0 := by
  have := roundTo_nonneg prec emin (q := -q) (by linarith)
  rw [roundTo_neg] at this
  linarith

/-- A lower bound that is an integer multiple of the unit in the last place of `q`
survives the rounding of `q`. -/
theorem le_roundTo_of_div_int (prec : ℕ) (emin : ℤ) {q c : ℚ} {z : ℤ}
    (hz : c / 2 ^ ulpExp prec emin q = (z : ℚ)) (h : c ≤ q) : c ≤ roundTo prec emin q := by
  unfold roundTo
  have hu := pow2_pos (ulpExp prec emin q)
  have hle : (z : ℚ) ≤ q / 2 ^ ulpExp prec emin q := by
    rw [← hz]
    exact div_le_div_of_nonneg_right h hu.le
  have hr : z ≤ roundHalfEven (q / 2 ^ ulpExp prec emin q) := le_roundHalfEven hle
  have hrq : (z : ℚ) ≤ (roundHalfEven (q / 2 ^ ulpExp prec emin q) : ℚ) := by exact_mod_cast hr
  have hc : c = (z : ℚ) * 2 ^ ulpExp prec emin q := by
    rw [← hz]
    field_simp
  rw [hc]
  exact mul_le_mul_of_nonneg_right hrq hu.le

theorem le_roundTo_of_rep {prec : ℕ} {emin : ℤ} {c q : ℚ} (hp : 1 ≤ prec)
    (hc : Representable prec emin c) (h : c ≤ q) : c ≤ roundTo prec emin q := by
  obtain ⟨m, e, hm, he, rfl⟩ := hc
  by_cases hq0 : q = 0
  · subst hq0
    rw [roundTo_zero]
    exact h
  obtain ⟨hE1, -⟩ := log2_spec hq0
  have hk : ulpExp prec emin q = max (Int.log 2 |q|) emin - ((prec : ℤ) - 1) := rfl
  have hle : ∀ (z : ℤ) (c : ℚ), c / 2 ^ ulpExp prec emin q = (z : ℚ) → c ≤ q →
      c ≤ roundTo prec emin q := fun z c hz hc => le_roundTo_of_div_int prec emin hz hc
  generalize Int.log 2 |q| = L at hE1 hk
  generalize ulpExp prec emin q = k at hk hle
  have hp' : (1 : ℤ) ≤ (prec : ℤ) := by exact_mod_cast hp
  by_cases hek : k ≤ e
  · obtain ⟨z, hz⟩ := pow2_int (d := e - k) (by omega)
    apply hle (m * z) _ _ h
    rw [mul_div_assoc, pow2_div, hz]
    push_cast
    rfl
  · have hEmin : emin < L := by
      rw [hk] at hek
      by_contra hcon
      rw [max_eq_right (not_lt.mp hcon)] at hek
      omega
    have hk2 : k = L - ((prec : ℤ) - 1) := by
      rw [hk, max_eq_left hEmin.le]
    have hep : (prec : ℤ) + e ≤ L := by
      rw [hk2] at hek
      omega
    have hmq : |(m : ℚ)| ≤ (2 : ℚ) ^ (prec : ℤ) := by
      rw [zpow_natCast]
      have : ((|m| : ℤ) : ℚ) ≤ ((2 ^ prec : ℤ) : ℚ) := by exact_mod_cast hm
      simpa using this
    have habs : |(m : ℚ) * 2 ^ e| ≤ (2 : ℚ) ^ L := by
      rw [abs_mul, abs_of_pos (pow2_pos e)]
      calc |(m : ℚ)| * 2 ^ e ≤ (2 : ℚ) ^ (prec : ℤ) * 2 ^ e :=
            mul_le_mul_of_nonneg_right hmq (pow2_pos e).le
        _ = (2 : ℚ) ^ ((prec : ℤ) + e) := by rw [zpow_add₀ (by norm_num : (2 : ℚ) ≠ 0)]
        _ ≤ (2 : ℚ) ^ L := pow2_mono hep
    obtain ⟨z, hz⟩ := pow2_int (d := (prec : ℤ) - 1) (by omega)
    have hdiv : (2 : ℚ) ^ L / 2 ^ k = (z : ℚ) := by
      rw [pow2_div, hk2, ← hz]
      congr 1
      omega
    rcases lt_or_gt_of_ne hq0 with hneg | hpos
    · rw [abs_of_neg hneg] at hE1
      have h3 : -((m : ℚ) * 2 ^ e) ≤ |(m : ℚ) * 2 ^ e| := neg_le_abs _
      have hcq : (m : ℚ) * 2 ^ e = q := by linarith
      have hq2 : q = -(2 : ℚ) ^ L := by
        have h4 : |q| ≤ (2 : ℚ) ^ L := by rw [← hcq]; exact habs
        rw [abs_of_neg hneg] at h4
        linarith
      rw [hcq]
      apply hle (-z) _ _ (le_refl q)
      have hdq : q / 2 ^ k = -((2 : ℚ) ^ L / 2 ^ k) := by
        rw [← neg_div]
        congr 1
      rw [hdq, hdiv]
      push_cast
      rfl
    · rw [abs_of_pos hpos] at hE1
      have h2E : (2 : ℚ) ^ L ≤ roundTo prec emin q := hle z _ hdiv hE1
      have h3 : (m : ℚ) * 2 ^ e ≤ |(m : ℚ) * 2 ^ e| := le_abs_self _
      linarith

theorem Representable.neg {prec : ℕ} {emin : ℤ} {c : ℚ} (hc : Representable prec emin c) :
    Representable prec emin (-c) := by
  obtain ⟨m, e, hm, he, rfl⟩ := hc
  exact ⟨-m, e, by rwa [abs_neg], he, by push_cast; ring⟩

theorem roundTo_le_of_rep {prec : ℕ} {emin : ℤ} {c q : ℚ} (hp : 1 ≤ prec)
    (hc : Representable prec emin c) (h : q ≤ c) : roundTo prec emin q ≤ c := by
  have := le_roundTo_of_rep hp hc.neg (q := -q) (by linarith)
  rw [roundTo_neg] at this
  linarith

theorem roundTo_of_rep {prec : ℕ} {emin : ℤ} {c : ℚ} (hp : 1 ≤ prec)
    (hc : Representable prec emin c) : roundTo prec emin c = c :=
  le_antisymm (roundTo_le_of_rep hp hc (le_refl c)) (le_roundTo_of_rep hp hc (le_refl c))

/-! ## Binary32 values: rounding, order and arithmetic -/

theorem F32.fin_lt_fin (a b : ℚ) : (fin a < fin b) ↔ a < b := Iff.rfl
theorem F32.fin_le_fin (a b : ℚ) : (fin a ≤ fin b) ↔ a ≤ b := Iff.rfl
theorem F32.fin_le_posInf (a : ℚ) : fin a ≤ posInf := trivial
theorem F32.negInf_le_fin (a : ℚ) : negInf ≤ fin a := trivial

theorem F32.fin_add_fin (a b : ℚ) : fin a + fin b = round (a + b) := rfl
theorem F32.fin_sub_fin (a b : ℚ) : fin a - fin b = round (a - b) := by
  show add (fin a) (neg (fin b)) = _
  simp only [neg, add, sub_eq_add_neg]
theorem F32.fin_mul_fin (a b : ℚ) : fin a * fin b = round (a * b) := rfl
theorem F32.fin_div_fin (a b : ℚ) (hb : b ≠ 0) : fin a / fin b = round (a / b) := by
  show div (fin a) (fin b) = _
  simp only [div, if_neg hb]
theorem F32.neg_fin (a : ℚ) : -fin a = fin (-a) := rfl

theorem F32.not_fin_lt_fin {a b : ℚ} (h : b ≤ a) : ¬ fin a < fin b := by
  rw [fin_lt_fin]
  exact not_lt.mpr h

theorem F32.round_of_rep {q : ℚ} (h : Representable 24 (-126) q) (hlt : |q| < 2 ^ 128) :
    round q = fin q := by
  unfold round
  rw [roundTo_of_rep (by norm_num) h, if_neg (not_le.mpr hlt)]

theorem F32.representable_int (n : ℤ) (h : |n| ≤ 16777216) : Representable 24 (-126) (n : ℚ) :=
  ⟨n, 0, by simpa using h, by norm_num, by simp⟩

theorem F32.round_int (n : ℤ) (h : |n| ≤ 16777216) : round (n : ℚ) = fin (n : ℚ) := by
  apply round_of_rep (representable_int n h)
  have h1 : |(n : ℚ)| ≤ 16777216 := by
    have : ((|n| : ℤ) : ℚ) ≤ ((16777216 : ℤ) : ℚ) := by exact_mod_cast h
    simpa using this
  have h2 : (16777216 : ℚ) < 2 ^ 128 := by norm_num
  linarith

/-- Rounding of a number that is an integer of magnitude at most `2 ^ 24`. -/
theorem F32.round_eq_of_int {q : ℚ} (n : ℤ) (hq : q = (n : ℚ)) (h : |n| ≤ 16777216) :
    round q = fin q := by
  rw [hq]
  exact round_int n h

theorem F32.round_zero : round 0 = fin 0 := round_eq_of_int 0 (by norm_num) (by norm_num)

/-- A binary32 lower bound of the exact result is a lower bound of the rounded one. -/
theorem F32.le_round {c q : ℚ} (hc : Representable 24 (-126) c) (hlt : |c| < 2 ^ 128)
    (h : c ≤ q) : fin c ≤ round q := by
  have hr := le_roundTo_of_rep (by norm_num) hc h
  unfold round
  split_ifs with hov hpos
  · exact fin_le_posInf c
  · exfalso
    have hq : q ≤ 0 := not_lt.mp hpos
    have h0 := roundTo_nonpos 24 (-126) hq
    rw [abs_of_nonpos h0] at hov
    have h1 : -c ≤ |c| := neg_le_abs c
    linarith
  · exact (fin_le_fin _ _).mpr hr

/-- A binary32 upper bound of the exact result is an upper bound of the rounded one. -/
theorem F32.round_le {c q : ℚ} (hc : Representable 24 (-126) c) (hlt : |c| < 2 ^ 128)
    (h : q ≤ c) : round q ≤ fin c := by
  have hr := roundTo_le_of_rep (by norm_num) hc h
  unfold round
  split_ifs with hov hpos
  · exfalso
    have h0 := roundTo_nonneg 24 (-126) hpos.le
    rw [abs_of_nonneg h0] at hov
    have h1 : c ≤ |c| := le_abs_self c
    linarith
  · exact negInf_le_fin c
  · exact (fin_le_fin _ _).mpr hr

theorem F32.le_round_int {q : ℚ} (n : ℤ) (hn : |n| ≤ 16777216) (h : (n : ℚ) ≤ q) :
    fin (n : ℚ) ≤ round q := by
  apply le_round (representable_int n hn) _ h
  have h1 : |(n : ℚ)| ≤ 16777216 := by
    have : ((|n| : ℤ) : ℚ) ≤ ((16777216 : ℤ) : ℚ) := by exact_mod_cast hn
    simpa using this
  have h2 : (16777216 : ℚ) < 2 ^ 128 := by norm_num
  linarith

theorem F32.round_le_int {q : ℚ} (n : ℤ) (hn : |n| ≤ 16777216) (h : q ≤ (n : ℚ)) :
    round q ≤ fin (n : ℚ) := by
  apply round_le (representable_int n hn) _ h
  have h1 : |(n : ℚ)| ≤ 16777216 := by
    have : ((|n| : ℤ) : ℚ) ≤ ((16777216 : ℤ) : ℚ) := by exact_mod_cast hn
    simpa using this
  have h2 : (16777216 : ℚ) < 2 ^ 128 := by norm_num
  linarith

/-- `y <= x` excludes `x < y`. -/
theorem F32.not_flt_of_fle {x y : F32} (h : y ≤ x) : ¬ x < y := by
  cases x <;> cases y <;> intro h2
  all_goals first
    | exact h2
    | exact h
    | exact absurd (show (_ : ℚ) < _ from h2) (not_lt.mpr (show (_ : ℚ) ≤ _ from h))

/-- `x < y` and `y <= z` give `x < z`. -/
theorem F32.flt_of_flt_of_fle {x y z : F32} (h1 : x < y) (h2 : y ≤ z) : x < z := by
  cases x <;> cases y <;> cases z
  all_goals first
    | exact trivial
    | exact absurd h1 id
    | exact absurd h2 id
    | exact (fin_lt_fin _ _).mpr
        (lt_of_lt_of_le (show (_ : ℚ) < _ from h1) (show (_ : ℚ) ≤ _ from h2))

/-- `x <= y` and `y < z` give `x < z`. -/
theorem F32.flt_of_fle_of_flt {x y z : F32} (h1 : x ≤ y) (h2 : y < z) : x < z := by
  cases x <;> cases y <;> cases z
  all_goals first
    | exact trivial
    | exact absurd h1 id
    | exact absurd h2 id
    | exact (fin_lt_fin _ _).mpr
        (lt_of_le_of_lt (show (_ : ℚ) ≤ _ from h1) (show (_ : ℚ) < _ from h2))

theorem F32.round_neg (q : ℚ) : F32.round (-q) = -F32.round q := by
  show F32.round (-q) = F32.neg (F32.round q)
  unfold F32.round
  rw [roundTo_neg, abs_neg]
  by_cases hov : (2 : ℚ) ^ 128 ≤ |roundTo 24 (-126) q|
  · rw [if_pos hov, if_pos hov]
    have hq0 : q ≠ 0 := by
      intro h
      rw [h, roundTo_zero, abs_zero] at hov
      have : (0 : ℚ) < 2 ^ 128 := by positivity
      linarith
    rcases lt_or_gt_of_ne hq0 with hneg | hpos
    · rw [if_pos (by linarith : 0 < -q), if_neg (by linarith : ¬ 0 < q)]
      rfl
    · rw [if_neg (by linarith : ¬ 0 < -q), if_pos hpos]
      rfl
  · rw [if_neg hov, if_neg hov]
    rfl

/-- Evaluation of a binary32 rounding of a positive number from its binade
`2 ^ E <= q < 2 ^ (E + 1)`. -/
theorem F32.round_eval {q : ℚ} (E : ℤ) (r : ℚ) (h1 : (2 : ℚ) ^ E ≤ q)
    (h2 : q < (2 : ℚ) ^ (E + 1))
    (hr : (roundHalfEven (q / 2 ^ (max E (-126) - 23)) : ℚ) * 2 ^ (max E (-126) - 23) = r)
    (hlt : r < 2 ^ 128) : F32.round q = F32.fin r := by
  have hq : 0 < q := lt_of_lt_of_le (pow2_pos E) h1
  have hqa : |q| = q := abs_of_pos hq
  have h := roundTo_eval 24 (-126) (q := q) (E := E) (by rw [hqa]; exact h1)
    (by rw [hqa]; exact h2)
  have e : ((24 : ℕ) : ℤ) - 1 = 23 := by norm_num
  rw [e, hr] at h
  have hr0 : 0 ≤ r := by
    rw [← h]
    exact roundTo_nonneg 24 (-126) hq.le
  unfold F32.round
  rw [h, abs_of_nonneg hr0, if_neg (not_le.mpr hlt)]

/-- Evaluation of a binary64 rounding of a positive number from its binade. -/
theorem roundDouble_eval {q : ℚ} (E : ℤ) (r : ℚ) (h1 : (2 : ℚ) ^ E ≤ q)
    (h2 : q < (2 : ℚ) ^ (E + 1))
    (hr : (roundHalfEven (q / 2 ^ (max E (-1022) - 52)) : ℚ) * 2 ^ (max E (-1022) - 52) = r) :
    roundDouble q = r := by
  have hq : 0 < q := lt_of_lt_of_le (pow2_pos E) h1
  have hqa : |q| = q := abs_of_pos hq
  have h := roundTo_eval 53 (-1022) (q := q) (E := E) (by rw [hqa]; exact h1)
    (by rw [hqa]; exact h2)
  have e : ((53 : ℕ) : ℤ) - 1 = 52 := by norm_num
  rw [e, hr] at h
  exact h

theorem double_1_05_eq : DOUBLE_1_05 = 4728779608739021 / 4503599627370496 := by
  unfold DOUBLE_1_05
  apply roundDouble_eval 0 _ (by norm_num) (by norm_num)
  norm_num [roundHalfEven]

theorem float_1_05 : F32.round (roundDouble (1 * DOUBLE_1_05)) =
    F32.fin (4404019 / 4194304) := by
  have h1 : roundDouble (1 * DOUBLE_1_05) = 4728779608739021 / 4503599627370496 := by
    rw [double_1_05_eq]
    apply roundDouble_eval 0 _ (by norm_num) (by norm_num)
    norm_num [roundHalfEven]
  rw [h1]
  apply F32.round_eval 0 _ (by norm_num) (by norm_num) _ (by norm_num)
  norm_num [roundHalfEven]

theorem round_400_absorbs : F32.round (400 + 1 / 2 ^ 40) = F32.fin 400 := by
  apply F32.round_eval 8 _ (by norm_num) (by norm_num) _ (by norm_num)
  norm_num [roundHalfEven]

/-! ## Each stage of `updatePosition` as one record update -/

theorem stallGuard_eq (g : GameState) :
    stallGuard g = { g with ball := { g.ball with
      xspeed := if g.ball.xspeed = F32.fin 0 ∧ g.ball.yspeed = F32.fin 0 then F32.fin 1
        else g.ball.xspeed } } := by
  unfold stallGuard; split_ifs <;> rfl

theorem applyMove_eq (g : GameState) :
    applyMove g = { g with right :=
      if g.move = Move.UP then g.right.moveUp
      else if g.move = Move.DOWN then g.right.moveDown else g.right } := by
  obtain ⟨name, ball, left, right, move, ls, rs⟩ := g
  cases move <;> simp [applyMove]

theorem wallBounce_eq (g : GameState) :
    wallBounce g = { g with ball := { g.ball with
      yspeed := if g.ball.isAtTopOrBottom then -g.ball.yspeed else g.ball.yspeed } } := by
  unfold wallBounce; split_ifs <;> rfl

theorem paddleBounce_eq (g : GameState) :
    paddleBounce g = { g with ball := { g.ball with
      xspeed := if g.ball.doesHitPaddle g.left g.right then (-g.ball.xspeed).timesDouble105
        else g.ball.xspeed,
      yspeed := if g.ball.doesHitPaddle g.left g.right then
          g.ball.yspeed + calculateReflectionFactor g.ball g.left g.right
        else g.ball.yspeed } } := by
  unfold paddleBounce; split_ifs <;> simp [calculateReflectionFactor]

theorem F32.not_lt_25_of_gt_775 {x : F32} (h : x > F32.fin 775) : ¬ x < F32.fin 25 := by
  cases x with
  | fin q =>
    have h1 : (775 : ℚ) < q := h
    exact F32.not_fin_lt_fin (by linarith)
  | posInf => exact id
  | negInf => exact absurd h id
  | nan => exact id

theorem scoring_eq (rand : ℕ) (g : GameState) :
    scoring rand g = { g with
      ball := if g.ball.xpos > F32.fin 775 ∨ g.ball.xpos < F32.fin 25 then Ball.init rand
        else g.ball,
      leftScore := if g.ball.xpos > F32.fin 775 then wrapInt32 (g.leftScore + 1)
        else g.leftScore,
      rightScore := if g.ball.xpos < F32.fin 25 then wrapInt32 (g.rightScore + 1)
        else g.rightScore } := by
  unfold scoring
  by_cases h1 : g.ball.xpos > F32.fin 775
  · have h2 : ¬ g.ball.xpos < F32.fin 25 := F32.not_lt_25_of_gt_775 h1
    have h3 : ¬ (F32.fin 395 < F32.fin 25) := F32.not_fin_lt_fin (by norm_num)
    simp [Ball.scoresOnRight, Ball.scoresOnLeft, h1, h2, h3, Ball.init]
  · by_cases h2 : g.ball.xpos < F32.fin 25 <;>
      simp [Ball.scoresOnRight, Ball.scoresOnLeft, h1, h2]

theorem resolved_eq (undef : ℤ) (g : GameState) :
    paddleBounce (wallBounce (aiMove undef (applyMove (stallGuard g)))) =
      { g with left := leftAfterMoves undef g, right := rightAfterMoves g,
               ball := bouncedBall undef g } := by
  obtain ⟨name, ⟨x, y, vx, vy⟩, left, right, move, ls, rs⟩ := g
  simp only [paddleBounce_eq, wallBounce_eq, aiMove, applyMove_eq, stallGuard_eq, bouncedBall,
    hitsPaddle, leftAfterMoves, rightAfterMoves, Ball.doesHitPaddle, Ball.isAtTopOrBottom,
    calculateReflectionFactor]

/-- The whole tick as one record. -/
theorem updatePosition_eq (rand : ℕ) (undef : ℤ) (g : GameState) :
    updatePosition rand undef g =
      { name := g.name
        move := g.move
        left := leftAfterMoves undef g
        right := rightAfterMoves g
        leftScore := if g.ball.xpos > F32.fin 775 then wrapInt32 (g.leftScore + 1)
          else g.leftScore
        rightScore := if g.ball.xpos < F32.fin 25 then wrapInt32 (g.rightScore + 1)
          else g.rightScore
        ball := Ball.update
          (if g.ball.xpos > F32.fin 775 ∨ g.ball.xpos < F32.fin 25 then Ball.init rand
            else bouncedBall undef g) } := by
  unfold updatePosition
  rw [resolved_eq, scoring_eq]
  rfl

theorem updatePosition_left (rand : ℕ) (undef : ℤ) (g : GameState) :
    (updatePosition rand undef g).left = leftAfterMoves undef g := by rw [updatePosition_eq]

theorem updatePosition_right (rand : ℕ) (undef : ℤ) (g : GameState) :
    (updatePosition rand undef g).right = rightAfterMoves g := by rw [updatePosition_eq]

theorem updatePosition_ball_of_inside (rand : ℕ) (undef : ℤ) (g : GameState)
    (hlo : ¬ g.ball.xpos < F32.fin 25) (hhi : ¬ g.ball.xpos > F32.fin 775) :
    (updatePosition rand undef g).ball = (bouncedBall undef g).update := by
  have h : ¬ (g.ball.xpos > F32.fin 775 ∨ g.ball.xpos < F32.fin 25) := by
    rintro (h | h)
    · exact hhi h
    · exact hlo h
  rw [updatePosition_eq]
  simp only [h, if_false]

theorem updatePosition_ball_of_score (rand : ℕ) (undef : ℤ) (g : GameState)
    (h : g.ball.xpos > F32.fin 775 ∨ g.ball.xpos < F32.fin 25) :
    (updatePosition rand undef g).ball = (Ball.init rand).update := by
  rw [updatePosition_eq]
  simp only [h, if_true]

theorem updatePosition_leftScore (rand : ℕ) (undef : ℤ) (g : GameState) :
    (updatePosition rand undef g).leftScore =
      if g.ball.xpos > F32.fin 775 then wrapInt32 (g.leftScore + 1) else g.leftScore := by
  rw [updatePosition_eq]

theorem updatePosition_rightScore (rand : ℕ) (undef : ℤ) (g : GameState) :
    (updatePosition rand undef g).rightScore =
      if g.ball.xpos < F32.fin 25 then wrapInt32 (g.rightScore + 1) else g.rightScore := by
  rw [updatePosition_eq]

theorem stallGuard_ball_of_moving {g : GameState}
    (h : ¬ (g.ball.xspeed = F32.fin 0 ∧ g.ball.yspeed = F32.fin 0)) :
    (stallGuard g).ball = g.ball := by
  unfold stallGuard
  rw [if_neg h]

theorem bouncedBall_of_miss {undef : ℤ} {g : GameState} (hmiss : hitsPaddle undef g = false) :
    bouncedBall undef g =
      { xpos := g.ball.xpos, ypos := g.ball.ypos, xspeed := (stallGuard g).ball.xspeed,
        yspeed := if g.ball.isAtTopOrBottom then -g.ball.yspeed else g.ball.yspeed } := by
  unfold bouncedBall
  simp [hmiss]

theorem wrapInt32_succ {z : ℤ} (hlo : INT_MIN ≤ z) (hhi : z < INT_MAX) :
    wrapInt32 (z + 1) = z + 1 := by
  unfold INT_MIN at hlo
  unfold INT_MAX at hhi
  unfold wrapInt32
  omega

/-! ## Evaluation of the arithmetic on small integers -/

theorem F32.round_ofNat (n : ℕ) [n.AtLeastTwo] (h : n ≤ 16777216) :
    F32.round (no_index (OfNat.ofNat n)) = F32.fin (OfNat.ofNat n) := by
  apply F32.round_eq_of_int (n : ℤ)
  · rw [Int.cast_natCast]
    exact (Nat.cast_eq_ofNat).symm
  · rw [abs_of_nonneg (by positivity)]
    exact_mod_cast h

theorem F32.round_one : F32.round 1 = F32.fin 1 :=
  F32.round_eq_of_int 1 (by norm_num) (by norm_num)

theorem F32.ofInt_ofNat (n : ℕ) [n.AtLeastTwo] (h : n ≤ 16777216) :
    F32.ofInt (no_index (OfNat.ofNat n)) = F32.fin (OfNat.ofNat n) := by
  unfold F32.ofInt
  have e : ((OfNat.ofNat n : ℤ) : ℚ) = (OfNat.ofNat n : ℚ) := by simp
  rw [e]
  exact F32.round_ofNat n h

theorem toInt_fin_ofNat (n : ℕ) [n.AtLeastTwo] (h : n ≤ 2147483647) :
    toInt (F32.fin (no_index (OfNat.ofNat n))) = some (OfNat.ofNat n) := by
  have e : (OfNat.ofNat n : ℚ) = ((n : ℕ) : ℚ) := (Nat.cast_eq_ofNat).symm
  have h1 : ((n : ℕ) : ℚ) < 2147483648 := by
    have : n < 2147483648 := by omega
    exact_mod_cast this
  have h2 : (0 : ℚ) ≤ ((n : ℕ) : ℚ) := by positivity
  simp only [toInt]
  rw [e, if_pos ⟨by linarith, h1⟩, if_pos h2, Int.floor_natCast]
  exact congrArg some Nat.cast_eq_ofNat

/-! ## Paddles stay on the grid -/

theorem Paddle.onGrid_iff (p : Paddle) :
    p.onGrid ↔ ∃ n : ℤ, p.ypos = F32.fin n ∧ 50 ≤ n ∧ n ≤ 550 := by
  unfold Paddle.onGrid
  constructor
  · rintro ⟨⟨n, hn⟩, hlo, hhi⟩
    rw [hn] at hlo hhi
    have h1 : (50 : ℚ) ≤ (n : ℚ) := hlo
    have h2 : (n : ℚ) ≤ 550 := hhi
    exact ⟨n, hn, by exact_mod_cast h1, by exact_mod_cast h2⟩
  · rintro ⟨n, hn, hlo, hhi⟩
    rw [hn]
    refine ⟨⟨n, rfl⟩, ?_, ?_⟩
    · show (50 : ℚ) ≤ (n : ℚ)
      exact_mod_cast hlo
    · show (n : ℚ) ≤ 550
      exact_mod_cast hhi

theorem Paddle.moveUp_int (p : Paddle) (n : ℤ) (hn : p.ypos = F32.fin n)
    (hb : |n - 1| ≤ 16777216) :
    p.moveUp = if 50 < n then { p with ypos := F32.fin ((n - 1 : ℤ) : ℚ) } else p := by
  unfold Paddle.moveUp
  rw [hn]
  have hiff : (F32.fin (n : ℚ) > F32.fin 50) ↔ 50 < n := by
    show (50 : ℚ) < (n : ℚ) ↔ 50 < n
    exact_mod_cast Iff.rfl
  by_cases h : 50 < n
  · rw [if_pos (hiff.mpr h), if_pos h, F32.fin_sub_fin]
    have e : (n : ℚ) - 1 = ((n - 1 : ℤ) : ℚ) := by push_cast; rfl
    rw [e, F32.round_int _ hb]
  · rw [if_neg (fun h2 => h (hiff.mp h2)), if_neg h]

theorem Paddle.moveDown_int (p : Paddle) (n : ℤ) (hn : p.ypos = F32.fin n)
    (hb : |n + 1| ≤ 16777216) :
    p.moveDown = if n < 550 then { p with ypos := F32.fin ((n + 1 : ℤ) : ℚ) } else p := by
  unfold Paddle.moveDown
  rw [hn]
  have hiff : (F32.fin (n : ℚ) < F32.fin 550) ↔ n < 550 := by
    show (n : ℚ) < (550 : ℚ) ↔ n < 550
    exact_mod_cast Iff.rfl
  by_cases h : n < 550
  · rw [if_pos (hiff.mpr h), if_pos h, F32.fin_add_fin]
    have e : (n : ℚ) + 1 = ((n + 1 : ℤ) : ℚ) := by push_cast; rfl
    rw [e, F32.round_int _ hb]
  · rw [if_neg (fun h2 => h (hiff.mp h2)), if_neg h]

theorem Paddle.onGrid_moveUp {p : Paddle} (h : p.onGrid) : p.moveUp.onGrid := by
  rw [Paddle.onGrid_iff] at h ⊢
  obtain ⟨n, hn, hlo, hhi⟩ := h
  rw [Paddle.moveUp_int p n hn (by rw [abs_le]; constructor <;> omega)]
  split_ifs with hgt
  · exact ⟨n - 1, rfl, by omega, by omega⟩
  · exact ⟨n, hn, hlo, hhi⟩

theorem Paddle.onGrid_moveDown {p : Paddle} (h : p.onGrid) : p.moveDown.onGrid := by
  rw [Paddle.onGrid_iff] at h ⊢
  obtain ⟨n, hn, hlo, hhi⟩ := h
  rw [Paddle.moveDown_int p n hn (by rw [abs_le]; constructor <;> omega)]
  split_ifs with hlt
  · exact ⟨n + 1, rfl, by omega, by omega⟩
  · exact ⟨n, hn, hlo, hhi⟩

theorem Paddle.onGrid_calls (cs : List PaddleCall) :
    ∀ {p : Paddle}, p.onGrid → (p.calls cs).onGrid := by
  induction cs with
  | nil => intro p h; exact h
  | cons c cs ih =>
    intro p h
    have hstep : (p.call c).onGrid := by
      cases c
      · exact Paddle.onGrid_moveUp h
      · exact Paddle.onGrid_moveDown h
    exact ih hstep

theorem makeAIMove_onGrid (undef : ℤ) (ball : Ball) {p : Paddle} (h : p.onGrid) :
    (makeAIMove undef ball p).onGrid := by
  unfold makeAIMove
  dsimp only
  split_ifs
  · exact Paddle.onGrid_moveUp (Paddle.onGrid_moveDown h)
  · exact Paddle.onGrid_moveDown h
  · exact Paddle.onGrid_moveUp h
  · exact h

theorem rightAfterMoves_eq (g : GameState) :
    rightAfterMoves g =
      if g.move = Move.UP then g.right.moveUp
      else if g.move = Move.DOWN then g.right.moveDown else g.right := by
  unfold rightAfterMoves
  rw [applyMove_eq]

theorem rightAfterMoves_onGrid {g : GameState} (h : g.right.onGrid) :
    (rightAfterMoves g).onGrid := by
  rw [rightAfterMoves_eq]
  split_ifs
  · exact Paddle.onGrid_moveUp h
  · exact Paddle.onGrid_moveDown h
  · exact h

theorem tick_onGrid (g : GameState) (input : Move × ℕ × ℤ)
    (h : g.left.onGrid ∧ g.right.onGrid) :
    (tick g input).left.onGrid ∧ (tick g input).right.onGrid := by
  unfold tick
  rw [updatePosition_left, updatePosition_right]
  exact ⟨makeAIMove_onGrid _ _ h.1, rightAfterMoves_onGrid h.2⟩

theorem run_onGrid (inputs : List (Move × ℕ × ℤ)) :
    ∀ (g : GameState), g.left.onGrid ∧ g.right.onGrid →
      (run g inputs).left.onGrid ∧ (run g inputs).right.onGrid := by
  induction inputs with
  | nil => intro g h; exact h
  | cons i is ih => intro g h; exact ih (tick g i) (tick_onGrid g i h)

/-- C1: in every state reached from the initial game state by a finite sequence of
ticks, whatever the move commands, the random draws and the results of undefined
conversions, both paddles have `50 ≤ y ≤ 550`. -/
theorem paddles_in_range_of_reachable (name : String) (rand0 : ℕ)
    (inputs : List (Move × ℕ × ℤ)) :
    F32.fin 50 ≤ (run (createInitialGameState name rand0) inputs).left.ypos ∧
    (run (createInitialGameState name rand0) inputs).left.ypos ≤ F32.fin 550 ∧
    F32.fin 50 ≤ (run (createInitialGameState name rand0) inputs).right.ypos ∧
    (run (createInitialGameState name rand0) inputs).right.ypos ≤ F32.fin 550 := by
  have h0 : (createInitialGameState name rand0).left.onGrid ∧
      (createInitialGameState name rand0).right.onGrid := by
    constructor <;> rw [Paddle.onGrid_iff] <;>
      exact ⟨300, by simp [createInitialGameState], by norm_num, by norm_num⟩
  obtain ⟨hl, hr⟩ := run_onGrid inputs _ h0
  exact ⟨hl.2.1, hl.2.2, hr.2.1, hr.2.2⟩

/-- Rounding of half of an odd integer of magnitude below `2 ^ 24`. -/
theorem F32.round_half_int {q : ℚ} (m : ℤ) (hq : q = (m : ℚ) / 2) (h : |m| ≤ 16777216) :
    F32.round q = F32.fin q := by
  apply F32.round_of_rep ⟨m, -1, by simpa using h, by norm_num, by rw [hq]; norm_num; ring⟩
  have h1 : |(m : ℚ)| ≤ 16777216 := by
    have : ((|m| : ℤ) : ℚ) ≤ ((16777216 : ℤ) : ℚ) := by exact_mod_cast h
    simpa using this
  rw [hq, abs_div, abs_of_pos (by norm_num : (0 : ℚ) < 2)]
  have h2 : (16777216 : ℚ) / 2 < 2 ^ 128 := by norm_num
  have h3 : |(m : ℚ)| / 2 ≤ 16777216 / 2 := by linarith
  linarith

/-- C2, refuted as stated: a paddle at height 50.5 is inside `[50, 550]` and one
`moveUp` puts it at 49.5; and a paddle at height 600 stays at 600 under `moveDown`. -/
theorem paddle_calls_leave_range :
    (F32.fin 50 ≤ (Paddle.mk (F32.fin 25) (F32.fin (101 / 2))).ypos ∧
      (Paddle.mk (F32.fin 25) (F32.fin (101 / 2))).ypos ≤ F32.fin 550 ∧
      ((Paddle.mk (F32.fin 25) (F32.fin (101 / 2))).calls [PaddleCall.up]).ypos =
        F32.fin (99 / 2) ∧
      ¬ (F32.fin 50 ≤ ((Paddle.mk (F32.fin 25) (F32.fin (101 / 2))).calls
            [PaddleCall.up]).ypos ∧
        ((Paddle.mk (F32.fin 25) (F32.fin (101 / 2))).calls [PaddleCall.up]).ypos ≤
          F32.fin 550)) ∧
    ¬ (F32.fin 50 ≤ ((Paddle.mk (F32.fin 25) (F32.fin 600)).calls [PaddleCall.down]).ypos ∧
      ((Paddle.mk (F32.fin 25) (F32.fin 600)).calls [PaddleCall.down]).ypos ≤ F32.fin 550) := by
  have e1 : F32.round (101 / 2 - 1) = F32.fin (99 / 2) := by
    rw [F32.round_half_int 99 (by norm_num) (by norm_num)]
    norm_num
  have hA : (Paddle.mk (F32.fin 25) (F32.fin (101 / 2))).calls [PaddleCall.up] =
      Paddle.mk (F32.fin 25) (F32.fin (99 / 2)) := by
    simp only [Paddle.calls, List.foldl, Paddle.call, Paddle.moveUp]
    rw [if_pos (show F32.fin (101 / 2) > F32.fin 50 from
      (F32.fin_lt_fin _ _).mpr (by norm_num)), F32.fin_sub_fin, e1]
  have hB : (Paddle.mk (F32.fin 25) (F32.fin 600)).calls [PaddleCall.down] =
      Paddle.mk (F32.fin 25) (F32.fin 600) := by
    simp only [Paddle.calls, List.foldl, Paddle.call, Paddle.moveDown]
    rw [if_neg (F32.not_fin_lt_fin (by norm_num))]
  rw [hA, hB]
  refine ⟨⟨?_, ?_, rfl, ?_⟩, ?_⟩
  · exact (F32.fin_le_fin _ _).mpr (by norm_num)
  · exact (F32.fin_le_fin _ _).mpr (by norm_num)
  · rintro ⟨h, -⟩
    have : (50 : ℚ) ≤ 99 / 2 := h
    norm_num at this
  · rintro ⟨-, h⟩
    have : (600 : ℚ) ≤ 550 := h
    norm_num at this

/-- C2, amended: for every paddle whose height is an integer with `50 ≤ y ≤ 550`,
every finite sequence of `moveUp`/`moveDown` calls leaves `50 ≤ y ≤ 550`. -/
theorem paddle_calls_in_range (p : Paddle) (cs : List PaddleCall)
    (hint : ∃ n : ℤ, p.ypos = F32.fin n) (hlo : F32.fin 50 ≤ p.ypos)
    (hhi : p.ypos ≤ F32.fin 550) :
    F32.fin 50 ≤ (p.calls cs).ypos ∧ (p.calls cs).ypos ≤ F32.fin 550 :=
  (Paddle.onGrid_calls cs ⟨hint, hlo, hhi⟩).2

theorem paddle_calls_in_range_witness :
    F32.fin 50 ≤ ((Paddle.mk (F32.fin 25) (F32.fin 51)).calls
      [PaddleCall.up, PaddleCall.up, PaddleCall.down]).ypos ∧
    ((Paddle.mk (F32.fin 25) (F32.fin 51)).calls
      [PaddleCall.up, PaddleCall.up, PaddleCall.down]).ypos ≤ F32.fin 550 :=
  paddle_calls_in_range (Paddle.mk (F32.fin 25) (F32.fin 51))
    [PaddleCall.up, PaddleCall.up, PaddleCall.down]
    ⟨51, by norm_num⟩ ((F32.fin_le_fin _ _).mpr (by norm_num))
    ((F32.fin_le_fin _ _).mpr (by norm_num))

/-! ## Scores -/

/-- C3, refuted as stated: with `leftScore = INT_MAX` and the ball at `x = 776` the
tick cannot add 1 to the 32-bit score: the score wraps to `INT_MIN` and decreases. -/
theorem score_overflow_at_int_max :
    (GameState.mk "pong" ⟨F32.fin 776, F32.fin 300, F32.fin 1, F32.fin 0⟩
      ⟨F32.fin 25, F32.fin 300⟩ ⟨F32.fin 750, F32.fin 300⟩ Move.STATIONARY
      2147483647 0).ball.xpos > F32.fin 775 ∧
    (updatePosition 0 0 (GameState.mk "pong" ⟨F32.fin 776, F32.fin 300, F32.fin 1, F32.fin 0⟩
      ⟨F32.fin 25, F32.fin 300⟩ ⟨F32.fin 750, F32.fin 300⟩
      Move.STATIONARY 2147483647 0)).leftScore ≠ 2147483647 + 1 ∧
    (updatePosition 0 0 (GameState.mk "pong" ⟨F32.fin 776, F32.fin 300, F32.fin 1, F32.fin 0⟩
      ⟨F32.fin 25, F32.fin 300⟩ ⟨F32.fin 750, F32.fin 300⟩
      Move.STATIONARY 2147483647 0)).leftScore < 2147483647 := by
  have hx : F32.fin 776 > F32.fin 775 := (F32.fin_lt_fin _ _).mpr (by norm_num)
  rw [updatePosition_leftScore]
  simp only [if_pos hx]
  refine ⟨hx, ?_, ?_⟩ <;> simp [wrapInt32]

/-- C3, amended: for every game state whose two scores are 32-bit values below
`INT_MAX`, one tick adds 1 to `leftScore` and keeps `rightScore` if the input ball has
`x > 775`, adds 1 to `rightScore` and keeps `leftScore` if it has `x < 25`, and keeps
both otherwise; so no score decreases and at most one score changes. -/
theorem scores_of_tick (rand : ℕ) (undef : ℤ) (g : GameState)
    (hl : INT_MIN ≤ g.leftScore ∧ g.leftScore < INT_MAX)
    (hr : INT_MIN ≤ g.rightScore ∧ g.rightScore < INT_MAX) :
    (g.ball.xpos > F32.fin 775 →
      (updatePosition rand undef g).leftScore = g.leftScore + 1 ∧
      (updatePosition rand undef g).rightScore = g.rightScore) ∧
    (g.ball.xpos < F32.fin 25 →
      (updatePosition rand undef g).rightScore = g.rightScore + 1 ∧
      (updatePosition rand undef g).leftScore = g.leftScore) ∧
    (¬ g.ball.xpos > F32.fin 775 → ¬ g.ball.xpos < F32.fin 25 →
      (updatePosition rand undef g).leftScore = g.leftScore ∧
      (updatePosition rand undef g).rightScore = g.rightScore) ∧
    g.leftScore ≤ (updatePosition rand undef g).leftScore ∧
    g.rightScore ≤ (updatePosition rand undef g).rightScore ∧
    ((updatePosition rand undef g).leftScore = g.leftScore ∨
      (updatePosition rand undef g).rightScore = g.rightScore) := by
  rw [updatePosition_leftScore, updatePosition_rightScore]
  by_cases h1 : g.ball.xpos > F32.fin 775
  · have h2 : ¬ g.ball.xpos < F32.fin 25 := F32.not_lt_25_of_gt_775 h1
    simp [h1, h2, wrapInt32_succ hl.1 hl.2]
  · by_cases h2 : g.ball.xpos < F32.fin 25
    · simp [h1, h2, wrapInt32_succ hr.1 hr.2]
    · simp [h1, h2]

theorem scores_of_tick_witness :
    (updatePosition 7 0 (GameState.mk "pong" ⟨F32.fin 776, F32.fin 300, F32.fin 1, F32.fin 0⟩
      ⟨F32.fin 25, F32.fin 300⟩ ⟨F32.fin 750, F32.fin 300⟩ Move.UP 3 4)).leftScore = 3 + 1 ∧
    (updatePosition 7 0 (GameState.mk "pong" ⟨F32.fin 776, F32.fin 300, F32.fin 1, F32.fin 0⟩
      ⟨F32.fin 25, F32.fin 300⟩ ⟨F32.fin 750, F32.fin 300⟩ Move.UP 3 4)).rightScore = 4 :=
  (scores_of_tick 7 0 (GameState.mk "pong" ⟨F32.fin 776, F32.fin 300, F32.fin 1, F32.fin 0⟩
      ⟨F32.fin 25, F32.fin 300⟩ ⟨F32.fin 750, F32.fin 300⟩ Move.UP 3 4)
    ⟨by decide, by decide⟩ ⟨by decide, by decide⟩).1
    ((F32.fin_lt_fin _ _).mpr (by norm_num))

/-- The conversion of `RAND_MAX = 2 ^ 31 - 1` to `float` rounds up to `2 ^ 31`. -/
theorem ofInt_RAND_MAX : F32.ofInt (RAND_MAX : ℤ) = F32.fin 2147483648 := by
  unfold F32.ofInt RAND_MAX
  apply F32.round_eval 30 _ (by norm_num) (by norm_num) _ (by norm_num)
  norm_num [roundHalfEven]

theorem Ball.init_RAND_MAX : Ball.init RAND_MAX =
    ⟨F32.fin 395, F32.fin 295, F32.fin 1, F32.fin 1⟩ := by
  unfold Ball.init
  rw [ofInt_RAND_MAX, F32.fin_div_fin _ _ (by norm_num)]
  have e : F32.round (2147483648 / 2147483648) = F32.fin 1 := by
    rw [F32.round_eq_of_int 1 (by norm_num) (by norm_num)]
    norm_num
  rw [e]

theorem Ball.init_update_xpos (rand : ℕ) : (Ball.init rand).update.xpos = F32.fin 396 := by
  simp only [Ball.update, Ball.init, F32.fin_add_fin]
  rw [F32.round_eq_of_int 396 (by norm_num) (by norm_num)]
  norm_num

/-- C4, refuted as stated: after a tick that scores on the right the returned ball is
not at the reset position `(395, 295)`: it has already been integrated once and is at
`x = 396`, `y = 295 + yspeed` (`296` when `rand()` returns `RAND_MAX`); and at
`leftScore = INT_MAX` the score is not the old score plus 1. -/
theorem reset_ball_not_at_reset_position :
    (GameState.mk "pong" ⟨F32.fin 776, F32.fin 300, F32.fin 1, F32.fin 0⟩
      ⟨F32.fin 25, F32.fin 300⟩ ⟨F32.fin 750, F32.fin 300⟩ Move.STATIONARY
      0 0).ball.xpos > F32.fin 775 ∧
    (updatePosition 2147483647 0 (GameState.mk "pong"
      ⟨F32.fin 776, F32.fin 300, F32.fin 1, F32.fin 0⟩ ⟨F32.fin 25, F32.fin 300⟩
      ⟨F32.fin 750, F32.fin 300⟩ Move.STATIONARY 0 0)).ball.xpos = F32.fin 396 ∧
    (updatePosition 2147483647 0 (GameState.mk "pong"
      ⟨F32.fin 776, F32.fin 300, F32.fin 1, F32.fin 0⟩ ⟨F32.fin 25, F32.fin 300⟩
      ⟨F32.fin 750, F32.fin 300⟩ Move.STATIONARY 0 0)).ball.xpos ≠ F32.fin 395 ∧
    (updatePosition 2147483647 0 (GameState.mk "pong"
      ⟨F32.fin 776, F32.fin 300, F32.fin 1, F32.fin 0⟩ ⟨F32.fin 25, F32.fin 300⟩
      ⟨F32.fin 750, F32.fin 300⟩ Move.STATIONARY 0 0)).ball.ypos = F32.fin 296 ∧
    (updatePosition 0 0 (GameState.mk "pong"
      ⟨F32.fin 776, F32.fin 300, F32.fin 1, F32.fin 0⟩ ⟨F32.fin 25, F32.fin 300⟩
      ⟨F32.fin 750, F32.fin 300⟩ Move.STATIONARY 2147483647 0)).leftScore ≠
      2147483647 + 1 := by
  have hx : F32.fin 776 > F32.fin 775 := (F32.fin_lt_fin _ _).mpr (by norm_num)
  have hR : (2147483647 : ℕ) = RAND_MAX := rfl
  rw [updatePosition_ball_of_score _ _ _ (Or.inl hx), updatePosition_leftScore]
  simp only [if_pos hx]
  refine ⟨hx, Ball.init_update_xpos _, ?_, ?_, ?_⟩
  · rw [Ball.init_update_xpos]
    intro h
    have := F32.fin.inj h
    norm_num at this
  · rw [hR, Ball.init_RAND_MAX]
    simp only [Ball.update, F32.fin_add_fin]
    rw [F32.round_eq_of_int 296 (by norm_num) (by norm_num)]
    norm_num
  · simp [wrapInt32]

/-- C4, amended: for every game state whose ball has `x > 775` and whose `leftScore` is
a 32-bit value below `INT_MAX`, the state returned by one tick has `leftScore` equal to
the old `leftScore` plus 1, and its ball is the reset ball after one integration step:
`x = 396`, `xspeed = 1`, `yspeed = float(rand) / float(RAND_MAX)` and
`y = 295 + yspeed` in `float` arithmetic. -/
theorem score_on_right (rand : ℕ) (undef : ℤ) (g : GameState)
    (hx : g.ball.xpos > F32.fin 775)
    (hl : INT_MIN ≤ g.leftScore ∧ g.leftScore < INT_MAX) :
    (updatePosition rand undef g).leftScore = g.leftScore + 1 ∧
    (updatePosition rand undef g).ball.xpos = F32.fin 396 ∧
    (updatePosition rand undef g).ball.ypos =
      F32.fin 295 + (updatePosition rand undef g).ball.yspeed ∧
    (updatePosition rand undef g).ball.xspeed = F32.fin 1 ∧
    (updatePosition rand undef g).ball.yspeed =
      F32.ofInt (rand : ℤ) / F32.ofInt (RAND_MAX : ℤ) := by
  rw [updatePosition_ball_of_score rand undef g (Or.inl hx), updatePosition_leftScore,
    if_pos hx, wrapInt32_succ hl.1 hl.2]
  exact ⟨rfl, Ball.init_update_xpos rand, rfl, rfl, rfl⟩

theorem score_on_right_witness :
    (updatePosition 5 0 (GameState.mk "pong" ⟨F32.fin 776, F32.fin 300, F32.fin 1, F32.fin 0⟩
      ⟨F32.fin 25, F32.fin 300⟩ ⟨F32.fin 750, F32.fin 300⟩ Move.STATIONARY 0 0)).leftScore
      = 0 + 1 ∧
    (updatePosition 5 0 (GameState.mk "pong" ⟨F32.fin 776, F32.fin 300, F32.fin 1, F32.fin 0⟩
      ⟨F32.fin 25, F32.fin 300⟩ ⟨F32.fin 750, F32.fin 300⟩ Move.STATIONARY 0 0)).ball.xpos
      = F32.fin 396 :=
  ⟨(score_on_right 5 0 (GameState.mk "pong" ⟨F32.fin 776, F32.fin 300, F32.fin 1, F32.fin 0⟩
      ⟨F32.fin 25, F32.fin 300⟩ ⟨F32.fin 750, F32.fin 300⟩ Move.STATIONARY 0 0)
      ((F32.fin_lt_fin _ _).mpr (by norm_num)) ⟨by decide, by decide⟩).1,
   (score_on_right 5 0 (GameState.mk "pong" ⟨F32.fin 776, F32.fin 300, F32.fin 1, F32.fin 0⟩
      ⟨F32.fin 25, F32.fin 300⟩ ⟨F32.fin 750, F32.fin 300⟩ Move.STATIONARY 0 0)
      ((F32.fin_lt_fin _ _).mpr (by norm_num)) ⟨by decide, by decide⟩).2.1⟩

/-! ## The AI controller -/

theorem F32.ofInt_le_of_le {t n : ℤ} (hn : |n| ≤ 16777216) (h : t ≤ n) :
    F32.ofInt t ≤ F32.fin (n : ℚ) :=
  F32.round_le_int n hn (by exact_mod_cast h)

theorem F32.le_ofInt_of_le {t n : ℤ} (hn : |n| ≤ 16777216) (h : n ≤ t) :
    F32.fin (n : ℚ) ≤ F32.ofInt t :=
  F32.le_round_int n hn (by exact_mod_cast h)

theorem F32.fin_int_lt_succ (n : ℤ) : F32.fin (n : ℚ) < F32.fin ((n + 1 : ℤ) : ℚ) := by
  rw [F32.fin_lt_fin]
  push_cast
  linarith

theorem abs_succ_le {n : ℤ} (h : |n| < 16777216) :
    |n + 1| ≤ 16777216 ∧ |n - 1| ≤ 16777216 := by
  have h1 := abs_lt.mp h
  constructor <;> rw [abs_le] <;> constructor <;> omega

theorem F32.ofInt_gt_iff {t n : ℤ} (hn : |n| < 16777216) :
    F32.ofInt t > F32.fin (n : ℚ) ↔ n < t := by
  constructor
  · intro h
    by_contra hc
    exact F32.not_flt_of_fle (F32.ofInt_le_of_le (le_of_lt hn) (not_lt.mp hc)) h
  · intro h
    have h1 : F32.fin ((n + 1 : ℤ) : ℚ) ≤ F32.ofInt t :=
      F32.le_ofInt_of_le (abs_succ_le hn).1 (by omega)
    exact F32.flt_of_flt_of_fle (F32.fin_int_lt_succ n) h1

theorem F32.ofInt_lt_iff {t n : ℤ} (hn : |n| < 16777216) :
    F32.ofInt t < F32.fin (n : ℚ) ↔ t < n := by
  constructor
  · intro h
    by_contra hc
    exact F32.not_flt_of_fle (F32.le_ofInt_of_le (le_of_lt hn) (not_lt.mp hc)) h
  · intro h
    have h1 : F32.ofInt t ≤ F32.fin ((n - 1 : ℤ) : ℚ) :=
      F32.ofInt_le_of_le (abs_succ_le hn).2 (by omega)
    have h2 : F32.fin ((n - 1 : ℤ) : ℚ) < F32.fin (n : ℚ) := by
      rw [F32.fin_lt_fin]
      push_cast
      linarith
    exact F32.flt_of_fle_of_flt h1 h2

theorem Paddle.moveDown_xpos (p : Paddle) : p.moveDown.xpos = p.xpos := by
  unfold Paddle.moveDown
  split_ifs <;> rfl

theorem Paddle.moveUp_xpos (p : Paddle) : p.moveUp.xpos = p.xpos := by
  unfold Paddle.moveUp
  split_ifs <;> rfl

/-- The net effect of `makeAIMove` on a paddle whose height is the integer `n`. -/
theorem makeAIMove_of_int (undef : ℤ) (ball : Ball) (p : Paddle) (n : ℤ)
    (hn : p.ypos = F32.fin n) (hb : |n| < 16777216) :
    makeAIMove undef ball p =
      if n < idealPosition undef ball then p.moveDown
      else if idealPosition undef ball < n then p.moveUp else p := by
  have hb1 : |n + 1| ≤ 16777216 := (abs_succ_le hb).1
  unfold makeAIMove
  dsimp only
  rw [hn]
  by_cases h1 : n < idealPosition undef ball
  · rw [if_pos ((F32.ofInt_gt_iff hb).mpr h1), if_pos h1]
    have h2 : ¬ (F32.ofInt (idealPosition undef ball) < p.moveDown.ypos) := by
      rw [Paddle.moveDown_int p n hn hb1]
      split_ifs
      · exact F32.not_flt_of_fle (F32.le_ofInt_of_le hb1 (by omega))
      · rw [hn]
        exact F32.not_flt_of_fle (F32.le_ofInt_of_le (le_of_lt hb) (by omega))
    rw [if_neg h2]
  · rw [if_neg (fun h => h1 ((F32.ofInt_gt_iff hb).mp h)), if_neg h1, hn]
    by_cases h2 : idealPosition undef ball < n
    · rw [if_pos ((F32.ofInt_lt_iff hb).mpr h2), if_pos h2]
    · rw [if_neg (fun h => h2 ((F32.ofInt_lt_iff hb).mp h)), if_neg h2]

theorem idealY_of_pos {ball : Ball} (hx : ball.xspeed > F32.fin 0) :
    idealY ball = ball.ypos := by
  unfold idealY
  rw [if_neg (fun h => F32.not_flt_of_fle h hx)]

theorem toInt_fin_of_range {q : ℚ} (h1 : -2147483649 < q) (h2 : q < 2147483648) :
    toInt (F32.fin q) = some (if 0 ≤ q then ⌊q⌋ else ⌈q⌉) := by
  simp only [toInt]
  rw [if_pos ⟨h1, h2⟩]

theorem toInt_fin_int (z : ℤ) (h : |z| ≤ 2147483647) : toInt (F32.fin (z : ℚ)) = some z := by
  have hz := abs_le.mp h
  have h1 : (-2147483649 : ℚ) < (z : ℚ) := by
    have : (-2147483649 : ℤ) < z := by omega
    exact_mod_cast this
  have h2 : (z : ℚ) < 2147483648 := by
    have : z < (2147483648 : ℤ) := by omega
    exact_mod_cast this
  rw [toInt_fin_of_range h1 h2]
  split_ifs
  · rw [Int.floor_intCast]
  · rw [Int.ceil_intCast]

theorem trunc_lt_iff {q : ℚ} {n : ℤ} (hn : 1 ≤ n) :
    (if 0 ≤ q then ⌊q⌋ else ⌈q⌉) < n ↔ q < n := by
  split_ifs with h
  · exact Int.floor_lt
  · have hq : q < 0 := not_le.mp h
    have h1 : ⌈q⌉ ≤ 0 := Int.ceil_le.mpr (by exact_mod_cast hq.le)
    have h2 : (1 : ℚ) ≤ (n : ℚ) := by exact_mod_cast hn
    constructor
    · intro _
      linarith
    · intro _
      omega

theorem lt_trunc_iff {q : ℚ} {n : ℤ} (hn : 0 ≤ n) :
    n < (if 0 ≤ q then ⌊q⌋ else ⌈q⌉) ↔ (n : ℚ) + 1 ≤ q := by
  split_ifs with h
  · rw [← Int.add_one_le_iff, Int.le_floor]
    push_cast
    rfl
  · have hq : q < 0 := not_le.mp h
    have h1 : ⌈q⌉ ≤ 0 := Int.ceil_le.mpr (by exact_mod_cast hq.le)
    have h2 : (0 : ℚ) ≤ (n : ℚ) := by exact_mod_cast hn
    constructor
    · intro h3
      omega
    · intro h3
      linarith

theorem moveDown_299_5 (x : F32) :
    (Paddle.mk x (F32.fin (599 / 2))).moveDown = Paddle.mk x (F32.fin (601 / 2)) := by
  have e1 : F32.round (599 / 2 + 1) = F32.fin (601 / 2) := by
    rw [F32.round_half_int 601 (by norm_num) (by norm_num)]
    norm_num
  unfold Paddle.moveDown
  rw [if_pos (show F32.fin (599 / 2) < F32.fin 550 from
    (F32.fin_lt_fin _ _).mpr (by norm_num))]
  simp only [F32.fin_add_fin, e1]

theorem moveUp_300_5 (x : F32) :
    (Paddle.mk x (F32.fin (601 / 2))).moveUp = Paddle.mk x (F32.fin (599 / 2)) := by
  have e1 : F32.round (601 / 2 - 1) = F32.fin (599 / 2) := by
    rw [F32.round_half_int 599 (by norm_num) (by norm_num)]
    norm_num
  unfold Paddle.moveUp
  rw [if_pos (show F32.fin (601 / 2) > F32.fin 50 from
    (F32.fin_lt_fin _ _).mpr (by norm_num))]
  simp only [F32.fin_sub_fin, e1]

theorem moveDown_300 (x : F32) :
    (Paddle.mk x (F32.fin 300)).moveDown = Paddle.mk x (F32.fin 301) := by
  unfold Paddle.moveDown
  rw [if_pos (show F32.fin 300 < F32.fin 550 from (F32.fin_lt_fin _ _).mpr (by norm_num))]
  simp only [F32.fin_add_fin]
  norm_num [F32.round_ofNat]

theorem ofInt_300 : F32.ofInt 300 = F32.fin 300 := F32.ofInt_ofNat 300 (by norm_num)

theorem idealPosition_of_idealY {undef : ℤ} {ball : Ball} {q : ℚ} {t : ℤ}
    (hq : idealY ball = F32.fin q) (ht : toInt (F32.fin q) = some t) :
    idealPosition undef ball = t := by
  unfold idealPosition toIntOr
  rw [hq, ht]
  rfl

theorem toInt_300_5 : toInt (F32.fin (601 / 2)) = some 300 := by
  rw [toInt_fin_of_range (by norm_num) (by norm_num), if_pos (by norm_num)]
  norm_num

theorem toInt_300 : toInt (F32.fin 300) = some 300 := toInt_fin_ofNat 300 (by norm_num)

theorem makeAIMove_300_at_299_5 (undef : ℤ) (ball : Ball) (x : F32)
    (h : idealPosition undef ball = 300) :
    makeAIMove undef ball (Paddle.mk x (F32.fin (599 / 2))) =
      Paddle.mk x (F32.fin (599 / 2)) := by
  unfold makeAIMove
  dsimp only
  rw [h, ofInt_300, if_pos (show F32.fin 300 > F32.fin (599 / 2) from
    (F32.fin_lt_fin _ _).mpr (by norm_num)), moveDown_299_5,
    if_pos (show F32.fin 300 < F32.fin (601 / 2) from
      (F32.fin_lt_fin _ _).mpr (by norm_num)), moveUp_300_5]

theorem makeAIMove_300_at_300 (undef : ℤ) (ball : Ball) (x : F32)
    (h : idealPosition undef ball = 300) :
    makeAIMove undef ball (Paddle.mk x (F32.fin 300)) = Paddle.mk x (F32.fin 300) := by
  have e : (F32.fin 300 : F32) = F32.fin ((300 : ℤ) : ℚ) := by norm_num
  rw [makeAIMove_of_int undef ball _ 300 e (by norm_num), h]
  simp

/-- The target of a ball with integer coordinates and speeds moving left at speed `s`,
`turns = (x - 50) / s` being the integer `k`. -/
theorem idealY_int (x y s v k : ℤ) (hs : 0 < s) (hturn : x - 50 = k * s)
    (hx : |x| ≤ 2048) (hy : |y| ≤ 2048) (hs2 : s ≤ 2048) (hv : |v| ≤ 2048) (hk : |k| ≤ 2048) :
    idealY ⟨F32.fin x, F32.fin y, F32.fin ((-s : ℤ) : ℚ), F32.fin v⟩ =
      F32.fin ((y + v * k : ℤ) : ℚ) ∧ |y + v * k| ≤ 4196352 := by
  have hx' := abs_le.mp hx
  have hy' := abs_le.mp hy
  have hv' := abs_le.mp hv
  have hk' := abs_le.mp hk
  have hvn : |v * k| ≤ 4194304 := by
    rw [abs_mul]
    have := mul_le_mul hv hk (abs_nonneg k) (by norm_num : (0 : ℤ) ≤ 2048)
    linarith
  have hvn' := abs_le.mp hvn
  have hyvn : |y + v * k| ≤ 4196352 := by
    rw [abs_le]
    constructor <;> linarith [hvn'.1, hvn'.2, hy'.1, hy'.2]
  refine ⟨?_, hyvn⟩
  have hsq : (0 : ℚ) < (s : ℚ) := by exact_mod_cast hs
  have hle : F32.fin (((-s : ℤ)) : ℚ) ≤ F32.fin 0 := by
    rw [F32.fin_le_fin]
    push_cast
    linarith
  have hmul : F32.fin (-1) * F32.fin (((-s : ℤ)) : ℚ) = F32.fin (s : ℚ) := by
    rw [F32.fin_mul_fin]
    have e : (-1 : ℚ) * ((-s : ℤ) : ℚ) = (s : ℚ) := by push_cast; ring
    rw [e]
    exact F32.round_int s (by rw [abs_of_pos hs]; omega)
  have hne : F32.fin (s : ℚ) ≠ F32.fin 0 := by
    intro h
    have := F32.fin.inj h
    linarith
  have hsub : F32.fin (x : ℚ) - F32.fin 50 = F32.fin ((k * s : ℤ) : ℚ) := by
    rw [F32.fin_sub_fin]
    have e : (x : ℚ) - 50 = ((k * s : ℤ) : ℚ) := by
      rw [← hturn]
      push_cast
      rfl
    rw [e]
    exact F32.round_int _ (by rw [← hturn, abs_le]; constructor <;> omega)
  have hdiv : F32.fin ((k * s : ℤ) : ℚ) / F32.fin (s : ℚ) = F32.fin (k : ℚ) := by
    rw [F32.fin_div_fin _ _ (ne_of_gt hsq)]
    have e : ((k * s : ℤ) : ℚ) / (s : ℚ) = (k : ℚ) := by
      push_cast
      field_simp
    rw [e]
    exact F32.round_int _ (by rw [abs_le]; constructor <;> omega)
  have hprod : F32.fin (v : ℚ) * F32.fin (k : ℚ) = F32.fin ((v * k : ℤ) : ℚ) := by
    rw [F32.fin_mul_fin]
    have e : (v : ℚ) * (k : ℚ) = ((v * k : ℤ) : ℚ) := by push_cast; rfl
    rw [e]
    exact F32.round_int _ (by omega)
  have hsum : F32.fin (y : ℚ) + F32.fin ((v * k : ℤ) : ℚ) = F32.fin ((y + v * k : ℤ) : ℚ) := by
    rw [F32.fin_add_fin]
    have e : (y : ℚ) + ((v * k : ℤ) : ℚ) = ((y + v * k : ℤ) : ℚ) := by push_cast; rfl
    rw [e]
    exact F32.round_int _ (by omega)
  unfold idealY
  simp only
  rw [if_pos hle, hmul, if_neg hne, hsub, hdiv, hprod, hsum]

theorem round_half : F32.round (1 / 2) = F32.fin (1 / 2) :=
  F32.round_half_int 1 (by norm_num) (by norm_num)

theorem round_300_5 : F32.round (601 / 2) = F32.fin (601 / 2) :=
  F32.round_half_int 601 (by norm_num) (by norm_num)

/-! ## Collision tests as propositions -/

theorem isAtPaddleLevel_iff (p : Paddle) (targetY : F32) :
    p.isAtPaddleLevel targetY = true ↔
      targetY - F32.fin 5 < p.ypos + F32.fin 50 ∧ targetY + F32.fin 5 > p.ypos - F32.fin 50 := by
  simp [Paddle.isAtPaddleLevel]

theorem F32.int_add (a b : ℤ) (h : |a + b| ≤ 16777216) :
    F32.fin (a : ℚ) + F32.fin (b : ℚ) = F32.fin ((a + b : ℤ) : ℚ) := by
  rw [F32.fin_add_fin]
  have e : (a : ℚ) + (b : ℚ) = ((a + b : ℤ) : ℚ) := by push_cast; rfl
  rw [e, F32.round_int _ h]

theorem F32.int_sub (a b : ℤ) (h : |a - b| ≤ 16777216) :
    F32.fin (a : ℚ) - F32.fin (b : ℚ) = F32.fin ((a - b : ℤ) : ℚ) := by
  rw [F32.fin_sub_fin]
  have e : (a : ℚ) - (b : ℚ) = ((a - b : ℤ) : ℚ) := by push_cast; rfl
  rw [e, F32.round_int _ h]

theorem F32.fin_int_lt (a b : ℤ) : F32.fin (a : ℚ) < F32.fin (b : ℚ) ↔ a < b := by
  rw [F32.fin_lt_fin]
  exact Int.cast_lt

/-- The window of `isAtPaddleLevel` for a paddle and a target on integer heights. -/
theorem isAtPaddleLevel_int (p : Paddle) (n t : ℤ) (hp : p.ypos = F32.fin n)
    (hn : |n| ≤ 8388608) (ht : |t| ≤ 8388608) :
    p.isAtPaddleLevel (F32.fin t) = true ↔ |t - n| < 55 := by
  have hn' := abs_le.mp hn
  have ht' := abs_le.mp ht
  have e5 : (F32.fin 5 : F32) = F32.fin ((5 : ℤ) : ℚ) := by norm_num
  have e50 : (F32.fin 50 : F32) = F32.fin ((50 : ℤ) : ℚ) := by norm_num
  rw [isAtPaddleLevel_iff, hp, e5, e50,
    F32.int_sub t 5 (by rw [abs_le]; constructor <;> omega),
    F32.int_add t 5 (by rw [abs_le]; constructor <;> omega),
    F32.int_add n 50 (by rw [abs_le]; constructor <;> omega),
    F32.int_sub n 50 (by rw [abs_le]; constructor <;> omega)]
  show F32.fin ((t - 5 : ℤ) : ℚ) < F32.fin ((n + 50 : ℤ) : ℚ) ∧
    F32.fin ((n - 50 : ℤ) : ℚ) < F32.fin ((t + 5 : ℤ) : ℚ) ↔ _
  rw [F32.fin_int_lt, F32.fin_int_lt, abs_lt]
  constructor
  · rintro ⟨h1, h2⟩
    constructor <;> omega
  · rintro ⟨h1, h2⟩
    constructor <;> omega

/-- For a paddle on an integer height, `isAtPaddleLevel` is true only inside the window
`|targetY - y| < 55`, whatever the finite target. -/
theorem isAtPaddleLevel_sound (p : Paddle) (n : ℤ) (q : ℚ) (hp : p.ypos = F32.fin n)
    (hn : |n| ≤ 8388608) (h : p.isAtPaddleLevel (F32.fin q) = true) : |q - n| < 55 := by
  have hn' := abs_le.mp hn
  have e50 : (F32.fin 50 : F32) = F32.fin ((50 : ℤ) : ℚ) := by norm_num
  rw [isAtPaddleLevel_iff, hp, e50,
    F32.int_add n 50 (by rw [abs_le]; constructor <;> omega),
    F32.int_sub n 50 (by rw [abs_le]; constructor <;> omega),
    F32.fin_sub_fin, F32.fin_add_fin] at h
  obtain ⟨h1, h2⟩ := h
  rw [abs_lt]
  constructor
  · by_contra hc
    have hle : q + 5 ≤ ((n - 50 : ℤ) : ℚ) := by push_cast; linarith [not_lt.mp hc]
    exact F32.not_flt_of_fle
      (F32.round_le_int (n - 50) (by rw [abs_le]; constructor <;> omega) hle) h2
  · by_contra hc
    have hle : ((n + 50 : ℤ) : ℚ) ≤ q - 5 := by push_cast; linarith [not_lt.mp hc]
    exact F32.not_flt_of_fle
      (F32.le_round_int (n + 50) (by rw [abs_le]; constructor <;> omega) hle) h1

theorem doesHitPaddle_iff (b : Ball) (left right : Paddle) :
    b.doesHitPaddle left right = true ↔
      (b.xpos - F32.fin 5 < F32.fin 50 ∧ left.isAtPaddleLevel b.ypos = true) ∨
      (b.xpos + F32.fin 5 > F32.fin 750 ∧ right.isAtPaddleLevel b.ypos = true) := by
  simp [Ball.doesHitPaddle]

theorem isAtTopOrBottom_iff (b : Ball) :
    b.isAtTopOrBottom = true ↔
      b.ypos - F32.fin 5 < F32.fin 0 ∨ b.ypos + F32.fin 5 > F32.fin 595 := by
  simp [Ball.isAtTopOrBottom]

theorem hitsPaddle_iff (undef : ℤ) (g : GameState) :
    hitsPaddle undef g = true ↔
      (g.ball.xpos - F32.fin 5 < F32.fin 50 ∧
        (leftAfterMoves undef g).isAtPaddleLevel g.ball.ypos = true) ∨
      (g.ball.xpos + F32.fin 5 > F32.fin 750 ∧
        (rightAfterMoves g).isAtPaddleLevel g.ball.ypos = true) := by
  unfold hitsPaddle
  exact doesHitPaddle_iff _ _ _

/-- A ball whose `x` fails both horizontal tests hits no paddle. -/
theorem hitsPaddle_of_middle (undef : ℤ) (g : GameState)
    (h1 : ¬ g.ball.xpos - F32.fin 5 < F32.fin 50)
    (h2 : ¬ g.ball.xpos + F32.fin 5 > F32.fin 750) : hitsPaddle undef g = false := by
  rw [Bool.eq_false_iff, Ne, hitsPaddle_iff]
  rintro (h | h)
  · exact h1 h.1
  · exact h2 h.1

theorem leftAfterMoves_of_moving {undef : ℤ} {g : GameState}
    (h : ¬ (g.ball.xspeed = F32.fin 0 ∧ g.ball.yspeed = F32.fin 0)) :
    leftAfterMoves undef g = makeAIMove undef g.ball g.left := by
  unfold leftAfterMoves
  rw [stallGuard_ball_of_moving h]

theorem fin_ne_zero {a : ℚ} (h : a ≠ 0) : F32.fin a ≠ F32.fin 0 :=
  fun h0 => h (F32.fin.inj h0)

theorem moving_of_xspeed {x y : F32} (h : x ≠ F32.fin 0) :
    ¬ (x = F32.fin 0 ∧ y = F32.fin 0) := fun hc => h hc.1

theorem moveUp_300 (x : F32) :
    (Paddle.mk x (F32.fin 300)).moveUp = Paddle.mk x (F32.fin 299) := by
  unfold Paddle.moveUp
  rw [if_pos (show F32.fin 300 > F32.fin 50 from (F32.fin_lt_fin _ _).mpr (by norm_num))]
  simp only [F32.fin_sub_fin]
  norm_num [F32.round_ofNat]

/-- The AI move on a paddle at `y = 300` for a target above, below or at `300`. -/
theorem makeAIMove_at_300 (undef : ℤ) (ball : Ball) (x : F32) :
    makeAIMove undef ball (Paddle.mk x (F32.fin 300)) =
      if 300 < idealPosition undef ball then Paddle.mk x (F32.fin 301)
      else if idealPosition undef ball < 300 then Paddle.mk x (F32.fin 299)
      else Paddle.mk x (F32.fin 300) := by
  have e : (F32.fin 300 : F32) = F32.fin ((300 : ℤ) : ℚ) := by norm_num
  rw [makeAIMove_of_int undef ball _ 300 e (by norm_num), moveDown_300, moveUp_300]

/-! ## The states of the examples -/

theorem level_int (x : F32) (n t : ℤ) (hn : |n| ≤ 8388608) (ht : |t| ≤ 8388608) :
    (Paddle.mk x (F32.fin (n : ℚ))).isAtPaddleLevel (F32.fin (t : ℚ)) = true ↔
      |t - n| < 55 :=
  isAtPaddleLevel_int _ n t rfl hn ht

theorem level_301_300 (x : F32) :
    (Paddle.mk x (F32.fin 301)).isAtPaddleLevel (F32.fin 300) = true := by
  have h := (level_int x 301 300 (by norm_num) (by norm_num)).mpr (by norm_num)
  simpa using h

theorem level_310_300 (x : F32) :
    (Paddle.mk x (F32.fin 310)).isAtPaddleLevel (F32.fin 300) = true := by
  have h := (level_int x 310 300 (by norm_num) (by norm_num)).mpr (by norm_num)
  simpa using h

theorem level_299_260 (x : F32) :
    (Paddle.mk x (F32.fin 299)).isAtPaddleLevel (F32.fin 260) = true := by
  have h := (level_int x 299 260 (by norm_num) (by norm_num)).mpr (by norm_num)
  simpa using h

theorem level_299_100 (x : F32) :
    ¬ (Paddle.mk x (F32.fin 299)).isAtPaddleLevel (F32.fin 100) = true := by
  intro h
  have h2 := (level_int x 299 100 (by norm_num) (by norm_num)).mp (by simpa using h)
  norm_num at h2

theorem left_test_54 : F32.fin 54 - F32.fin 5 < F32.fin 50 := by
  norm_num [F32.fin_sub_fin, F32.round_ofNat, F32.fin_lt_fin]

theorem left_test_400 : ¬ F32.fin 400 - F32.fin 5 < F32.fin 50 := by
  norm_num [F32.fin_sub_fin, F32.round_ofNat, F32.fin_lt_fin]

theorem right_test_400 : ¬ F32.fin 400 + F32.fin 5 > F32.fin 750 := by
  norm_num [F32.fin_add_fin, F32.round_ofNat, F32.fin_lt_fin]

theorem right_test_10 : ¬ F32.fin 10 + F32.fin 5 > F32.fin 750 := by
  norm_num [F32.fin_add_fin, F32.round_ofNat, F32.fin_lt_fin]

theorem wall_300 (x vx vy : F32) : (Ball.mk x (F32.fin 300) vx vy).isAtTopOrBottom = false := by
  rw [Bool.eq_false_iff, Ne, isAtTopOrBottom_iff]
  norm_num [F32.fin_add_fin, F32.fin_sub_fin, F32.round_ofNat, F32.fin_lt_fin]

theorem wall_260 (x vx vy : F32) : (Ball.mk x (F32.fin 260) vx vy).isAtTopOrBottom = false := by
  rw [Bool.eq_false_iff, Ne, isAtTopOrBottom_iff]
  norm_num [F32.fin_add_fin, F32.fin_sub_fin, F32.round_ofNat, F32.fin_lt_fin]

theorem wall_2 (x vx vy : F32) : (Ball.mk x (F32.fin 2) vx vy).isAtTopOrBottom = true := by
  rw [isAtTopOrBottom_iff]
  left
  norm_num [F32.fin_sub_fin, F32.round_neg, F32.round_ofNat, F32.neg_fin, F32.fin_lt_fin]

theorem moving_neg_one (y : F32) : ¬ (F32.fin (-1) = F32.fin 0 ∧ y = F32.fin 0) :=
  moving_of_xspeed (fin_ne_zero (by norm_num))

/-- The target for the ball at `(54, 300)` with `xspeed = -1` and an integer `yspeed`
`v`: `300 + 4 v`. -/
theorem idealPosition_54_300 (undef : ℤ) (v : ℤ) (hv : |v| ≤ 2048) :
    idealPosition undef (Ball.mk (F32.fin 54) (F32.fin 300) (F32.fin (-1)) (F32.fin v)) =
      300 + v * 4 := by
  have e : Ball.mk (F32.fin 54) (F32.fin 300) (F32.fin (-1)) (F32.fin (v : ℚ)) =
      ⟨F32.fin ((54 : ℤ) : ℚ), F32.fin ((300 : ℤ) : ℚ), F32.fin ((-1 : ℤ) : ℚ),
        F32.fin (v : ℚ)⟩ := by norm_num
  obtain ⟨h1, h2⟩ := idealY_int 54 300 1 v 4 (by norm_num) (by norm_num) (by norm_num)
    (by norm_num) (by norm_num) hv (by norm_num)
  rw [e]
  exact idealPosition_of_idealY h1 (toInt_fin_int _ (by linarith))

/-- The target for a ball at `x = 54` moving left with `xspeed = -1`: four turns. -/
theorem idealY_54 (y v : F32) :
    idealY (Ball.mk (F32.fin 54) y (F32.fin (-1)) v) = y + v * F32.fin 4 := by
  have hle : (F32.fin (-1) : F32) ≤ F32.fin 0 := (F32.fin_le_fin _ _).mpr (by norm_num)
  have hmul : F32.fin (-1) * F32.fin (-1) = F32.fin 1 := by
    rw [F32.fin_mul_fin]
    norm_num [F32.round_one]
  have hsub : F32.fin 54 - F32.fin 50 = F32.fin 4 := by
    rw [F32.fin_sub_fin]
    norm_num [F32.round_ofNat]
  have hdiv : F32.fin 4 / F32.fin 1 = F32.fin 4 := by
    rw [F32.fin_div_fin _ _ (by norm_num)]
    norm_num [F32.round_ofNat]
  unfold idealY
  simp only
  rw [if_pos hle, hmul, if_neg (fin_ne_zero (by norm_num)), hsub, hdiv]

theorem example_left_54_300 : leftAfterMoves 0 (GameState.mk "pong"
    ⟨F32.fin 54, F32.fin 300, F32.fin (-1), F32.fin 0⟩ ⟨F32.fin 25, F32.fin 300⟩
    ⟨F32.fin 750, F32.fin 300⟩ Move.STATIONARY 0 0) = ⟨F32.fin 25, F32.fin 300⟩ := by
  rw [leftAfterMoves_of_moving (moving_neg_one _)]
  show makeAIMove 0 (Ball.mk (F32.fin 54) (F32.fin 300) (F32.fin (-1)) (F32.fin 0))
    (Paddle.mk (F32.fin 25) (F32.fin 300)) = _
  have h := idealPosition_54_300 0 0 (by norm_num)
  have e : (F32.fin ((0 : ℤ) : ℚ) : F32) = F32.fin 0 := by norm_num
  rw [e] at h
  rw [makeAIMove_at_300, h]
  norm_num

theorem example_leftAfterMoves_one : leftAfterMoves 0 (GameState.mk "pong"
    ⟨F32.fin 54, F32.fin 300, F32.fin (-1), F32.fin 1⟩ ⟨F32.fin 25, F32.fin 300⟩
    ⟨F32.fin 750, F32.fin 300⟩ Move.STATIONARY 0 0) = ⟨F32.fin 25, F32.fin 301⟩ := by
  rw [leftAfterMoves_of_moving (moving_neg_one _)]
  show makeAIMove 0 (Ball.mk (F32.fin 54) (F32.fin 300) (F32.fin (-1)) (F32.fin 1))
    (Paddle.mk (F32.fin 25) (F32.fin 300)) = _
  have h := idealPosition_54_300 0 1 (by norm_num)
  have e : (F32.fin ((1 : ℤ) : ℚ) : F32) = F32.fin 1 := by norm_num
  rw [e] at h
  rw [makeAIMove_at_300, h]
  norm_num

/-- With the ball at `(54, 300)` and the left paddle at `y = 300` after the AI move, the
ball hits the left paddle. -/
theorem example_hit_left_300 (name : String) (vy lx : F32) (right : Paddle) (move : Move)
    (ls rs : ℤ) (undef : ℤ)
    (hstay : (leftAfterMoves undef ⟨name, ⟨F32.fin 54, F32.fin 300, F32.fin (-1), vy⟩,
      ⟨lx, F32.fin 300⟩, right, move, ls, rs⟩).ypos = F32.fin 300) :
    hitsPaddle undef ⟨name, ⟨F32.fin 54, F32.fin 300, F32.fin (-1), vy⟩,
      ⟨lx, F32.fin 300⟩, right, move, ls, rs⟩ = true := by
  rw [hitsPaddle_iff]
  left
  refine ⟨left_test_54, ?_⟩
  have e : (F32.fin 300 : F32) = F32.fin ((300 : ℤ) : ℚ) := by norm_num
  rw [e] at hstay
  have h := (isAtPaddleLevel_int _ 300 300 hstay (by norm_num) (by norm_num)).mpr
    (by norm_num)
  simpa using h

theorem example_hit_54_300 : hitsPaddle 0 (GameState.mk "pong"
    ⟨F32.fin 54, F32.fin 300, F32.fin (-1), F32.fin 0⟩ ⟨F32.fin 25, F32.fin 300⟩
    ⟨F32.fin 750, F32.fin 300⟩ Move.STATIONARY 0 0) = true := by
  apply example_hit_left_300
  rw [example_left_54_300]

theorem example_hit_one : hitsPaddle 0 (GameState.mk "pong"
    ⟨F32.fin 54, F32.fin 300, F32.fin (-1), F32.fin 1⟩ ⟨F32.fin 25, F32.fin 300⟩
    ⟨F32.fin 750, F32.fin 300⟩ Move.STATIONARY 0 0) = true := by
  rw [hitsPaddle_iff]
  left
  refine ⟨left_test_54, ?_⟩
  rw [example_leftAfterMoves_one]
  exact level_301_300 _

theorem example_miss_400_2 : hitsPaddle 0 (GameState.mk "pong"
    ⟨F32.fin 400, F32.fin 2, F32.fin 1, F32.fin (-1)⟩ ⟨F32.fin 25, F32.fin 300⟩
    ⟨F32.fin 750, F32.fin 300⟩ Move.STATIONARY 0 0) = false :=
  hitsPaddle_of_middle _ _ left_test_400 right_test_400

theorem example_wall_400_2 : (Ball.mk (F32.fin 400) (F32.fin 2) (F32.fin 1)
    (F32.fin (-1))).isAtTopOrBottom = true := wall_2 _ _ _

/-- The `float` product `1 * 1.05`: the `float` nearest to `1.05`. -/
theorem timesDouble105_one : (F32.fin 1).timesDouble105 = F32.fin (4404019 / 4194304) := by
  show F32.round (roundDouble (1 * DOUBLE_1_05)) = _
  exact float_1_05

theorem neg_fin_neg_one : -F32.fin (-1) = F32.fin 1 := by
  rw [F32.neg_fin]
  norm_num

theorem not_lt_of_fin_le {a : ℚ} {x : F32} (h : F32.fin a ≤ x) : ¬ x < F32.fin a :=
  F32.not_flt_of_fle h

theorem not_gt_of_le_fin {a : ℚ} {x : F32} (h : x ≤ F32.fin a) : ¬ x > F32.fin a :=
  F32.not_flt_of_fle h

/-! ## Bounces -/

/-- C5: when the ball hits a paddle (`doesHitPaddle` on the position before integration
and the paddles after this tick's moves), does not score and does not have both speeds
zero, one tick gives `xspeed' = -1.05 * xspeed` and `yspeed' = w + (ball.y - P.y) / 100`,
with `w` the `yspeed` negated at top or bottom and `yspeed` otherwise, and `P` the right
paddle if `ball.x > 400` and the left paddle otherwise, both after this tick's moves.
The arithmetic is the program's: the negated `xspeed` times the `double` `1.05` stored
as a `float`, and `float` subtraction, division and addition. -/
theorem paddle_bounce_speeds (rand : ℕ) (undef : ℤ) (g : GameState)
    (hhit : g.ball.doesHitPaddle (updatePosition rand undef g).left
      (updatePosition rand undef g).right = true)
    (hlo : F32.fin 25 ≤ g.ball.xpos) (hhi : g.ball.xpos ≤ F32.fin 775)
    (hmoving : ¬ (g.ball.xspeed = F32.fin 0 ∧ g.ball.yspeed = F32.fin 0)) :
    (updatePosition rand undef g).ball.xspeed = (-g.ball.xspeed).timesDouble105 ∧
    (updatePosition rand undef g).ball.yspeed =
      (if g.ball.isAtTopOrBottom then -g.ball.yspeed else g.ball.yspeed) +
        (g.ball.ypos -
          (if g.ball.xpos > F32.fin 400 then (updatePosition rand undef g).right
           else (updatePosition rand undef g).left).ypos) / F32.fin 100 := by
  rw [updatePosition_left, updatePosition_right] at hhit
  have hh : hitsPaddle undef g = true := hhit
  rw [updatePosition_ball_of_inside rand undef g (not_lt_of_fin_le hlo) (not_gt_of_le_fin hhi),
    updatePosition_left, updatePosition_right]
  simp only [Ball.update, bouncedBall, hh, if_true, stallGuard_ball_of_moving hmoving]
  exact ⟨trivial, trivial⟩

theorem paddle_bounce_speeds_witness :
    (updatePosition 0 0 (GameState.mk "pong"
      ⟨F32.fin 54, F32.fin 300, F32.fin (-1), F32.fin 0⟩ ⟨F32.fin 25, F32.fin 300⟩
      ⟨F32.fin 750, F32.fin 300⟩ Move.STATIONARY 0 0)).ball.xspeed =
      (-(F32.fin (-1))).timesDouble105 :=
  (paddle_bounce_speeds 0 0 (GameState.mk "pong"
      ⟨F32.fin 54, F32.fin 300, F32.fin (-1), F32.fin 0⟩ ⟨F32.fin 25, F32.fin 300⟩
      ⟨F32.fin 750, F32.fin 300⟩ Move.STATIONARY 0 0)
    (by
      rw [updatePosition_left, updatePosition_right]
      exact example_hit_54_300)
    ((F32.fin_le_fin _ _).mpr (by norm_num)) ((F32.fin_le_fin _ _).mpr (by norm_num))
    (by
      rintro ⟨h, -⟩
      have := F32.fin.inj h
      norm_num at this)).1

/-- C7: when the ball is at top or bottom, does not hit a paddle (paddles after this
tick's moves) and does not score, one tick returns `yspeed' = -yspeed` and the new `y`
is the old `y` plus the flipped `yspeed` (a `float` addition). -/
theorem wall_bounce_flips (rand : ℕ) (undef : ℤ) (g : GameState)
    (hwall : g.ball.isAtTopOrBottom = true)
    (hmiss : g.ball.doesHitPaddle (updatePosition rand undef g).left
      (updatePosition rand undef g).right = false)
    (hlo : F32.fin 25 ≤ g.ball.xpos) (hhi : g.ball.xpos ≤ F32.fin 775) :
    (updatePosition rand undef g).ball.yspeed = -g.ball.yspeed ∧
    (updatePosition rand undef g).ball.ypos = g.ball.ypos + -g.ball.yspeed := by
  rw [updatePosition_left, updatePosition_right] at hmiss
  have hh : hitsPaddle undef g = false := hmiss
  rw [updatePosition_ball_of_inside rand undef g (not_lt_of_fin_le hlo) (not_gt_of_le_fin hhi),
    bouncedBall_of_miss hh]
  simp [Ball.update, hwall]

theorem wall_bounce_flips_witness :
    (updatePosition 0 0 (GameState.mk "pong"
      ⟨F32.fin 400, F32.fin 2, F32.fin 1, F32.fin (-1)⟩ ⟨F32.fin 25, F32.fin 300⟩
      ⟨F32.fin 750, F32.fin 300⟩ Move.STATIONARY 0 0)).ball.yspeed = F32.fin 1 ∧
    (updatePosition 0 0 (GameState.mk "pong"
      ⟨F32.fin 400, F32.fin 2, F32.fin 1, F32.fin (-1)⟩ ⟨F32.fin 25, F32.fin 300⟩
      ⟨F32.fin 750, F32.fin 300⟩ Move.STATIONARY 0 0)).ball.ypos = F32.fin 3 := by
  have h := wall_bounce_flips 0 0 (GameState.mk "pong"
      ⟨F32.fin 400, F32.fin 2, F32.fin 1, F32.fin (-1)⟩ ⟨F32.fin 25, F32.fin 300⟩
      ⟨F32.fin 750, F32.fin 300⟩ Move.STATIONARY 0 0)
    example_wall_400_2
    (by
      rw [updatePosition_left, updatePosition_right]
      exact example_miss_400_2)
    ((F32.fin_le_fin _ _).mpr (by norm_num)) ((F32.fin_le_fin _ _).mpr (by norm_num))
  norm_num [F32.neg_fin, F32.fin_add_fin, F32.round_ofNat] at h
  exact h

/-! ## The reflection example -/

theorem round_1_100 : F32.round (1 / 100) = F32.fin (5368709 / 536870912) := by
  apply F32.round_eval (-7) _ (by norm_num) (by norm_num) _ (by norm_num)
  norm_num [roundHalfEven]

theorem round_1_sub_float_1_100 :
    F32.round (1 - 5368709 / 536870912) = F32.fin (4152361 / 4194304) := by
  apply F32.round_eval (-1) _ (by norm_num) (by norm_num) _ (by norm_num)
  norm_num [roundHalfEven]

theorem not_gt_54_400 : ¬ (F32.fin 54 > F32.fin 400) := F32.not_fin_lt_fin (by norm_num)

theorem inside_54 : ¬ F32.fin 54 < F32.fin 25 ∧ ¬ F32.fin 54 > F32.fin 775 :=
  ⟨F32.not_fin_lt_fin (by norm_num), F32.not_fin_lt_fin (by norm_num)⟩

/-- C6, refuted as stated: with the ball at `(54, 300)`, `xspeed = -1`, `yspeed = 1` and
the left paddle at `y = 300` the AI first moves the paddle down to `301`, so the
reflection increment is the `float` `(300 - 301) / 100` and `yspeed` after the tick is
the `float` `4152361 / 4194304` (about `0.99`), not `1`. -/
theorem reflection_example_changes_yspeed :
    (updatePosition 0 0 (GameState.mk "pong"
      ⟨F32.fin 54, F32.fin 300, F32.fin (-1), F32.fin 1⟩ ⟨F32.fin 25, F32.fin 300⟩
      ⟨F32.fin 750, F32.fin 300⟩ Move.STATIONARY 0 0)).ball.yspeed =
        F32.fin (4152361 / 4194304) ∧
    (updatePosition 0 0 (GameState.mk "pong"
      ⟨F32.fin 54, F32.fin 300, F32.fin (-1), F32.fin 1⟩ ⟨F32.fin 25, F32.fin 300⟩
      ⟨F32.fin 750, F32.fin 300⟩ Move.STATIONARY 0 0)).ball.yspeed ≠ F32.fin 1 := by
  have hval : (updatePosition 0 0 (GameState.mk "pong"
      ⟨F32.fin 54, F32.fin 300, F32.fin (-1), F32.fin 1⟩ ⟨F32.fin 25, F32.fin 300⟩
      ⟨F32.fin 750, F32.fin 300⟩ Move.STATIONARY 0 0)).ball.yspeed =
        F32.fin (4152361 / 4194304) := by
    rw [updatePosition_ball_of_inside _ _ _ inside_54.1 inside_54.2]
    show (bouncedBall 0 _).yspeed = _
    unfold bouncedBall
    simp only
    rw [example_hit_one, example_leftAfterMoves_one, if_pos rfl, wall_300, if_neg not_gt_54_400]
    have h1 : F32.fin 300 - F32.fin 301 = F32.fin (-1) := by
      rw [F32.fin_sub_fin]
      have e : (300 : ℚ) - 301 = -1 := by norm_num
      rw [e]
      exact F32.round_eq_of_int (-1) (by norm_num) (by norm_num)
    have h2 : F32.fin (-1) / F32.fin 100 = F32.fin (-(5368709 / 536870912)) := by
      rw [F32.fin_div_fin _ _ (by norm_num)]
      have e : (-1 : ℚ) / 100 = -(1 / 100) := by norm_num
      rw [e, F32.round_neg, round_1_100, F32.neg_fin]
    simp only [Bool.false_eq_true, if_false]
    rw [h1, h2, F32.fin_add_fin]
    have e : (1 : ℚ) + -(5368709 / 536870912) = 1 - 5368709 / 536870912 := by ring
    rw [e]
    exact round_1_sub_float_1_100
  refine ⟨hval, ?_⟩
  rw [hval]
  exact fun h => absurd (F32.fin.inj h) (by norm_num)

/-- C6, amended: for every game state with the ball at `(54, 300)`, `xspeed = -1`, a
finite `float` `yspeed` and the left paddle at `y = 300` (whatever the right paddle and
the move command), if this tick's AI move leaves the left paddle at `y = 300`, then after
one tick the ball's `xspeed` is the `float` nearest to `1.05`, `4404019 / 4194304`, and
its `yspeed` equals its `yspeed` before the tick. -/
theorem reflection_example (name : String) (v : ℚ) (lx : F32) (right : Paddle) (move : Move)
    (ls rs : ℤ) (rand : ℕ) (undef : ℤ)
    (hv : (F32.fin v).IsFloat)
    (hstay : (updatePosition rand undef ⟨name, ⟨F32.fin 54, F32.fin 300, F32.fin (-1),
      F32.fin v⟩, ⟨lx, F32.fin 300⟩, right, move, ls, rs⟩).left.ypos = F32.fin 300) :
    (updatePosition rand undef ⟨name, ⟨F32.fin 54, F32.fin 300, F32.fin (-1), F32.fin v⟩,
      ⟨lx, F32.fin 300⟩, right, move, ls, rs⟩).ball.xspeed = F32.fin (4404019 / 4194304) ∧
    (updatePosition rand undef ⟨name, ⟨F32.fin 54, F32.fin 300, F32.fin (-1), F32.fin v⟩,
      ⟨lx, F32.fin 300⟩, right, move, ls, rs⟩).ball.yspeed = F32.fin v := by
  rw [updatePosition_left] at hstay
  have hhit := example_hit_left_300 name (F32.fin v) lx right move ls rs undef hstay
  rw [updatePosition_ball_of_inside _ _ _ inside_54.1 inside_54.2]
  show (bouncedBall undef _).xspeed = _ ∧ (bouncedBall undef _).yspeed = _
  unfold bouncedBall
  simp only
  rw [hhit, if_pos rfl, if_pos rfl, stallGuard_ball_of_moving (moving_neg_one _), wall_300,
    if_neg not_gt_54_400, hstay]
  constructor
  · show (-F32.fin (-1)).timesDouble105 = _
    rw [neg_fin_neg_one]
    exact timesDouble105_one
  · simp only [Bool.false_eq_true, if_false]
    rw [F32.fin_sub_fin, sub_self, F32.round_zero,
      F32.fin_div_fin _ _ (by norm_num), zero_div, F32.round_zero, F32.fin_add_fin, add_zero]
    exact hv

theorem reflection_example_witness :
    (updatePosition 0 0 (GameState.mk "pong"
      ⟨F32.fin 54, F32.fin 300, F32.fin (-1), F32.fin 0⟩ ⟨F32.fin 25, F32.fin 300⟩
      ⟨F32.fin 750, F32.fin 300⟩ Move.STATIONARY 0 0)).ball.xspeed =
        F32.fin (4404019 / 4194304) ∧
    (updatePosition 0 0 (GameState.mk "pong"
      ⟨F32.fin 54, F32.fin 300, F32.fin (-1), F32.fin 0⟩ ⟨F32.fin 25, F32.fin 300⟩
      ⟨F32.fin 750, F32.fin 300⟩ Move.STATIONARY 0 0)).ball.yspeed = F32.fin 0 :=
  reflection_example "pong" 0 (F32.fin 25) ⟨F32.fin 750, F32.fin 300⟩ Move.STATIONARY 0 0 0 0
    F32.round_zero
    (by rw [updatePosition_left, example_left_54_300])

/-! ## The horizontal speed never drops below one -/

theorem F32.one_le_abs_of_one_le {x : F32} (h : F32.fin 1 ≤ x) : F32.fin 1 ≤ x.abs := by
  cases x with
  | fin q =>
    have h1 : (1 : ℚ) ≤ q := h
    exact (F32.fin_le_fin _ _).mpr (le_trans h1 (le_abs_self q))
  | posInf => exact trivial
  | negInf => exact absurd h id
  | nan => exact absurd h id

theorem F32.one_le_abs_of_le_neg_one {x : F32} (h : x ≤ F32.fin (-1)) :
    F32.fin 1 ≤ x.abs := by
  cases x with
  | fin q =>
    have h1 : q ≤ (-1 : ℚ) := h
    have h2 : -q ≤ |q| := neg_le_abs q
    exact (F32.fin_le_fin _ _).mpr (by linarith)
  | posInf => exact absurd h id
  | negInf => exact trivial
  | nan => exact absurd h id

theorem representable_one (prec : ℕ) (emin : ℤ) (hp : 1 ≤ prec) (he : emin ≤ 0) :
    Representable prec emin 1 := by
  refine ⟨1, 0, ?_, ?_, by norm_num⟩
  · rw [abs_one]
    exact one_le_pow₀ (by norm_num)
  · have : (1 : ℤ) ≤ (prec : ℤ) := by exact_mod_cast hp
    linarith

theorem one_le_double_1_05 : (1 : ℚ) ≤ DOUBLE_1_05 := by
  rw [double_1_05_eq]
  norm_num

/-- A bounce keeps the magnitude of the horizontal speed at one or more. -/
theorem F32.one_le_abs_bounce {x : F32} (h : F32.fin 1 ≤ x.abs) :
    F32.fin 1 ≤ ((-x).timesDouble105).abs := by
  cases x with
  | fin a =>
    have ha : (1 : ℚ) ≤ |a| := h
    show F32.fin 1 ≤ (F32.round (roundDouble (-a * DOUBLE_1_05))).abs
    have hD := one_le_double_1_05
    have hr1 : Representable 53 (-1022) 1 := representable_one 53 (-1022) (by norm_num)
      (by norm_num)
    have hf1 : Representable 24 (-126) 1 := representable_one 24 (-126) (by norm_num)
      (by norm_num)
    rcases le_abs.mp ha with h1 | h1
    · have h2 : -a * DOUBLE_1_05 ≤ -1 := by nlinarith
      have h3 : roundDouble (-a * DOUBLE_1_05) ≤ -1 :=
        roundTo_le_of_rep (by norm_num) hr1.neg h2
      apply F32.one_le_abs_of_le_neg_one
      exact F32.round_le hf1.neg (by norm_num) h3
    · have h2 : 1 ≤ -a * DOUBLE_1_05 := by nlinarith
      have h3 : 1 ≤ roundDouble (-a * DOUBLE_1_05) :=
        le_roundTo_of_rep (by norm_num) hr1 h2
      apply F32.one_le_abs_of_one_le
      exact F32.le_round hf1 (by norm_num) h3
  | posInf => exact trivial
  | negInf => exact trivial
  | nan => exact absurd h id

theorem F32.ne_zero_of_one_le_abs {x : F32} (h : F32.fin 1 ≤ x.abs) : x ≠ F32.fin 0 := by
  rintro rfl
  have h1 : (1 : ℚ) ≤ |(0 : ℚ)| := h
  rw [abs_zero] at h1
  linarith

theorem bouncedBall_xspeed_abs (undef : ℤ) (g : GameState)
    (h : F32.fin 1 ≤ g.ball.xspeed.abs) : F32.fin 1 ≤ (bouncedBall undef g).xspeed.abs := by
  have hmoving : ¬ (g.ball.xspeed = F32.fin 0 ∧ g.ball.yspeed = F32.fin 0) :=
    fun hc => F32.ne_zero_of_one_le_abs h hc.1
  simp only [bouncedBall, stallGuard_ball_of_moving hmoving]
  split_ifs
  · exact F32.one_le_abs_bounce h
  · exact h

theorem updatePosition_xspeed_ge_one (rand : ℕ) (undef : ℤ) (g : GameState)
    (h : F32.fin 1 ≤ g.ball.xspeed.abs) :
    F32.fin 1 ≤ (updatePosition rand undef g).ball.xspeed.abs := by
  rw [updatePosition_eq]
  simp only [Ball.update]
  split_ifs
  · exact (F32.fin_le_fin _ _).mpr (by simp [Ball.init])
  · exact bouncedBall_xspeed_abs undef g h

/-! ## Two ticks against one -/

theorem F32.fin_of_inside {x : F32} (hnan : x ≠ F32.nan) (hlo : ¬ x < F32.fin 25)
    (hhi : ¬ x > F32.fin 775) : ∃ q : ℚ, x = F32.fin q ∧ 25 ≤ q ∧ q ≤ 775 := by
  cases x with
  | fin q =>
    exact ⟨q, rfl, not_lt.mp (fun h => hlo ((F32.fin_lt_fin _ _).mpr h)),
      not_lt.mp (fun h => hhi ((F32.fin_lt_fin _ _).mpr h))⟩
  | posInf => exact absurd trivial hhi
  | negInf => exact absurd trivial hlo
  | nan => exact absurd rfl hnan

theorem F32.round_ne_nan (q : ℚ) : F32.round q ≠ F32.nan := by
  unfold F32.round
  split_ifs <;> simp

/-- Adding a speed of magnitude one or more to a position between 25 and 775 gives a
different `float`. -/
theorem F32.add_ne_self {q : ℚ} {s : F32} (hlo : 25 ≤ q) (hhi : q ≤ 775)
    (hs : F32.fin 1 ≤ s.abs) : F32.fin q + s ≠ F32.fin q ∧ F32.fin q + s ≠ F32.nan := by
  have hf1 : (⌊q⌋ : ℚ) ≤ q := Int.floor_le q
  have hf2 : q < (⌊q⌋ : ℚ) + 1 := Int.lt_floor_add_one q
  have hc1 : q ≤ (⌈q⌉ : ℚ) := Int.le_ceil q
  have hc2 : (⌈q⌉ : ℚ) < q + 1 := Int.ceil_lt_add_one q
  have hfl : (25 : ℤ) ≤ ⌊q⌋ := Int.le_floor.mpr (by exact_mod_cast hlo)
  have hfu : ⌊q⌋ ≤ (775 : ℤ) := by
    have : (⌊q⌋ : ℚ) ≤ ((775 : ℤ) : ℚ) := by push_cast; linarith
    exact_mod_cast this
  have hcu : ⌈q⌉ ≤ (775 : ℤ) := Int.ceil_le.mpr (by exact_mod_cast hhi)
  have hcl : (25 : ℤ) ≤ ⌈q⌉ := by
    have : ((25 : ℤ) : ℚ) ≤ (⌈q⌉ : ℚ) := by push_cast; linarith
    exact_mod_cast this
  cases s with
  | fin v =>
    have hv : (1 : ℚ) ≤ |v| := hs
    rw [F32.fin_add_fin]
    refine ⟨?_, F32.round_ne_nan _⟩
    intro heq
    rcases le_abs.mp hv with h1 | h1
    · have hb := F32.le_round_int (q := q + v) (⌊q⌋ + 1)
        (by rw [abs_of_nonneg (by omega)]; omega) (by push_cast; linarith)
      rw [heq] at hb
      have hb2 : ((⌊q⌋ + 1 : ℤ) : ℚ) ≤ q := hb
      push_cast at hb2
      linarith
    · have hb := F32.round_le_int (q := q + v) (⌈q⌉ - 1)
        (by rw [abs_of_nonneg (by omega)]; omega) (by push_cast; linarith)
      rw [heq] at hb
      have hb2 : q ≤ ((⌈q⌉ - 1 : ℤ) : ℚ) := hb
      push_cast at hb2
      linarith
  | posInf => exact ⟨fun h => F32.noConfusion h, fun h => F32.noConfusion h⟩
  | negInf => exact ⟨fun h => F32.noConfusion h, fun h => F32.noConfusion h⟩
  | nan => exact absurd hs id

theorem F32.ne_396_of_score {x : F32} (h : x > F32.fin 775 ∨ x < F32.fin 25) :
    F32.fin 396 ≠ x := by
  rintro rfl
  rcases h with h | h
  · exact F32.not_fin_lt_fin (by norm_num) h
  · exact F32.not_fin_lt_fin (by norm_num) h

/-- With a horizontal speed of magnitude one or more and an `x` that is not NaN, a tick
moves the ball: the state changes and the new `x` is not NaN. -/
theorem updatePosition_xpos_ne (rand : ℕ) (undef : ℤ) (g : GameState)
    (hx : g.ball.xpos ≠ F32.nan) (hv : F32.fin 1 ≤ g.ball.xspeed.abs) :
    (updatePosition rand undef g).ball.xpos ≠ g.ball.xpos ∧
      (updatePosition rand undef g).ball.xpos ≠ F32.nan := by
  by_cases hs : g.ball.xpos > F32.fin 775 ∨ g.ball.xpos < F32.fin 25
  · rw [updatePosition_ball_of_score rand undef g hs, Ball.init_update_xpos]
    exact ⟨F32.ne_396_of_score hs, fun h => F32.noConfusion h⟩
  · have hlo : ¬ g.ball.xpos < F32.fin 25 := fun h => hs (Or.inr h)
    have hhi : ¬ g.ball.xpos > F32.fin 775 := fun h => hs (Or.inl h)
    obtain ⟨q, hq, h25, h775⟩ := F32.fin_of_inside hx hlo hhi
    rw [updatePosition_ball_of_inside rand undef g hlo hhi]
    have hb := bouncedBall_xspeed_abs undef g hv
    have hxp : (bouncedBall undef g).update.xpos =
        F32.fin q + (bouncedBall undef g).xspeed := by
      simp only [Ball.update, bouncedBall, hq]
    rw [hxp, hq]
    exact F32.add_ne_self h25 h775 hb

/-- C8, refuted as stated: the state with the ball at `(400, 300)`, `xspeed = 2 ^ (-40)`,
`yspeed = 0`, both paddles at `y = 300` and no move command is returned unchanged by a
tick, because the `float` sum `400 + 2 ^ (-40)` is `400`; so two ticks give the same
state as one. -/
theorem updatePosition_idempotent_on_slow_ball :
    updatePosition 0 0 (updatePosition 0 0 (GameState.mk "pong"
      ⟨F32.fin 400, F32.fin 300, F32.fin (1 / 2 ^ 40), F32.fin 0⟩ ⟨F32.fin 25, F32.fin 300⟩
      ⟨F32.fin 750, F32.fin 300⟩ Move.STATIONARY 0 0)) =
    updatePosition 0 0 (GameState.mk "pong"
      ⟨F32.fin 400, F32.fin 300, F32.fin (1 / 2 ^ 40), F32.fin 0⟩ ⟨F32.fin 25, F32.fin 300⟩
      ⟨F32.fin 750, F32.fin 300⟩ Move.STATIONARY 0 0) := by
  have hfix : updatePosition 0 0 (GameState.mk "pong"
      ⟨F32.fin 400, F32.fin 300, F32.fin (1 / 2 ^ 40), F32.fin 0⟩ ⟨F32.fin 25, F32.fin 300⟩
      ⟨F32.fin 750, F32.fin 300⟩ Move.STATIONARY 0 0) = GameState.mk "pong"
      ⟨F32.fin 400, F32.fin 300, F32.fin (1 / 2 ^ 40), F32.fin 0⟩ ⟨F32.fin 25, F32.fin 300⟩
      ⟨F32.fin 750, F32.fin 300⟩ Move.STATIONARY 0 0 := by
    have hpos : F32.fin (1 / 2 ^ 40) > F32.fin 0 := (F32.fin_lt_fin _ _).mpr (by norm_num)
    have hmoving : ¬ (F32.fin (1 / 2 ^ 40) = F32.fin 0 ∧ F32.fin 0 = F32.fin 0) :=
      moving_of_xspeed (fin_ne_zero (by norm_num))
    have hI : idealPosition 0 (Ball.mk (F32.fin 400) (F32.fin 300) (F32.fin (1 / 2 ^ 40))
        (F32.fin 0)) = 300 :=
      idealPosition_of_idealY (idealY_of_pos hpos) toInt_300
    have hL : leftAfterMoves 0 (GameState.mk "pong"
        ⟨F32.fin 400, F32.fin 300, F32.fin (1 / 2 ^ 40), F32.fin 0⟩ ⟨F32.fin 25, F32.fin 300⟩
        ⟨F32.fin 750, F32.fin 300⟩ Move.STATIONARY 0 0) = ⟨F32.fin 25, F32.fin 300⟩ := by
      rw [leftAfterMoves_of_moving hmoving]
      exact makeAIMove_300_at_300 0 _ _ hI
    have hR : rightAfterMoves (GameState.mk "pong"
        ⟨F32.fin 400, F32.fin 300, F32.fin (1 / 2 ^ 40), F32.fin 0⟩ ⟨F32.fin 25, F32.fin 300⟩
        ⟨F32.fin 750, F32.fin 300⟩ Move.STATIONARY 0 0) = ⟨F32.fin 750, F32.fin 300⟩ := by
      rw [rightAfterMoves_eq]
      rfl
    have hmiss : hitsPaddle 0 (GameState.mk "pong"
        ⟨F32.fin 400, F32.fin 300, F32.fin (1 / 2 ^ 40), F32.fin 0⟩ ⟨F32.fin 25, F32.fin 300⟩
        ⟨F32.fin 750, F32.fin 300⟩ Move.STATIONARY 0 0) = false :=
      hitsPaddle_of_middle _ _ left_test_400 right_test_400
    have h1 : ¬ (F32.fin 400 > F32.fin 775 ∨ F32.fin 400 < F32.fin 25) := by
      rintro (h | h)
      · exact F32.not_fin_lt_fin (by norm_num) h
      · exact F32.not_fin_lt_fin (by norm_num) h
    have h2 : ¬ (F32.fin 400 > F32.fin 775) := fun h => h1 (Or.inl h)
    have h3 : ¬ (F32.fin 400 < F32.fin 25) := fun h => h1 (Or.inr h)
    have hy : F32.fin 300 + F32.fin 0 = F32.fin 300 := by
      rw [F32.fin_add_fin, add_zero]
      exact F32.round_ofNat 300 (by norm_num)
    have hxx : F32.fin 400 + F32.fin (1 / 2 ^ 40) = F32.fin 400 := by
      rw [F32.fin_add_fin]
      exact round_400_absorbs
    rw [updatePosition_eq, hL, hR, bouncedBall_of_miss hmiss, stallGuard_ball_of_moving hmoving]
    simp only [h2, h3, or_self, if_false, wall_300, Ball.update, Bool.false_eq_true]
    rw [hy, hxx]
  rw [hfix, hfix]

/-- C8, amended: for every game state whose ball has an `x` that is not NaN and a
horizontal speed of magnitude at least one (as in every state of a game, where
`|xspeed| >= 1`), and for any random draws, two ticks give a state different from one
tick: the second tick moves the ball's `x`. -/
theorem updatePosition_not_idempotent (rand1 rand2 : ℕ) (undef1 undef2 : ℤ) (g : GameState)
    (hx : g.ball.xpos ≠ F32.nan) (hv : F32.fin 1 ≤ g.ball.xspeed.abs) :
    updatePosition rand2 undef2 (updatePosition rand1 undef1 g) ≠
      updatePosition rand1 undef1 g := by
  intro h
  have h1 := updatePosition_xpos_ne rand1 undef1 g hx hv
  have h2 := updatePosition_xspeed_ge_one rand1 undef1 g hv
  exact (updatePosition_xpos_ne rand2 undef2 (updatePosition rand1 undef1 g) h1.2 h2).1
    (by rw [h])

theorem updatePosition_not_idempotent_witness :
    updatePosition 0 0 (updatePosition 0 0 (createInitialGameState "pong" 0)) ≠
      updatePosition 0 0 (createInitialGameState "pong" 0) :=
  updatePosition_not_idempotent 0 0 0 0 (createInitialGameState "pong" 0)
    (fun h => F32.noConfusion h) ((F32.fin_le_fin _ _).mpr (by simp [abs_one]))

/-! ## Direction changes -/

theorem F32.sign_fin_one : (F32.fin 1).sign = 1 := by
  show SignType.sign (1 : ℚ) = 1
  exact sign_pos (by norm_num)

theorem F32.sign_fin_neg_one : (F32.fin (-1)).sign = -1 := by
  show SignType.sign (-1 : ℚ) = -1
  exact sign_neg (by norm_num)

theorem F32.sign_fin_zero : (F32.fin 0).sign = 0 := by
  show SignType.sign (0 : ℚ) = 0
  exact sign_zero

/-- C9, refuted as stated: the sign of `xspeed` changes without any paddle hit when the
stall guard restarts a ball at rest (`0` becomes `1`) and when a ball moving left scores
and is replaced by a fresh ball (`-1` becomes `1`). -/
theorem xspeed_sign_changes_without_hit :
    ((updatePosition 0 0 (GameState.mk "pong"
        ⟨F32.fin 400, F32.fin 300, F32.fin 0, F32.fin 0⟩ ⟨F32.fin 25, F32.fin 300⟩
        ⟨F32.fin 750, F32.fin 300⟩ Move.STATIONARY 0 0)).ball.xspeed.sign ≠
        (F32.fin 0).sign ∧
      (Ball.mk (F32.fin 400) (F32.fin 300) (F32.fin 0) (F32.fin 0)).doesHitPaddle
        (updatePosition 0 0 (GameState.mk "pong"
          ⟨F32.fin 400, F32.fin 300, F32.fin 0, F32.fin 0⟩ ⟨F32.fin 25, F32.fin 300⟩
          ⟨F32.fin 750, F32.fin 300⟩ Move.STATIONARY 0 0)).left
        (updatePosition 0 0 (GameState.mk "pong"
          ⟨F32.fin 400, F32.fin 300, F32.fin 0, F32.fin 0⟩ ⟨F32.fin 25, F32.fin 300⟩
          ⟨F32.fin 750, F32.fin 300⟩ Move.STATIONARY 0 0)).right = false) ∧
    ((updatePosition 0 0 (GameState.mk "pong"
        ⟨F32.fin 10, F32.fin 100, F32.fin (-1), F32.fin 0⟩ ⟨F32.fin 25, F32.fin 300⟩
        ⟨F32.fin 750, F32.fin 300⟩ Move.STATIONARY 0 0)).ball.xspeed.sign ≠
        (F32.fin (-1)).sign ∧
      (Ball.mk (F32.fin 10) (F32.fin 100) (F32.fin (-1)) (F32.fin 0)).doesHitPaddle
        (updatePosition 0 0 (GameState.mk "pong"
          ⟨F32.fin 10, F32.fin 100, F32.fin (-1), F32.fin 0⟩ ⟨F32.fin 25, F32.fin 300⟩
          ⟨F32.fin 750, F32.fin 300⟩ Move.STATIONARY 0 0)).left
        (updatePosition 0 0 (GameState.mk "pong"
          ⟨F32.fin 10, F32.fin 100, F32.fin (-1), F32.fin 0⟩ ⟨F32.fin 25, F32.fin 300⟩
          ⟨F32.fin 750, F32.fin 300⟩ Move.STATIONARY 0 0)).right = false) := by
  have hA : hitsPaddle 0 (GameState.mk "pong"
      ⟨F32.fin 400, F32.fin 300, F32.fin 0, F32.fin 0⟩ ⟨F32.fin 25, F32.fin 300⟩
      ⟨F32.fin 750, F32.fin 300⟩ Move.STATIONARY 0 0) = false :=
    hitsPaddle_of_middle _ _ left_test_400 right_test_400
  have hB : hitsPaddle 0 (GameState.mk "pong"
      ⟨F32.fin 10, F32.fin 100, F32.fin (-1), F32.fin 0⟩ ⟨F32.fin 25, F32.fin 300⟩
      ⟨F32.fin 750, F32.fin 300⟩ Move.STATIONARY 0 0) = false := by
    have hI : idealPosition 0
        (Ball.mk (F32.fin 10) (F32.fin 100) (F32.fin (-1)) (F32.fin 0)) = 100 := by
      have e : Ball.mk (F32.fin 10) (F32.fin 100) (F32.fin (-1)) (F32.fin 0) =
          ⟨F32.fin ((10 : ℤ) : ℚ), F32.fin ((100 : ℤ) : ℚ), F32.fin ((-1 : ℤ) : ℚ),
            F32.fin ((0 : ℤ) : ℚ)⟩ := by norm_num
      obtain ⟨h1, -⟩ := idealY_int 10 100 1 0 (-40) (by norm_num) (by norm_num)
        (by norm_num) (by norm_num) (by norm_num) (by norm_num) (by norm_num)
      rw [e]
      exact idealPosition_of_idealY h1 (toInt_fin_int _ (by norm_num))
    have hL : leftAfterMoves 0 (GameState.mk "pong"
        ⟨F32.fin 10, F32.fin 100, F32.fin (-1), F32.fin 0⟩ ⟨F32.fin 25, F32.fin 300⟩
        ⟨F32.fin 750, F32.fin 300⟩ Move.STATIONARY 0 0) = ⟨F32.fin 25, F32.fin 299⟩ := by
      rw [leftAfterMoves_of_moving (moving_neg_one _)]
      show makeAIMove 0 (Ball.mk (F32.fin 10) (F32.fin 100) (F32.fin (-1)) (F32.fin 0))
        (Paddle.mk (F32.fin 25) (F32.fin 300)) = _
      rw [makeAIMove_at_300, hI]
      norm_num
    rw [Bool.eq_false_iff, Ne, hitsPaddle_iff, hL]
    rintro (h | h)
    · exact level_299_100 _ h.2
    · exact right_test_10 h.1
  refine ⟨⟨?_, ?_⟩, ?_, ?_⟩
  · rw [updatePosition_ball_of_inside _ _ _ (F32.not_fin_lt_fin (by norm_num))
      (F32.not_fin_lt_fin (by norm_num)), bouncedBall_of_miss hA]
    simp [Ball.update, stallGuard_eq, F32.sign_fin_one, F32.sign_fin_zero]
  · rw [updatePosition_left, updatePosition_right]
    exact hA
  · rw [updatePosition_ball_of_score _ _ _ (Or.inr ((F32.fin_lt_fin _ _).mpr (by norm_num))),
      F32.sign_fin_neg_one]
    simp [Ball.update, Ball.init, F32.sign_fin_one]
  · rw [updatePosition_left, updatePosition_right]
    exact hB

/-- C9, amended: for every game state whose ball does not score in the tick
(`25 <= x <= 775`) and does not have both speeds zero, if the sign of `xspeed` after one
tick differs from its sign before, then the ball hit a paddle in that tick. -/
theorem xspeed_sign_change_implies_hit (rand : ℕ) (undef : ℤ) (g : GameState)
    (hlo : F32.fin 25 ≤ g.ball.xpos) (hhi : g.ball.xpos ≤ F32.fin 775)
    (hmoving : ¬ (g.ball.xspeed = F32.fin 0 ∧ g.ball.yspeed = F32.fin 0))
    (hsign : (updatePosition rand undef g).ball.xspeed.sign ≠ g.ball.xspeed.sign) :
    g.ball.doesHitPaddle (updatePosition rand undef g).left
      (updatePosition rand undef g).right = true := by
  rw [updatePosition_left, updatePosition_right]
  by_contra hc
  have hmiss : hitsPaddle undef g = false := by
    simpa [hitsPaddle] using hc
  apply hsign
  rw [updatePosition_ball_of_inside rand undef g (not_lt_of_fin_le hlo) (not_gt_of_le_fin hhi),
    bouncedBall_of_miss hmiss, stallGuard_ball_of_moving hmoving]
  rfl

theorem xspeed_sign_change_implies_hit_witness :
    (Ball.mk (F32.fin 54) (F32.fin 300) (F32.fin (-1)) (F32.fin 0)).doesHitPaddle
      (updatePosition 0 0 (GameState.mk "pong"
        ⟨F32.fin 54, F32.fin 300, F32.fin (-1), F32.fin 0⟩ ⟨F32.fin 25, F32.fin 300⟩
        ⟨F32.fin 750, F32.fin 300⟩ Move.STATIONARY 0 0)).left
      (updatePosition 0 0 (GameState.mk "pong"
        ⟨F32.fin 54, F32.fin 300, F32.fin (-1), F32.fin 0⟩ ⟨F32.fin 25, F32.fin 300⟩
        ⟨F32.fin 750, F32.fin 300⟩ Move.STATIONARY 0 0)).right = true :=
  xspeed_sign_change_implies_hit 0 0
    (GameState.mk "pong"
      ⟨F32.fin 54, F32.fin 300, F32.fin (-1), F32.fin 0⟩ ⟨F32.fin 25, F32.fin 300⟩
      ⟨F32.fin 750, F32.fin 300⟩ Move.STATIONARY 0 0)
    ((F32.fin_le_fin _ _).mpr (by norm_num)) ((F32.fin_le_fin _ _).mpr (by norm_num))
    (by
      rintro ⟨h, -⟩
      have := F32.fin.inj h
      norm_num at this)
    (by
      have hmoving : ¬ (F32.fin (-1) = F32.fin 0 ∧ F32.fin 0 = F32.fin 0) := by
        rintro ⟨h, -⟩
        have := F32.fin.inj h
        norm_num at this
      rw [updatePosition_ball_of_inside _ _ _ (F32.not_fin_lt_fin (by norm_num))
        (F32.not_fin_lt_fin (by norm_num))]
      simp only [Ball.update, bouncedBall, example_hit_54_300, if_true,
        stallGuard_ball_of_moving (g := GameState.mk "pong"
          ⟨F32.fin 54, F32.fin 300, F32.fin (-1), F32.fin 0⟩ ⟨F32.fin 25, F32.fin 300⟩
          ⟨F32.fin 750, F32.fin 300⟩ Move.STATIONARY 0 0) hmoving]
      have e : -F32.fin (-1) = F32.fin 1 := by
        rw [F32.neg_fin]
        norm_num
      rw [e, timesDouble105_one, F32.sign_fin_neg_one]
      have : (F32.fin (4404019 / 4194304)).sign = 1 := by
        show SignType.sign (4404019 / 4194304 : ℚ) = 1
        exact sign_pos (by norm_num)
      rw [this]
      decide)

theorem round_39_100 : F32.round (39 / 100) = F32.fin (3271557 / 8388608) := by
  apply F32.round_eval (-2) _ (by norm_num) (by norm_num) _ (by norm_num)
  norm_num [roundHalfEven]

theorem round_39_100_sub_quarter :
    F32.round (3271557 / 8388608 - 1 / 4) = F32.fin (1174405 / 8388608) := by
  apply F32.round_eval (-3) _ (by norm_num) (by norm_num) _ (by norm_num)
  norm_num [roundHalfEven]

/-- C10, refuted as stated: the sign of `yspeed` changes away from the walls when a
paddle bounce adds its reflection offset (`0.25` becomes about `-0.14`) and when a
scoring ball is replaced by a fresh one (`-1` becomes `1`). -/
theorem yspeed_sign_changes_without_wall :
    ((updatePosition 0 0 (GameState.mk "pong"
        ⟨F32.fin 54, F32.fin 260, F32.fin (-1), F32.fin (1 / 4)⟩ ⟨F32.fin 25, F32.fin 300⟩
        ⟨F32.fin 750, F32.fin 300⟩ Move.STATIONARY 0 0)).ball.yspeed.sign ≠
        (F32.fin (1 / 4)).sign ∧
      (Ball.mk (F32.fin 54) (F32.fin 260) (F32.fin (-1)) (F32.fin (1 / 4))).isAtTopOrBottom
        = false) ∧
    ((updatePosition 2147483647 0 (GameState.mk "pong"
        ⟨F32.fin 776, F32.fin 300, F32.fin 1, F32.fin (-1)⟩ ⟨F32.fin 25, F32.fin 300⟩
        ⟨F32.fin 750, F32.fin 300⟩ Move.STATIONARY 0 0)).ball.yspeed.sign ≠
        (F32.fin (-1)).sign ∧
      (Ball.mk (F32.fin 776) (F32.fin 300) (F32.fin 1) (F32.fin (-1))).isAtTopOrBottom
        = false) := by
  have hL : leftAfterMoves 0 (GameState.mk "pong"
      ⟨F32.fin 54, F32.fin 260, F32.fin (-1), F32.fin (1 / 4)⟩ ⟨F32.fin 25, F32.fin 300⟩
      ⟨F32.fin 750, F32.fin 300⟩ Move.STATIONARY 0 0) = ⟨F32.fin 25, F32.fin 299⟩ := by
    have hY : idealY (Ball.mk (F32.fin 54) (F32.fin 260) (F32.fin (-1)) (F32.fin (1 / 4))) =
        F32.fin 261 := by
      rw [idealY_54, F32.fin_mul_fin]
      have e : (1 / 4 : ℚ) * 4 = 1 := by norm_num
      rw [e, F32.round_one, F32.fin_add_fin]
      norm_num [F32.round_ofNat]
    have hI : idealPosition 0
        (Ball.mk (F32.fin 54) (F32.fin 260) (F32.fin (-1)) (F32.fin (1 / 4))) = 261 :=
      idealPosition_of_idealY hY (toInt_fin_ofNat 261 (by norm_num))
    rw [leftAfterMoves_of_moving (moving_neg_one _)]
    show makeAIMove 0 (Ball.mk (F32.fin 54) (F32.fin 260) (F32.fin (-1)) (F32.fin (1 / 4)))
      (Paddle.mk (F32.fin 25) (F32.fin 300)) = _
    rw [makeAIMove_at_300, hI]
    norm_num
  have hA : hitsPaddle 0 (GameState.mk "pong"
      ⟨F32.fin 54, F32.fin 260, F32.fin (-1), F32.fin (1 / 4)⟩ ⟨F32.fin 25, F32.fin 300⟩
      ⟨F32.fin 750, F32.fin 300⟩ Move.STATIONARY 0 0) = true := by
    rw [hitsPaddle_iff, hL]
    exact Or.inl ⟨left_test_54, level_299_260 _⟩
  have hw1 : (Ball.mk (F32.fin 54) (F32.fin 260) (F32.fin (-1))
      (F32.fin (1 / 4))).isAtTopOrBottom = false := wall_260 _ _ _
  have hw2 : (Ball.mk (F32.fin 776) (F32.fin 300) (F32.fin 1)
      (F32.fin (-1))).isAtTopOrBottom = false := wall_300 _ _ _
  have hpos : (F32.fin (1 / 4)).sign = 1 := by
    show SignType.sign (1 / 4 : ℚ) = 1
    exact sign_pos (by norm_num)
  refine ⟨⟨?_, hw1⟩, ?_, hw2⟩
  · rw [updatePosition_ball_of_inside _ _ _ (F32.not_fin_lt_fin (by norm_num))
      (F32.not_fin_lt_fin (by norm_num)), hpos]
    have hy : (bouncedBall 0 (GameState.mk "pong"
        ⟨F32.fin 54, F32.fin 260, F32.fin (-1), F32.fin (1 / 4)⟩ ⟨F32.fin 25, F32.fin 300⟩
        ⟨F32.fin 750, F32.fin 300⟩ Move.STATIONARY 0 0)).update.yspeed =
        F32.fin (-(1174405 / 8388608)) := by
      simp only [Ball.update, bouncedBall, hA, hL, hw1, if_true, Bool.false_eq_true, if_false]
      have hx : ¬ (F32.fin 54 > F32.fin 400) := F32.not_fin_lt_fin (by norm_num)
      rw [if_neg hx]
      have h1 : F32.fin 260 - F32.fin 299 = F32.fin (-39) := by
        rw [F32.fin_sub_fin]
        have e : (260 : ℚ) - 299 = -39 := by norm_num
        rw [e]
        exact F32.round_eq_of_int (-39) (by norm_num) (by norm_num)
      have h2 : F32.fin (-39) / F32.fin 100 = F32.fin (-(3271557 / 8388608)) := by
        rw [F32.fin_div_fin _ _ (by norm_num)]
        have e : (-39 : ℚ) / 100 = -(39 / 100) := by norm_num
        rw [e, F32.round_neg, round_39_100, F32.neg_fin]
      rw [h1, h2, F32.fin_add_fin]
      have e : (1 / 4 : ℚ) + -(3271557 / 8388608) = -(3271557 / 8388608 - 1 / 4) := by ring
      rw [e, F32.round_neg, round_39_100_sub_quarter, F32.neg_fin]
    rw [hy]
    have : (F32.fin (-(1174405 / 8388608))).sign = -1 := by
      show SignType.sign (-(1174405 / 8388608) : ℚ) = -1
      exact sign_neg (by norm_num)
    rw [this]
    decide
  · rw [updatePosition_ball_of_score _ _ _ (Or.inl ((F32.fin_lt_fin _ _).mpr (by norm_num))),
      F32.sign_fin_neg_one]
    have h := Ball.init_RAND_MAX
    unfold RAND_MAX at h
    rw [h]
    simp [Ball.update, F32.sign_fin_one]

/-- C10, amended: for every game state whose ball neither hits a paddle nor scores in
the tick, if the sign of `yspeed` after one tick differs from its sign before, then the
ball was at top or bottom in that tick. -/
theorem yspeed_sign_change_implies_wall (rand : ℕ) (undef : ℤ) (g : GameState)
    (hmiss : g.ball.doesHitPaddle (updatePosition rand undef g).left
      (updatePosition rand undef g).right = false)
    (hlo : F32.fin 25 ≤ g.ball.xpos) (hhi : g.ball.xpos ≤ F32.fin 775)
    (hsign : (updatePosition rand undef g).ball.yspeed.sign ≠ g.ball.yspeed.sign) :
    g.ball.isAtTopOrBottom = true := by
  rw [updatePosition_left, updatePosition_right] at hmiss
  have hh : hitsPaddle undef g = false := hmiss
  by_contra hc
  apply hsign
  rw [updatePosition_ball_of_inside rand undef g (not_lt_of_fin_le hlo) (not_gt_of_le_fin hhi),
    bouncedBall_of_miss hh]
  simp [Ball.update, hc]

theorem yspeed_sign_change_implies_wall_witness :
    (Ball.mk (F32.fin 400) (F32.fin 2) (F32.fin 1) (F32.fin (-1))).isAtTopOrBottom = true :=
  yspeed_sign_change_implies_wall 0 0
    (GameState.mk "pong"
      ⟨F32.fin 400, F32.fin 2, F32.fin 1, F32.fin (-1)⟩ ⟨F32.fin 25, F32.fin 300⟩
      ⟨F32.fin 750, F32.fin 300⟩ Move.STATIONARY 0 0)
    (by
      rw [updatePosition_left, updatePosition_right]
      exact example_miss_400_2)
    ((F32.fin_le_fin _ _).mpr (by norm_num)) ((F32.fin_le_fin _ _).mpr (by norm_num))
    (by
      rw [updatePosition_ball_of_inside _ _ _ (F32.not_fin_lt_fin (by norm_num))
        (F32.not_fin_lt_fin (by norm_num)), bouncedBall_of_miss example_miss_400_2]
      simp only [Ball.update, example_wall_400_2, if_true, F32.neg_fin, neg_neg,
        F32.sign_fin_one, F32.sign_fin_neg_one]
      decide)

/-! ## The AI controller -/

/-- C11, refuted as stated: with `xspeed > 0`, a ball at `y = 300.5` and the paddle at
`y = 300`, the ball is below the paddle centre and the paddle is not moved down, because
the target is `int(300.5) = 300`; and a paddle at the fractional height `299.5` with the
ball at `y = 300` is moved down and up again, so it is not the result of `moveDown`. -/
theorem ai_does_not_track_ball_y :
    ((Ball.mk (F32.fin 400) (F32.fin (601 / 2)) (F32.fin 1) (F32.fin 0)).ypos >
        (Paddle.mk (F32.fin 25) (F32.fin 300)).ypos ∧
      makeAIMove 0 (Ball.mk (F32.fin 400) (F32.fin (601 / 2)) (F32.fin 1) (F32.fin 0))
        (Paddle.mk (F32.fin 25) (F32.fin 300)) = Paddle.mk (F32.fin 25) (F32.fin 300) ∧
      makeAIMove 0 (Ball.mk (F32.fin 400) (F32.fin (601 / 2)) (F32.fin 1) (F32.fin 0))
        (Paddle.mk (F32.fin 25) (F32.fin 300)) ≠
          (Paddle.mk (F32.fin 25) (F32.fin 300)).moveDown) ∧
    ((Ball.mk (F32.fin 400) (F32.fin 300) (F32.fin 1) (F32.fin 0)).ypos >
        (Paddle.mk (F32.fin 25) (F32.fin (599 / 2))).ypos ∧
      makeAIMove 0 (Ball.mk (F32.fin 400) (F32.fin 300) (F32.fin 1) (F32.fin 0))
        (Paddle.mk (F32.fin 25) (F32.fin (599 / 2))) =
          Paddle.mk (F32.fin 25) (F32.fin (599 / 2)) ∧
      makeAIMove 0 (Ball.mk (F32.fin 400) (F32.fin 300) (F32.fin 1) (F32.fin 0))
        (Paddle.mk (F32.fin 25) (F32.fin (599 / 2))) ≠
          (Paddle.mk (F32.fin 25) (F32.fin (599 / 2))).moveDown) := by
  have hx : (F32.fin 1 : F32) > F32.fin 0 := (F32.fin_lt_fin _ _).mpr (by norm_num)
  have hI1 : idealPosition 0
      (Ball.mk (F32.fin 400) (F32.fin (601 / 2)) (F32.fin 1) (F32.fin 0)) = 300 :=
    idealPosition_of_idealY (idealY_of_pos hx) toInt_300_5
  have hI2 : idealPosition 0
      (Ball.mk (F32.fin 400) (F32.fin 300) (F32.fin 1) (F32.fin 0)) = 300 :=
    idealPosition_of_idealY (idealY_of_pos hx) toInt_300
  rw [makeAIMove_300_at_300 0 _ _ hI1, makeAIMove_300_at_299_5 0 _ _ hI2, moveDown_300,
    moveDown_299_5]
  refine ⟨⟨(F32.fin_lt_fin _ _).mpr (by norm_num), rfl, ?_⟩,
    (F32.fin_lt_fin _ _).mpr (by norm_num), rfl, ?_⟩
  · intro h
    have := F32.fin.inj (Paddle.mk.inj h).2
    norm_num at this
  · intro h
    have := F32.fin.inj (Paddle.mk.inj h).2
    norm_num at this

/-- C11, amended: for every ball with `xspeed > 0` whose `y` converts to the `int` `t`
(`y` is finite and its truncation toward zero is an `int`) and every left paddle whose
`y` is an integer `n` of magnitude below `2 ^ 24`, `makeAIMove` uses the `float` target
`ball.y` converted to `int`, that is `t`, and its effect is `moveDown()` if `t > n`,
`moveUp()` if `t < n`, and no change when `t = n`. -/
theorem ai_tracks_truncated_ball_y (undef : ℤ) (ball : Ball) (p : Paddle) (t n : ℤ)
    (hx : ball.xspeed > F32.fin 0) (ht : toInt ball.ypos = some t)
    (hn : p.ypos = F32.fin n) (hb : |n| < 16777216) :
    idealY ball = ball.ypos ∧
    idealPosition undef ball = t ∧
    (t > n → makeAIMove undef ball p = p.moveDown) ∧
    (t < n → makeAIMove undef ball p = p.moveUp) ∧
    (t = n → makeAIMove undef ball p = p) := by
  have hI : idealPosition undef ball = t := by
    unfold idealPosition toIntOr
    rw [idealY_of_pos hx, ht]
    rfl
  rw [makeAIMove_of_int undef ball p n hn hb, hI]
  refine ⟨idealY_of_pos hx, rfl, ?_, ?_, ?_⟩
  · intro h
    rw [if_pos h]
  · intro h
    rw [if_neg (by omega), if_pos h]
  · intro h
    rw [if_neg (by omega), if_neg (by omega)]

theorem ai_tracks_truncated_ball_y_witness :
    makeAIMove 0 (Ball.mk (F32.fin 400) (F32.fin 310) (F32.fin 1) (F32.fin 0))
      (Paddle.mk (F32.fin 25) (F32.fin 300)) = (Paddle.mk (F32.fin 25) (F32.fin 300)).moveDown :=
  (ai_tracks_truncated_ball_y 0 (Ball.mk (F32.fin 400) (F32.fin 310) (F32.fin 1) (F32.fin 0))
    (Paddle.mk (F32.fin 25) (F32.fin 300)) 310 300
    ((F32.fin_lt_fin _ _).mpr (by norm_num)) (toInt_fin_ofNat 310 (by norm_num))
    (by norm_num) (by norm_num)).2.2.1 (by norm_num)

/-! ## The extrapolated target -/

/-- Repeated integration of a ball whose coordinates and speeds are integers, as long as
the coordinates stay of magnitude at most `2 ^ 24`. -/
theorem iterate_update_int (x y a v : ℤ) :
    ∀ k : ℕ, (∀ j : ℕ, j ≤ k → |x + j * a| ≤ 16777216 ∧ |y + j * v| ≤ 16777216) →
      Ball.update^[k] ⟨F32.fin x, F32.fin y, F32.fin a, F32.fin v⟩ =
        ⟨F32.fin ((x + k * a : ℤ) : ℚ), F32.fin ((y + k * v : ℤ) : ℚ), F32.fin a,
          F32.fin v⟩ := by
  intro k
  induction k with
  | zero =>
    intro _
    simp
  | succ k ih =>
    intro hb
    rw [Function.iterate_succ_apply', ih (fun j hj => hb j (Nat.le_succ_of_le hj))]
    obtain ⟨h1, h2⟩ := hb (k + 1) (le_refl _)
    simp only [Ball.update, F32.fin_add_fin]
    have e1 : ((x + (k : ℤ) * a : ℤ) : ℚ) + (a : ℚ) = ((x + ((k + 1 : ℕ) : ℤ) * a : ℤ) : ℚ) := by
      push_cast
      ring
    have e2 : ((y + (k : ℤ) * v : ℤ) : ℚ) + (v : ℚ) = ((y + ((k + 1 : ℕ) : ℤ) * v : ℤ) : ℚ) := by
      push_cast
      ring
    rw [e1, e2, F32.round_int _ h1, F32.round_int _ h2]

theorem example_idealY_half :
    idealY (Ball.mk (F32.fin 54) (F32.fin 300) (F32.fin (-1)) (F32.fin (1 / 8))) =
      F32.fin (601 / 2) := by
  rw [idealY_54, F32.fin_mul_fin]
  have e : (1 / 8 : ℚ) * 4 = 1 / 2 := by norm_num
  rw [e, round_half, F32.fin_add_fin]
  have e2 : (300 : ℚ) + 1 / 2 = 601 / 2 := by norm_num
  rw [e2, round_300_5]

/-- C12, refuted as stated: for the ball at `(54, 300)` with `xspeed = -1` and
`yspeed = 1/8`, the extrapolated height is `300.5` but the target of `makeAIMove` is
`int(300.5) = 300`, and a paddle at `300` is left where it is. -/
theorem ai_target_is_truncated :
    idealY (Ball.mk (F32.fin 54) (F32.fin 300) (F32.fin (-1)) (F32.fin (1 / 8))) =
      F32.fin (601 / 2) ∧
    idealPosition 0 (Ball.mk (F32.fin 54) (F32.fin 300) (F32.fin (-1)) (F32.fin (1 / 8))) =
      300 ∧
    ((300 : ℤ) : ℚ) ≠ 601 / 2 ∧
    makeAIMove 0 (Ball.mk (F32.fin 54) (F32.fin 300) (F32.fin (-1)) (F32.fin (1 / 8)))
      (Paddle.mk (F32.fin 25) (F32.fin 300)) = Paddle.mk (F32.fin 25) (F32.fin 300) := by
  have hI : idealPosition 0
      (Ball.mk (F32.fin 54) (F32.fin 300) (F32.fin (-1)) (F32.fin (1 / 8))) = 300 :=
    idealPosition_of_idealY example_idealY_half toInt_300_5
  exact ⟨example_idealY_half, hI, by norm_num, makeAIMove_300_at_300 0 _ _ hI⟩

/-- C12, amended: for every ball with `xspeed < 0` whose coordinates and speeds are
integers of magnitude at most 2048 (so that every `float` operation below is exact) and
for which `turns = (ball.x - 50) / (-xspeed)` is a natural number `n`, the target
`makeAIMove` steers toward is `ball.y + yspeed * turns`, and it is the ball's `y` when it
reaches the paddle plane: applying `Ball.update` `n` times gives `x = 50` and `y` equal
to the target. -/
theorem ai_target_extrapolates (undef : ℤ) (x y s v : ℤ) (n : ℕ) (hs : 0 < s)
    (hturn : x - 50 = n * s) (hx : |x| ≤ 2048) (hy : |y| ≤ 2048) (hs2 : s ≤ 2048)
    (hv : |v| ≤ 2048) (hn : n ≤ 2048) :
    idealY ⟨F32.fin x, F32.fin y, F32.fin ((-s : ℤ) : ℚ), F32.fin v⟩ =
      F32.fin ((y + v * n : ℤ) : ℚ) ∧
    idealPosition undef ⟨F32.fin x, F32.fin y, F32.fin ((-s : ℤ) : ℚ), F32.fin v⟩ =
      y + v * n ∧
    (Ball.update^[n] ⟨F32.fin x, F32.fin y, F32.fin ((-s : ℤ) : ℚ), F32.fin v⟩).xpos =
      F32.fin 50 ∧
    (Ball.update^[n] ⟨F32.fin x, F32.fin y, F32.fin ((-s : ℤ) : ℚ), F32.fin v⟩).ypos =
      F32.fin ((y + v * n : ℤ) : ℚ) := by
  obtain ⟨hI, hbound⟩ := idealY_int x y s v (n : ℤ) hs hturn hx hy hs2 hv
    (by rw [abs_of_nonneg (Int.natCast_nonneg n)]; exact_mod_cast hn)
  have hx' := abs_le.mp hx
  have hy' := abs_le.mp hy
  have hn0 : (0 : ℤ) ≤ (n : ℤ) := Int.natCast_nonneg n
  have hiter := iterate_update_int x y (-s) v n (by
    intro j hj
    have hj0 : (0 : ℤ) ≤ (j : ℤ) := Int.natCast_nonneg j
    have hjn : (j : ℤ) ≤ (n : ℤ) := by exact_mod_cast hj
    have hjs : (j : ℤ) * s ≤ (n : ℤ) * s := mul_le_mul_of_nonneg_right hjn hs.le
    have hjs0 : 0 ≤ (j : ℤ) * s := mul_nonneg hj0 hs.le
    have hjv : |(j : ℤ) * v| ≤ 4194304 := by
      rw [abs_mul, abs_of_nonneg hj0]
      have hj2 : (j : ℤ) ≤ 2048 := by
        have : ((n : ℕ) : ℤ) ≤ 2048 := by exact_mod_cast hn
        linarith
      have := mul_le_mul hj2 hv (abs_nonneg v) (by norm_num : (0 : ℤ) ≤ 2048)
      linarith
    have hjv' := abs_le.mp hjv
    constructor
    · rw [abs_le]
      constructor <;> linarith
    · rw [abs_le]
      constructor <;> linarith)
  refine ⟨hI, idealPosition_of_idealY hI (toInt_fin_int _ (by linarith)), ?_, ?_⟩
  · rw [hiter]
    show F32.fin ((x + (n : ℤ) * -s : ℤ) : ℚ) = F32.fin 50
    have e : x + (n : ℤ) * -s = 50 := by linarith
    rw [e]
    norm_num
  · rw [hiter]
    show F32.fin ((y + (n : ℤ) * v : ℤ) : ℚ) = F32.fin ((y + v * n : ℤ) : ℚ)
    rw [mul_comm]

theorem ai_target_extrapolates_witness :
    idealPosition 0 ⟨F32.fin ((54 : ℤ) : ℚ), F32.fin ((300 : ℤ) : ℚ),
      F32.fin ((-1 : ℤ) : ℚ), F32.fin ((2 : ℤ) : ℚ)⟩ = 300 + 2 * (4 : ℕ) ∧
    (Ball.update^[4] ⟨F32.fin ((54 : ℤ) : ℚ), F32.fin ((300 : ℤ) : ℚ),
      F32.fin ((-1 : ℤ) : ℚ), F32.fin ((2 : ℤ) : ℚ)⟩).xpos = F32.fin 50 :=
  ⟨(ai_target_extrapolates 0 54 300 1 2 4 (by norm_num) (by norm_num) (by norm_num)
      (by norm_num) (by norm_num) (by norm_num) (by norm_num)).2.1,
   (ai_target_extrapolates 0 54 300 1 2 4 (by norm_num) (by norm_num) (by norm_num)
      (by norm_num) (by norm_num) (by norm_num) (by norm_num)).2.2.1⟩

/-! ## One step of the AI paddle -/

theorem toInt_300_75 : toInt (F32.fin (1203 / 4)) = some 300 := by
  rw [toInt_fin_of_range (by norm_num) (by norm_num), if_pos (by norm_num)]
  norm_num

theorem makeAIMove_300_at_300_5 (undef : ℤ) (ball : Ball) (x : F32)
    (h : idealPosition undef ball = 300) :
    makeAIMove undef ball (Paddle.mk x (F32.fin (601 / 2))) =
      Paddle.mk x (F32.fin (599 / 2)) := by
  unfold makeAIMove
  dsimp only
  rw [h, ofInt_300, if_neg (F32.not_fin_lt_fin (by norm_num)),
    if_pos (show F32.fin 300 < F32.fin (601 / 2) from
      (F32.fin_lt_fin _ _).mpr (by norm_num)), moveUp_300_5]

/-- C13, refuted as stated: a paddle at the fractional height `299.5` with target
`300.5 >= y + 1` is moved down and up again and stays at `299.5`; a paddle at `300.5`
with target `300.75` is moved up to `299.5`, away from the target, and ends `1.25` from
it, more than `max(0.25, 1)`. -/
theorem ai_step_fails_off_grid :
    (idealY (Ball.mk (F32.fin 400) (F32.fin (601 / 2)) (F32.fin 1) (F32.fin 0)) =
        F32.fin (601 / 2) ∧
      (601 / 2 : ℚ) ≥ 599 / 2 + 1 ∧
      (Paddle.mk (F32.fin 25) (F32.fin (599 / 2))).ypos < F32.fin 550 ∧
      (makeAIMove 0 (Ball.mk (F32.fin 400) (F32.fin (601 / 2)) (F32.fin 1) (F32.fin 0))
        (Paddle.mk (F32.fin 25) (F32.fin (599 / 2)))).ypos = F32.fin (599 / 2) ∧
      (599 / 2 : ℚ) ≠ 599 / 2 + 1) ∧
    (idealY (Ball.mk (F32.fin 400) (F32.fin (1203 / 4)) (F32.fin 1) (F32.fin 0)) =
        F32.fin (1203 / 4) ∧
      (makeAIMove 0 (Ball.mk (F32.fin 400) (F32.fin (1203 / 4)) (F32.fin 1) (F32.fin 0))
        (Paddle.mk (F32.fin 25) (F32.fin (601 / 2)))).ypos = F32.fin (599 / 2) ∧
      ¬ (|(599 / 2 : ℚ) - 1203 / 4| ≤ max |(601 / 2 : ℚ) - 1203 / 4| 1)) := by
  have hx : (F32.fin 1 : F32) > F32.fin 0 := (F32.fin_lt_fin _ _).mpr (by norm_num)
  have hI1 : idealPosition 0
      (Ball.mk (F32.fin 400) (F32.fin (601 / 2)) (F32.fin 1) (F32.fin 0)) = 300 :=
    idealPosition_of_idealY (idealY_of_pos hx) toInt_300_5
  have hI2 : idealPosition 0
      (Ball.mk (F32.fin 400) (F32.fin (1203 / 4)) (F32.fin 1) (F32.fin 0)) = 300 :=
    idealPosition_of_idealY (idealY_of_pos hx) toInt_300_75
  rw [makeAIMove_300_at_299_5 0 _ _ hI1, makeAIMove_300_at_300_5 0 _ _ hI2]
  refine ⟨⟨idealY_of_pos hx, by norm_num, (F32.fin_lt_fin _ _).mpr (by norm_num), rfl,
    by norm_num⟩, idealY_of_pos hx, rfl, ?_⟩
  have e1 : |(599 / 2 : ℚ) - 1203 / 4| = 5 / 4 := by
    rw [abs_of_neg (by norm_num)]
    norm_num
  have e2 : |(601 / 2 : ℚ) - 1203 / 4| = 1 / 4 := by
    rw [abs_of_neg (by norm_num)]
    norm_num
  rw [e1, e2]
  norm_num

/-- C13, amended: for every ball whose target `idealY` (the `float` value that
`makeAIMove` converts to `int`) is a finite `T` whose truncation is an `int`, and every
left paddle whose `y` is an integer `n` with `50 <= n <= 550`, one `makeAIMove` call
leaves the paddle on an integer height `n'` with: `n' = n + 1` if `T >= n + 1` and
`n < 550`, `n' = n - 1` if `T <= n - 1` and `n > 50`, and always `|n' - n| <= 1` and
`|n' - T| <= max(|n - T|, 1)`. -/
theorem ai_step_bounds (undef : ℤ) (ball : Ball) (p : Paddle) (T : ℚ) (n : ℤ)
    (hT : idealY ball = F32.fin T) (hTlo : -2147483649 < T) (hThi : T < 2147483648)
    (hn : p.ypos = F32.fin n) (hlo : 50 ≤ n) (hhi : n ≤ 550) :
    ∃ n' : ℤ, (makeAIMove undef ball p).ypos = F32.fin n' ∧
      ((n : ℚ) + 1 ≤ T → n < 550 → n' = n + 1) ∧
      (T ≤ (n : ℚ) - 1 → 50 < n → n' = n - 1) ∧
      |n' - n| ≤ 1 ∧
      |(n' : ℚ) - T| ≤ max |(n : ℚ) - T| 1 := by
  have hI : idealPosition undef ball = if 0 ≤ T then ⌊T⌋ else ⌈T⌉ :=
    idealPosition_of_idealY hT (toInt_fin_of_range hTlo hThi)
  have ha := lt_trunc_iff (q := T) (n := n) (by omega)
  have hb := trunc_lt_iff (q := T) (n := n) (by omega)
  have hb1 : |n + 1| ≤ 16777216 := by rw [abs_le]; constructor <;> omega
  have hb2 : |n - 1| ≤ 16777216 := by rw [abs_le]; constructor <;> omega
  rw [makeAIMove_of_int undef ball p n hn (by rw [abs_lt]; constructor <;> omega), hI,
    Paddle.moveDown_int p n hn hb1, Paddle.moveUp_int p n hn hb2]
  by_cases c1 : n < (if 0 ≤ T then ⌊T⌋ else ⌈T⌉)
  · have hT1 : (n : ℚ) + 1 ≤ T := ha.mp c1
    rw [if_pos c1]
    by_cases c2 : n < 550
    · rw [if_pos c2]
      refine ⟨n + 1, rfl, fun _ _ => rfl, fun h _ => by linarith, by simp, ?_⟩
      apply le_max_of_le_left
      rw [abs_of_nonpos (by push_cast; linarith), abs_of_nonpos (by linarith)]
      push_cast
      linarith
    · rw [if_neg c2]
      exact ⟨n, hn, fun _ h => absurd h c2, fun h _ => by linarith, by simp,
        le_max_left _ _⟩
  · rw [if_neg c1]
    have hT1 : ¬ ((n : ℚ) + 1 ≤ T) := fun h => c1 (ha.mpr h)
    by_cases c3 : (if 0 ≤ T then ⌊T⌋ else ⌈T⌉) < n
    · have hT2 : T < n := hb.mp c3
      rw [if_pos c3]
      by_cases c4 : 50 < n
      · rw [if_pos c4]
        refine ⟨n - 1, rfl, fun h _ => absurd h hT1, fun _ _ => rfl, ?_, ?_⟩
        · rw [abs_le]
          constructor <;> omega
        · by_cases c5 : T ≤ (n : ℚ) - 1
          · apply le_max_of_le_left
            rw [abs_of_nonneg (by push_cast; linarith), abs_of_nonneg (by linarith)]
            push_cast
            linarith
          · apply le_max_of_le_right
            rw [abs_le]
            push_cast
            constructor <;> linarith
      · rw [if_neg c4]
        exact ⟨n, hn, fun h _ => absurd h hT1, fun _ h => absurd h c4, by simp,
          le_max_left _ _⟩
    · rw [if_neg c3]
      exact ⟨n, hn, fun h _ => absurd h hT1,
        fun h _ => absurd (show T < n by linarith) (fun h2 => c3 (hb.mpr h2)), by simp,
        le_max_left _ _⟩

theorem ai_step_bounds_witness :
    ∃ n' : ℤ, (makeAIMove 0 (Ball.mk (F32.fin 400) (F32.fin 310) (F32.fin 1) (F32.fin 0))
        (Paddle.mk (F32.fin 25) (F32.fin ((300 : ℤ) : ℚ)))).ypos = F32.fin n' ∧
      (((300 : ℤ) : ℚ) + 1 ≤ 310 → (300 : ℤ) < 550 → n' = 300 + 1) ∧
      ((310 : ℚ) ≤ ((300 : ℤ) : ℚ) - 1 → (50 : ℤ) < 300 → n' = 300 - 1) ∧
      |n' - 300| ≤ 1 ∧
      |(n' : ℚ) - 310| ≤ max |((300 : ℤ) : ℚ) - 310| 1 :=
  ai_step_bounds 0 (Ball.mk (F32.fin 400) (F32.fin 310) (F32.fin 1) (F32.fin 0))
    (Paddle.mk (F32.fin 25) (F32.fin ((300 : ℤ) : ℚ))) 310 300
    (idealY_of_pos ((F32.fin_lt_fin _ _).mpr (by norm_num))) (by norm_num) (by norm_num)
    rfl (by norm_num) (by norm_num)

/-! ## Frame, paddle level and the random draw -/

theorem makeAIMove_xpos (undef : ℤ) (ball : Ball) (p : Paddle) :
    (makeAIMove undef ball p).xpos = p.xpos := by
  unfold makeAIMove
  dsimp only
  split_ifs <;> simp [Paddle.moveUp_xpos, Paddle.moveDown_xpos]

/-- C14: one tick sets the right paddle to `moveUp` of itself if `move = UP`, to
`moveDown` of itself if `move = DOWN` and leaves it if `move = STATIONARY`, whatever the
ball; it keeps the name, the move field and both paddles' `x`; and the left paddle after
the tick does not depend on the move command. -/
theorem move_command_frame (rand : ℕ) (undef : ℤ) (g : GameState) :
    (updatePosition rand undef g).right =
      (match g.move with
        | Move.UP => g.right.moveUp
        | Move.DOWN => g.right.moveDown
        | Move.STATIONARY => g.right) ∧
    (∀ (b : Ball) (rand2 : ℕ) (undef2 : ℤ),
      (updatePosition rand2 undef2 { g with ball := b }).right =
        (updatePosition rand undef g).right) ∧
    (updatePosition rand undef g).name = g.name ∧
    (updatePosition rand undef g).move = g.move ∧
    (updatePosition rand undef g).left.xpos = g.left.xpos ∧
    (updatePosition rand undef g).right.xpos = g.right.xpos ∧
    (∀ m : Move,
      (updatePosition rand undef { g with move := m }).left =
        (updatePosition rand undef g).left) := by
  refine ⟨?_, ?_, ?_, ?_, ?_, ?_, ?_⟩
  · rw [updatePosition_right, rightAfterMoves_eq]
    cases g.move <;> simp
  · intro b rand2 undef2
    rw [updatePosition_right, updatePosition_right, rightAfterMoves_eq, rightAfterMoves_eq]
  · rw [updatePosition_eq]
  · rw [updatePosition_eq]
  · rw [updatePosition_left]
    exact makeAIMove_xpos _ _ _
  · rw [updatePosition_right, rightAfterMoves_eq]
    split_ifs
    · exact Paddle.moveUp_xpos _
    · exact Paddle.moveDown_xpos _
    · rfl
  · intro m
    rw [updatePosition_left, updatePosition_left]
    simp only [leftAfterMoves, stallGuard_eq]

/-- C16: for every game state whose ball does not score in the tick (`25 <= x <= 775`),
the result of `updatePosition` does not depend on the random draw. -/
theorem rand_unused_without_score (rand1 rand2 : ℕ) (undef : ℤ) (g : GameState)
    (hlo : F32.fin 25 ≤ g.ball.xpos) (hhi : g.ball.xpos ≤ F32.fin 775) :
    updatePosition rand1 undef g = updatePosition rand2 undef g := by
  have h : ¬ (g.ball.xpos > F32.fin 775 ∨ g.ball.xpos < F32.fin 25) := by
    rintro (h | h)
    · exact not_gt_of_le_fin hhi h
    · exact not_lt_of_fin_le hlo h
  rw [updatePosition_eq, updatePosition_eq]
  simp only [h, if_false]

theorem rand_unused_without_score_witness :
    updatePosition 0 0 (GameState.mk "pong"
      ⟨F32.fin 54, F32.fin 300, F32.fin (-1), F32.fin 0⟩ ⟨F32.fin 25, F32.fin 300⟩
      ⟨F32.fin 750, F32.fin 300⟩ Move.STATIONARY 0 0) =
    updatePosition 2147483647 0 (GameState.mk "pong"
      ⟨F32.fin 54, F32.fin 300, F32.fin (-1), F32.fin 0⟩ ⟨F32.fin 25, F32.fin 300⟩
      ⟨F32.fin 750, F32.fin 300⟩ Move.STATIONARY 0 0) :=
  rand_unused_without_score 0 2147483647 0 (GameState.mk "pong"
      ⟨F32.fin 54, F32.fin 300, F32.fin (-1), F32.fin 0⟩ ⟨F32.fin 25, F32.fin 300⟩
      ⟨F32.fin 750, F32.fin 300⟩ Move.STATIONARY 0 0)
    ((F32.fin_le_fin _ _).mpr (by norm_num)) ((F32.fin_le_fin _ _).mpr (by norm_num))

/-- C18: for every game state whose ball does not score in the tick (`25 <= x <= 775`),
the returned ball position is the input position plus the returned velocity (the `float`
sums `x + xspeed'` and `y + yspeed'`), and the returned velocity is decided by
`isAtTopOrBottom` and `doesHitPaddle` on the input position (the position before
integration) with the paddles after this tick's moves. -/
theorem integration_once (rand : ℕ) (undef : ℤ) (g : GameState)
    (hlo : F32.fin 25 ≤ g.ball.xpos) (hhi : g.ball.xpos ≤ F32.fin 775) :
    (updatePosition rand undef g).ball.xpos =
      g.ball.xpos + (updatePosition rand undef g).ball.xspeed ∧
    (updatePosition rand undef g).ball.ypos =
      g.ball.ypos + (updatePosition rand undef g).ball.yspeed ∧
    (updatePosition rand undef g).ball.xspeed =
      (if g.ball.doesHitPaddle (updatePosition rand undef g).left
          (updatePosition rand undef g).right
        then (-(stallGuard g).ball.xspeed).timesDouble105
        else (stallGuard g).ball.xspeed) ∧
    (updatePosition rand undef g).ball.yspeed =
      (if g.ball.doesHitPaddle (updatePosition rand undef g).left
          (updatePosition rand undef g).right
        then (if g.ball.isAtTopOrBottom then -g.ball.yspeed else g.ball.yspeed) +
          (g.ball.ypos - (if g.ball.xpos > F32.fin 400 then (updatePosition rand undef g).right
            else (updatePosition rand undef g).left).ypos) / F32.fin 100
        else (if g.ball.isAtTopOrBottom then -g.ball.yspeed else g.ball.yspeed)) := by
  rw [updatePosition_ball_of_inside rand undef g (not_lt_of_fin_le hlo) (not_gt_of_le_fin hhi),
    updatePosition_left, updatePosition_right]
  exact ⟨rfl, rfl, rfl, rfl⟩

theorem integration_once_witness :
    (updatePosition 0 0 (GameState.mk "pong"
      ⟨F32.fin 400, F32.fin 300, F32.fin 1, F32.fin (1 / 2)⟩ ⟨F32.fin 25, F32.fin 300⟩
      ⟨F32.fin 750, F32.fin 300⟩ Move.STATIONARY 0 0)).ball.xpos =
      F32.fin 400 + (updatePosition 0 0 (GameState.mk "pong"
        ⟨F32.fin 400, F32.fin 300, F32.fin 1, F32.fin (1 / 2)⟩ ⟨F32.fin 25, F32.fin 300⟩
        ⟨F32.fin 750, F32.fin 300⟩ Move.STATIONARY 0 0)).ball.xspeed ∧
    (updatePosition 0 0 (GameState.mk "pong"
      ⟨F32.fin 400, F32.fin 300, F32.fin 1, F32.fin (1 / 2)⟩ ⟨F32.fin 25, F32.fin 300⟩
      ⟨F32.fin 750, F32.fin 300⟩ Move.STATIONARY 0 0)).ball.ypos =
      F32.fin 300 + (updatePosition 0 0 (GameState.mk "pong"
        ⟨F32.fin 400, F32.fin 300, F32.fin 1, F32.fin (1 / 2)⟩ ⟨F32.fin 25, F32.fin 300⟩
        ⟨F32.fin 750, F32.fin 300⟩ Move.STATIONARY 0 0)).ball.yspeed :=
  ⟨(integration_once 0 0 (GameState.mk "pong"
      ⟨F32.fin 400, F32.fin 300, F32.fin 1, F32.fin (1 / 2)⟩ ⟨F32.fin 25, F32.fin 300⟩
      ⟨F32.fin 750, F32.fin 300⟩ Move.STATIONARY 0 0)
      ((F32.fin_le_fin _ _).mpr (by norm_num)) ((F32.fin_le_fin _ _).mpr (by norm_num))).1,
   (integration_once 0 0 (GameState.mk "pong"
      ⟨F32.fin 400, F32.fin 300, F32.fin 1, F32.fin (1 / 2)⟩ ⟨F32.fin 25, F32.fin 300⟩
      ⟨F32.fin 750, F32.fin 300⟩ Move.STATIONARY 0 0)
      ((F32.fin_le_fin _ _).mpr (by norm_num)) ((F32.fin_le_fin _ _).mpr (by norm_num))).2.1⟩

/-! ## The paddle level -/

theorem round_354_9 : F32.round (3549 / 10) = F32.fin (11629363 / 32768) := by
  apply F32.round_eval 8 _ (by norm_num) (by norm_num) _ (by norm_num)
  norm_num [roundHalfEven]

theorem example_level_354_9 (x : F32) :
    (Paddle.mk x (F32.fin 300)).isAtPaddleLevel (F32.round (3549 / 10)) = true := by
  have h1 : F32.round (11629363 / 32768 - 5) = F32.fin (11465523 / 32768) := by
    apply F32.round_eval 8 _ (by norm_num) (by norm_num) _ (by norm_num)
    norm_num [roundHalfEven]
  have h2 : F32.round (11629363 / 32768 + 5) = F32.fin (11793203 / 32768) := by
    apply F32.round_eval 8 _ (by norm_num) (by norm_num) _ (by norm_num)
    norm_num [roundHalfEven]
  have h3 : F32.round (300 + 50) = F32.fin 350 := by
    norm_num [F32.round_ofNat]
  have h4 : F32.round (300 - 50) = F32.fin 250 := by
    norm_num [F32.round_ofNat]
  rw [round_354_9, isAtPaddleLevel_iff]
  simp only [F32.fin_sub_fin, F32.fin_add_fin, h1, h2, h3, h4]
  exact ⟨(F32.fin_lt_fin _ _).mpr (by norm_num), (F32.fin_lt_fin _ _).mpr (by norm_num)⟩

theorem round_251_plus : F32.round (251 + 1 / 65536 + 5) = F32.fin 256 := by
  apply F32.round_eval 8 _ (by norm_num) (by norm_num) _ (by norm_num)
  norm_num [roundHalfEven]

/-- C15, refuted as stated: for a paddle at `y = 306` and the target
`251 + 2 ^ (-16)`, a `float`, the distance `|targetY - y|` is below 55 but
`isAtPaddleLevel` is false: the `float` sum `targetY + 5` is rounded to `256`, which is
not above `306 - 50 = 256`. -/
theorem paddle_level_misses_inside_window :
    |(251 + 1 / 65536 : ℚ) - 306| < 55 ∧
    F32.round (251 + 1 / 65536) = F32.fin (251 + 1 / 65536) ∧
    (Paddle.mk (F32.fin 25) (F32.fin 306)).isAtPaddleLevel (F32.fin (251 + 1 / 65536)) =
      false := by
  refine ⟨?_, ?_, ?_⟩
  · rw [abs_lt]
    constructor <;> norm_num
  · apply F32.round_eval 7 _ (by norm_num) (by norm_num) _ (by norm_num)
    norm_num [roundHalfEven]
  · rw [Bool.eq_false_iff, Ne, isAtPaddleLevel_iff]
    rintro ⟨-, h⟩
    have h4 : F32.round (306 - 50) = F32.fin 256 := by
      norm_num [F32.round_ofNat]
    simp only [F32.fin_sub_fin, F32.fin_add_fin, round_251_plus, h4] at h
    exact F32.not_fin_lt_fin (le_refl _) h

/-- C15, amended: `isAtPaddleLevel(targetY)` is true exactly when the two `float`
comparisons `targetY - 5 < y + 50` and `targetY + 5 > y - 50` hold. For a paddle on an
integer height `n` and an integer target `t` (magnitudes at most `2 ^ 22`) this is
exactly `|t - n| < 55`, and it is symmetric around the paddle's `y`:
`isAtPaddleLevel(n + d) = isAtPaddleLevel(n - d)` for every integer `d` of magnitude at
most `2 ^ 22`; for any finite target `q` it is true only if `|q - n| < 55`. For a paddle
at `y = 300` it is true at `300` and at the `float` nearest to `354.9` and false at
`355` and `360`. -/
theorem paddle_level_window (p : Paddle) (n t d : ℤ) (hp : p.ypos = F32.fin n)
    (hn : |n| ≤ 4194304) (ht : |t| ≤ 4194304) (hd : |d| ≤ 4194304) :
    (∀ targetY : F32, p.isAtPaddleLevel targetY = true ↔
      targetY - F32.fin 5 < p.ypos + F32.fin 50 ∧
        targetY + F32.fin 5 > p.ypos - F32.fin 50) ∧
    (p.isAtPaddleLevel (F32.fin t) = true ↔ |t - n| < 55) ∧
    p.isAtPaddleLevel (F32.fin ((n + d : ℤ) : ℚ)) =
      p.isAtPaddleLevel (F32.fin ((n - d : ℤ) : ℚ)) ∧
    (∀ q : ℚ, p.isAtPaddleLevel (F32.fin q) = true → |q - n| < 55) ∧
    (Paddle.mk p.xpos (F32.fin 300)).isAtPaddleLevel (F32.fin 300) = true ∧
    (Paddle.mk p.xpos (F32.fin 300)).isAtPaddleLevel (F32.round (3549 / 10)) = true ∧
    (Paddle.mk p.xpos (F32.fin 300)).isAtPaddleLevel (F32.fin 355) = false ∧
    (Paddle.mk p.xpos (F32.fin 300)).isAtPaddleLevel (F32.fin 360) = false := by
  have hn' := abs_le.mp hn
  have ht' := abs_le.mp ht
  have hd' := abs_le.mp hd
  have hn8 : |n| ≤ 8388608 := by rw [abs_le]; constructor <;> omega
  have h300 : ∀ t' : ℤ, |t'| ≤ 8388608 →
      ((Paddle.mk p.xpos (F32.fin 300)).isAtPaddleLevel (F32.fin t') = true ↔
        |t' - 300| < 55) := fun t' h' =>
    isAtPaddleLevel_int (Paddle.mk p.xpos (F32.fin 300)) 300 t' (by norm_num) (by norm_num) h'
  refine ⟨isAtPaddleLevel_iff p, ?_, ?_, ?_, ?_, example_level_354_9 p.xpos, ?_, ?_⟩
  · exact isAtPaddleLevel_int p n t hp hn8 (by rw [abs_le]; constructor <;> omega)
  · rw [Bool.eq_iff_iff,
      isAtPaddleLevel_int p n (n + d) hp hn8 (by rw [abs_le]; constructor <;> omega),
      isAtPaddleLevel_int p n (n - d) hp hn8 (by rw [abs_le]; constructor <;> omega)]
    have e1 : n + d - n = d := by ring
    have e2 : n - d - n = -d := by ring
    rw [e1, e2, abs_neg]
  · exact fun q h => isAtPaddleLevel_sound p n q hp hn8 h
  · have h := (h300 300 (by norm_num)).mpr (by norm_num)
    simpa using h
  · rw [Bool.eq_false_iff, Ne]
    intro h
    have h2 := (h300 355 (by norm_num)).mp (by simpa using h)
    norm_num at h2
  · rw [Bool.eq_false_iff, Ne]
    intro h
    have h2 := (h300 360 (by norm_num)).mp (by simpa using h)
    norm_num at h2

theorem paddle_level_window_witness :
    (Paddle.mk (F32.fin 25) (F32.fin ((300 : ℤ) : ℚ))).isAtPaddleLevel
        (F32.fin ((354 : ℤ) : ℚ)) = true ↔ |(354 : ℤ) - 300| < 55 :=
  (paddle_level_window (Paddle.mk (F32.fin 25) (F32.fin ((300 : ℤ) : ℚ))) 300 354 54 rfl
    (by norm_num) (by norm_num) (by norm_num)).2.1

/-! ## The fresh ball -/

theorem representable_two_pow_31 : Representable 24 (-126) 2147483648 :=
  ⟨1, 31, by norm_num, by norm_num, by norm_num⟩

/-- The conversion of a draw `0 <= r <= RAND_MAX` to `float` is finite and lies between
`0` and `2 ^ 31`. -/
theorem ofInt_rand_bounds (r : ℕ) (hr : r ≤ RAND_MAX) :
    ∃ q : ℚ, F32.ofInt (r : ℤ) = F32.fin q ∧ 0 ≤ q ∧ q ≤ 2147483648 := by
  have hrq : ((r : ℤ) : ℚ) ≤ 2147483648 := by
    have : r ≤ 2147483648 := by unfold RAND_MAX at hr; omega
    exact_mod_cast this
  have h0 : F32.fin ((0 : ℤ) : ℚ) ≤ F32.ofInt (r : ℤ) :=
    F32.le_round_int 0 (by norm_num) (by push_cast; positivity)
  have h1 : F32.ofInt (r : ℤ) ≤ F32.fin 2147483648 :=
    F32.round_le representable_two_pow_31 (by norm_num) hrq
  cases hq : F32.ofInt (r : ℤ) with
  | fin q =>
    rw [hq] at h0 h1
    have h0' : ((0 : ℤ) : ℚ) ≤ q := h0
    exact ⟨q, rfl, by simpa using h0', h1⟩
  | posInf => rw [hq] at h1; exact absurd h1 id
  | negInf => rw [hq] at h0; exact absurd h0 id
  | nan => rw [hq] at h0; exact absurd h0 id

theorem round_5_div : F32.round (5 / 2147483648) = F32.fin (5 / 2147483648) := by
  apply F32.round_eval (-29) _ (by norm_num) (by norm_num) _ (by norm_num)
  norm_num [roundHalfEven]

/-- C17, refuted as stated: when `rand()` returns `RAND_MAX` the fresh ball has
`yspeed = 1`, which is not below 1; and `yspeed` is not `r / RAND_MAX`, because the
divisor is `float(RAND_MAX) = 2 ^ 31`: for `r = 5` it is `5 / 2147483648`. -/
theorem fresh_ball_yspeed_reaches_one :
    (Ball.init RAND_MAX).yspeed = F32.fin 1 ∧
    ¬ ((Ball.init RAND_MAX).yspeed < F32.fin 1) ∧
    (Ball.init 5).yspeed = F32.fin (5 / 2147483648) ∧
    (5 / 2147483648 : ℚ) ≠ 5 / (RAND_MAX : ℚ) := by
  have h : (Ball.init RAND_MAX).yspeed = F32.fin 1 := by
    rw [Ball.init_RAND_MAX]
  refine ⟨h, ?_, ?_, ?_⟩
  · rw [h]
    exact F32.not_fin_lt_fin (le_refl _)
  · unfold Ball.init
    simp only
    rw [ofInt_RAND_MAX]
    have e : F32.ofInt ((5 : ℕ) : ℤ) = F32.fin 5 := F32.ofInt_ofNat 5 (by norm_num)
    rw [e, F32.fin_div_fin _ _ (by norm_num)]
    exact round_5_div
  · unfold RAND_MAX
    norm_num

/-- C17, amended: for every value `r` that `rand()` can return (`0 <= r <= RAND_MAX`), a
freshly created ball has `x = 395`, `y = 295`, `xspeed = 1` and
`yspeed = float(r) / float(RAND_MAX)`, the `float` quotient of the two converted
integers, where `float(RAND_MAX) = 2 ^ 31`; and `0 <= yspeed <= 1`. -/
theorem fresh_ball (r : ℕ) (hr : r ≤ RAND_MAX) :
    (Ball.init r).xpos = F32.fin 395 ∧ (Ball.init r).ypos = F32.fin 295 ∧
    (Ball.init r).xspeed = F32.fin 1 ∧
    (Ball.init r).yspeed = F32.ofInt (r : ℤ) / F32.fin 2147483648 ∧
    F32.fin 0 ≤ (Ball.init r).yspeed ∧ (Ball.init r).yspeed ≤ F32.fin 1 := by
  have hy : (Ball.init r).yspeed = F32.ofInt (r : ℤ) / F32.fin 2147483648 := by
    unfold Ball.init
    simp only
    rw [ofInt_RAND_MAX]
  obtain ⟨q, hq, h0, h1⟩ := ofInt_rand_bounds r hr
  refine ⟨rfl, rfl, rfl, hy, ?_, ?_⟩
  · rw [hy, hq, F32.fin_div_fin _ _ (by norm_num)]
    have := F32.le_round_int (q := q / 2147483648) 0 (by norm_num)
      (by push_cast; positivity)
    simpa using this
  · rw [hy, hq, F32.fin_div_fin _ _ (by norm_num)]
    have := F32.round_le_int (q := q / 2147483648) 1 (by norm_num)
      (by push_cast; rw [div_le_one (by norm_num)]; exact h1)
    simpa using this

theorem fresh_ball_witness :
    (Ball.init 5).xpos = F32.fin 395 ∧ (Ball.init 5).ypos = F32.fin 295 ∧
    (Ball.init 5).xspeed = F32.fin 1 ∧
    (Ball.init 5).yspeed = F32.ofInt ((5 : ℕ) : ℤ) / F32.fin 2147483648 ∧
    F32.fin 0 ≤ (Ball.init 5).yspeed ∧ (Ball.init 5).yspeed ≤ F32.fin 1 :=
  fresh_ball 5 (by decide)

/-! ## The reflecting paddle -/

theorem F32.not_gt_400_of_left {x : F32} (h : x - F32.fin 5 < F32.fin 50) :
    ¬ x > F32.fin 400 := by
  intro h2
  cases x with
  | fin q =>
    have hq : (400 : ℚ) < q := h2
    rw [F32.fin_sub_fin] at h
    have hb := F32.le_round_int (q := q - 5) 395 (by norm_num) (by push_cast; linarith)
    have h3 : F32.fin ((395 : ℤ) : ℚ) < F32.fin 50 := F32.flt_of_fle_of_flt hb h
    rw [F32.fin_lt_fin] at h3
    norm_num at h3
  | posInf => exact absurd h id
  | negInf => exact absurd h2 id
  | nan => exact absurd h2 id

theorem F32.gt_400_of_right {x : F32} (h : x + F32.fin 5 > F32.fin 750) :
    x > F32.fin 400 := by
  cases x with
  | fin q =>
    rw [gt_iff_lt, F32.fin_lt_fin]
    by_contra hc
    have hq : q ≤ 400 := not_lt.mp hc
    rw [F32.fin_add_fin] at h
    have hb := F32.round_le_int (q := q + 5) 405 (by norm_num) (by push_cast; linarith)
    have h3 : F32.fin 750 < F32.fin ((405 : ℤ) : ℚ) := F32.flt_of_flt_of_fle h hb
    rw [F32.fin_lt_fin] at h3
    norm_num at h3
  | posInf => exact trivial
  | negInf => exact absurd h id
  | nan => exact absurd h id

theorem F32.lt_55_of_left {x : F32} (h : x - F32.fin 5 < F32.fin 50) : x < F32.fin 55 := by
  cases x with
  | fin q =>
    rw [F32.fin_lt_fin]
    by_contra hc
    have hq : 55 ≤ q := not_lt.mp hc
    rw [F32.fin_sub_fin] at h
    have hb := F32.le_round_int (q := q - 5) 50 (by norm_num) (by push_cast; linarith)
    have h3 : F32.fin ((50 : ℤ) : ℚ) < F32.fin 50 := F32.flt_of_fle_of_flt hb h
    rw [F32.fin_lt_fin] at h3
    norm_num at h3
  | posInf => exact absurd h id
  | negInf => exact trivial
  | nan => exact absurd h id

theorem F32.gt_745_of_right {x : F32} (h : x + F32.fin 5 > F32.fin 750) :
    x > F32.fin 745 := by
  cases x with
  | fin q =>
    rw [gt_iff_lt, F32.fin_lt_fin]
    by_contra hc
    have hq : q ≤ 745 := not_lt.mp hc
    rw [F32.fin_add_fin] at h
    have hb := F32.round_le_int (q := q + 5) 750 (by norm_num) (by push_cast; linarith)
    have h3 : F32.fin 750 < F32.fin ((750 : ℤ) : ℚ) := F32.flt_of_flt_of_fle h hb
    rw [F32.fin_lt_fin] at h3
    norm_num at h3
  | posInf => exact trivial
  | negInf => exact absurd h id
  | nan => exact absurd h id

/-- C19, refuted as stated: there is no ball and pair of paddles for which a collision
condition of `doesHitPaddle` holds while the test `ball.x > 400` of
`calculateReflectionFactor` selects the other paddle. -/
theorem reflection_paddle_never_diverges :
    ¬ ∃ (ball : Ball) (left right : Paddle),
      ball.doesHitPaddle left right = true ∧
      (((ball.xpos - F32.fin 5 < F32.fin 50 ∧ left.isAtPaddleLevel ball.ypos = true) ∧
          ball.xpos > F32.fin 400) ∨
       ((ball.xpos + F32.fin 5 > F32.fin 750 ∧ right.isAtPaddleLevel ball.ypos = true) ∧
          ¬ ball.xpos > F32.fin 400)) := by
  rintro ⟨ball, left, right, -, (⟨⟨h1, -⟩, h2⟩ | ⟨⟨h1, -⟩, h2⟩)⟩
  · exact F32.not_gt_400_of_left h1 h2
  · exact h2 (F32.gt_400_of_right h1)

/-- C19, amended: in every game state in which the ball hits a paddle, exactly one of
the two collision conditions of `doesHitPaddle` holds, and `calculateReflectionFactor`
uses that paddle: the left condition needs `x < 55`, the right one `x > 745`, so the
choice by `ball.x > 400` agrees with the colliding paddle. -/
theorem reflection_uses_colliding_paddle (ball : Ball) (left right : Paddle)
    (hhit : ball.doesHitPaddle left right = true) :
    ((ball.xpos - F32.fin 5 < F32.fin 50 ∧ left.isAtPaddleLevel ball.ypos = true) ∧
      ¬ (ball.xpos + F32.fin 5 > F32.fin 750 ∧ right.isAtPaddleLevel ball.ypos = true) ∧
      calculateReflectionFactor ball left right =
        (ball.ypos - left.ypos) / F32.fin 100 ∧
      ball.xpos < F32.fin 55) ∨
    ((ball.xpos + F32.fin 5 > F32.fin 750 ∧ right.isAtPaddleLevel ball.ypos = true) ∧
      ¬ (ball.xpos - F32.fin 5 < F32.fin 50 ∧ left.isAtPaddleLevel ball.ypos = true) ∧
      calculateReflectionFactor ball left right =
        (ball.ypos - right.ypos) / F32.fin 100 ∧
      ball.xpos > F32.fin 745) := by
  have hcases : (ball.xpos - F32.fin 5 < F32.fin 50 ∧ left.isAtPaddleLevel ball.ypos = true) ∨
      (ball.xpos + F32.fin 5 > F32.fin 750 ∧ right.isAtPaddleLevel ball.ypos = true) := by
    simpa [Ball.doesHitPaddle] using hhit
  rcases hcases with h | h
  · left
    have hx : ¬ ball.xpos > F32.fin 400 := F32.not_gt_400_of_left h.1
    refine ⟨h, ?_, ?_, F32.lt_55_of_left h.1⟩
    · rintro ⟨h2, -⟩
      exact hx (F32.gt_400_of_right h2)
    · simp only [calculateReflectionFactor, if_neg hx]
  · right
    have hx : ball.xpos > F32.fin 400 := F32.gt_400_of_right h.1
    refine ⟨h, ?_, ?_, F32.gt_745_of_right h.1⟩
    · rintro ⟨h2, -⟩
      exact F32.not_gt_400_of_left h2 hx
    · simp only [calculateReflectionFactor, if_pos hx]

theorem reflection_uses_colliding_paddle_witness :
    (((Ball.mk (F32.fin 54) (F32.fin 300) (F32.fin (-1)) (F32.fin 0)).xpos - F32.fin 5 <
          F32.fin 50 ∧
        (Paddle.mk (F32.fin 25) (F32.fin 310)).isAtPaddleLevel
          (Ball.mk (F32.fin 54) (F32.fin 300) (F32.fin (-1)) (F32.fin 0)).ypos = true) ∧
      ¬ ((Ball.mk (F32.fin 54) (F32.fin 300) (F32.fin (-1)) (F32.fin 0)).xpos + F32.fin 5 >
          F32.fin 750 ∧
        (Paddle.mk (F32.fin 750) (F32.fin 200)).isAtPaddleLevel
          (Ball.mk (F32.fin 54) (F32.fin 300) (F32.fin (-1)) (F32.fin 0)).ypos = true) ∧
      calculateReflectionFactor (Ball.mk (F32.fin 54) (F32.fin 300) (F32.fin (-1)) (F32.fin 0))
          (Paddle.mk (F32.fin 25) (F32.fin 310)) (Paddle.mk (F32.fin 750) (F32.fin 200)) =
        ((Ball.mk (F32.fin 54) (F32.fin 300) (F32.fin (-1)) (F32.fin 0)).ypos -
          (Paddle.mk (F32.fin 25) (F32.fin 310)).ypos) / F32.fin 100 ∧
      (Ball.mk (F32.fin 54) (F32.fin 300) (F32.fin (-1)) (F32.fin 0)).xpos < F32.fin 55) ∨
    (((Ball.mk (F32.fin 54) (F32.fin 300) (F32.fin (-1)) (F32.fin 0)).xpos + F32.fin 5 >
          F32.fin 750 ∧
        (Paddle.mk (F32.fin 750) (F32.fin 200)).isAtPaddleLevel
          (Ball.mk (F32.fin 54) (F32.fin 300) (F32.fin (-1)) (F32.fin 0)).ypos = true) ∧
      ¬ ((Ball.mk (F32.fin 54) (F32.fin 300) (F32.fin (-1)) (F32.fin 0)).xpos - F32.fin 5 <
          F32.fin 50 ∧
        (Paddle.mk (F32.fin 25) (F32.fin 310)).isAtPaddleLevel
          (Ball.mk (F32.fin 54) (F32.fin 300) (F32.fin (-1)) (F32.fin 0)).ypos = true) ∧
      calculateReflectionFactor (Ball.mk (F32.fin 54) (F32.fin 300) (F32.fin (-1)) (F32.fin 0))
          (Paddle.mk (F32.fin 25) (F32.fin 310)) (Paddle.mk (F32.fin 750) (F32.fin 200)) =
        ((Ball.mk (F32.fin 54) (F32.fin 300) (F32.fin (-1)) (F32.fin 0)).ypos -
          (Paddle.mk (F32.fin 750) (F32.fin 200)).ypos) / F32.fin 100 ∧
      (Ball.mk (F32.fin 54) (F32.fin 300) (F32.fin (-1)) (F32.fin 0)).xpos > F32.fin 745) :=
  reflection_uses_colliding_paddle
    (Ball.mk (F32.fin 54) (F32.fin 300) (F32.fin (-1)) (F32.fin 0))
    (Paddle.mk (F32.fin 25) (F32.fin 310)) (Paddle.mk (F32.fin 750) (F32.fin 200))
    ((doesHitPaddle_iff _ _ _).mpr (Or.inl ⟨left_test_54, level_310_300 _⟩))

/-! ## The ball never stalls horizontally in a game -/

theorem run_xspeed_ge_one (inputs : List (Move × ℕ × ℤ)) :
    ∀ (g : GameState), F32.fin 1 ≤ g.ball.xspeed.abs →
      F32.fin 1 ≤ (run g inputs).ball.xspeed.abs := by
  induction inputs with
  | nil => intro g h; exact h
  | cons i is ih =>
    intro g h
    exact ih (tick g i) (updatePosition_xspeed_ge_one i.2.1 i.2.2 { g with move := i.1 } h)

theorem F32.neg_one_mul_ne_zero {x : F32} (h : F32.fin 1 ≤ x.abs) :
    F32.fin (-1) * x ≠ F32.fin 0 := by
  cases x with
  | fin a =>
    have ha : (1 : ℚ) ≤ |a| := h
    rw [F32.fin_mul_fin]
    intro h0
    rcases le_abs.mp ha with h1 | h1
    · have hb := F32.round_le_int (q := -1 * a) (-1) (by norm_num) (by push_cast; linarith)
      rw [h0] at hb
      have : (0 : ℚ) ≤ ((-1 : ℤ) : ℚ) := hb
      norm_num at this
    · have hb := F32.le_round_int (q := -1 * a) 1 (by norm_num) (by push_cast; linarith)
      rw [h0] at hb
      have : ((1 : ℤ) : ℚ) ≤ 0 := hb
      norm_num at this
  | posInf =>
    intro h0
    have e : F32.fin (-1) * F32.posInf = F32.negInf := by
      show F32.mul (F32.fin (-1)) F32.posInf = _
      simp [F32.mul]
    rw [e] at h0
    exact F32.noConfusion h0
  | negInf =>
    intro h0
    have e : F32.fin (-1) * F32.negInf = F32.posInf := by
      show F32.mul (F32.fin (-1)) F32.negInf = _
      simp [F32.mul]
    rw [e] at h0
    exact F32.noConfusion h0
  | nan => exact absurd h id

theorem updatePositionChecked_of_ge_one (rand : ℕ) (undef : ℤ) (g : GameState)
    (h : F32.fin 1 ≤ g.ball.xspeed.abs) :
    updatePositionChecked rand undef g = some (updatePosition rand undef g) := by
  have hne : ¬ (g.ball.xspeed = F32.fin 0 ∧ g.ball.yspeed = F32.fin 0) :=
    fun hc => F32.ne_zero_of_one_le_abs h hc.1
  have hb : (applyMove (stallGuard g)).ball = g.ball := by
    rw [applyMove_eq]
    exact stallGuard_ball_of_moving hne
  have hdiv : ¬ (g.ball.xspeed ≤ F32.fin 0 ∧ F32.fin (-1) * g.ball.xspeed = F32.fin 0) :=
    fun hc => F32.neg_one_mul_ne_zero h hc.2
  unfold updatePositionChecked makeAIMoveChecked
  rw [hb, if_neg hdiv]

/-- C20: in every state reached from the initial game state by a finite sequence of
ticks, whatever the move commands, the random draws and the results of undefined
conversions, the ball has `|xspeed| >= 1`, hence `xspeed != 0`; so the next tick never
divides by zero in `makeAIMove`: the checked tick returns a state, the one
`updatePosition` computes. -/
theorem game_never_divides_by_zero (name : String) (rand0 : ℕ)
    (inputs : List (Move × ℕ × ℤ)) (m : Move) (rand : ℕ) (undef : ℤ) :
    F32.fin 1 ≤ (run (createInitialGameState name rand0) inputs).ball.xspeed.abs ∧
    (run (createInitialGameState name rand0) inputs).ball.xspeed ≠ F32.fin 0 ∧
    F32.fin (-1) * (stallGuard (run (createInitialGameState name rand0) inputs)).ball.xspeed ≠
      F32.fin 0 ∧
    updatePositionChecked rand undef
        { run (createInitialGameState name rand0) inputs with move := m } =
      some (tick (run (createInitialGameState name rand0) inputs) (m, rand, undef)) := by
  have h1 : F32.fin 1 ≤ (run (createInitialGameState name rand0) inputs).ball.xspeed.abs :=
    run_xspeed_ge_one inputs _
      ((F32.fin_le_fin _ _).mpr (by simp [createInitialGameState, Ball.init]))
  have h2 : (run (createInitialGameState name rand0) inputs).ball.xspeed ≠ F32.fin 0 :=
    F32.ne_zero_of_one_le_abs h1
  refine ⟨h1, h2, ?_, ?_⟩
  · rw [stallGuard_ball_of_moving (fun hc => h2 hc.1)]
    exact F32.neg_one_mul_ne_zero h1
  · exact updatePositionChecked_of_ge_one rand undef _ h1

end Pong
